import Mathlib

/-!
# Finance tracker assistant: the agent loop and its tool dispatcher

A shallow embedding of `backend/src/services/agent.js` (`tools`, `callTool`,
`fetchChatCompletion`, `runAgent`) and of the two route handlers that repeat the
analytics of its tools (`routes/budgets.js`, `routes/analytics.js`), together
with the properties proved about them.

Conventions of the embedding

* JavaScript values are the inductive `JSValue`. Numbers are exact rationals
  (`num q`) plus `nan`; IEEE rounding of doubles is not modelled.
* An `async` function is a function `World → Result α`: it either returns a
  value or throws, and in both cases hands back the world it has reached, so
  rows written before an exception stay written.
* Everything the file does not own is a field of `Env`: the built-ins of the
  JavaScript runtime (`Builtins`), the chat-completion endpoint (`fetch`), the
  database server and its driver (`Postgres`, `queryFault`, `clock`) and the wall clock.
-/

namespace FinanceTracker

/-! ## JavaScript values -/

/-- A JavaScript value as it occurs in tool arguments and tool results. -/
inductive JSValue where
  | undefined : JSValue
  | null : JSValue
  | bool (b : Bool) : JSValue
  | num (q : ℚ) : JSValue
  | nan : JSValue
  | str (s : String) : JSValue
  | arr (items : List JSValue) : JSValue
  | obj (fields : List (String × JSValue)) : JSValue

/-- An exception value: the error class and its message. -/
inductive Exn where
  | typeError (message : String) : Exn
  | syntaxError (message : String) : Exn
  | error (message : String) : Exn
  | databaseError (message : String) : Exn
  deriving DecidableEq, Repr

/-- The built-ins of the JavaScript runtime that the service calls. -/
structure Builtins where
  /-- `JSON.parse`: the parsed value, or the `SyntaxError` it throws. -/
  parse : String → Except Exn JSValue
  /-- `JSON.stringify`. -/
  stringify : JSValue → String
  /-- `String.prototype.toUpperCase`. -/
  toUpperCase : String → String
  /-- `ToNumber` on a string: `none` is `NaN`. -/
  stringToNumber : String → Option ℚ
  /-- `ToNumber` on an array or object: `none` is `NaN`. -/
  objectToNumber : JSValue → Option ℚ
  /-- `ToString` of a value, as performed by a template literal. -/
  toStr : JSValue → String
  /-- `Number.prototype.toFixed` on a finite number. -/
  toFixed : ℚ → Nat → String

namespace JSValue

/-- Property read `v[key]` on a value that is not `null` or `undefined`: an own
property of an object, `undefined` otherwise. The keys read by the service are
no properties of arrays, strings, numbers or booleans. -/
def get (v : JSValue) (key : String) : JSValue :=
  match v with
  | obj fields => ((fields.reverse.find? (fun kv => kv.1 == key)).map Prod.snd).getD undefined
  | _ => undefined

/-- Truthiness of a value (`ToBoolean`). -/
def truthy : JSValue → Bool
  | undefined => false
  | null => false
  | bool b => b
  | num q => decide (q ≠ 0)
  | nan => false
  | str s => decide (s ≠ "")
  | arr _ => true
  | obj _ => true

/-- Whether the value is `null` or `undefined`. -/
def nullish : JSValue → Bool
  | undefined => true
  | null => true
  | _ => false

/-- The operator `a || b`. -/
def or (a b : JSValue) : JSValue := if a.truthy then a else b

/-- The operator `a ?? b`. -/
def coalesce (a b : JSValue) : JSValue := if a.nullish then b else a

/-- A destructuring default `{ k = d }`: the default applies to `undefined` only. -/
def withDefault (a d : JSValue) : JSValue :=
  match a with
  | undefined => d
  | v => v

/-- A number that may be `NaN` (`none`) as a value. -/
def ofNumber : Option ℚ → JSValue
  | none => nan
  | some q => num q

end JSValue

namespace JS

/-- `ToNumber`: `none` is `NaN`. -/
def toNumber (js : Builtins) : JSValue → Option ℚ
  | .undefined => none
  | .null => some 0
  | .bool b => some (if b then 1 else 0)
  | .num q => some q
  | .nan => none
  | .str s => js.stringToNumber s
  | v => js.objectToNumber v

/-- `Math.round` on a finite number: the nearest integer, ties towards +∞. -/
def round (q : ℚ) : ℤ := ⌊q + 1 / 2⌋

/-- `x.toFixed(digits)` where `x` may be `NaN`. -/
def toFixed (js : Builtins) (x : Option ℚ) (digits : Nat) : String :=
  match x with
  | none => "NaN"
  | some q => js.toFixed q digits

end JS

/-! ## The database

The migrations are not part of the sources; the tables follow the row types of
`backend/src/types.d.ts`. `NUMERIC` columns hold rationals, dates are ISO
strings, timestamps are natural numbers. -/

structure Category where
  id : Nat
  user_id : Option Nat
  name : String
  type : String
  deriving DecidableEq

structure Transaction where
  id : Nat
  user_id : Nat
  amount : ℚ
  type : String
  category_id : Option Nat
  merchant : Option String
  description : Option String
  date : String
  receipt_url : Option String
  created_at : Nat
  deriving DecidableEq

structure Budget where
  id : Nat
  user_id : Nat
  category_id : Option Nat
  monthly_limit : ℚ
  month : String
  created_at : Nat
  deriving DecidableEq

structure Goal where
  id : Nat
  user_id : Nat
  name : String
  target_amount : ℚ
  current_amount : ℚ
  target_date : String
  created_at : Nat
  deriving DecidableEq

structure ChatMessage where
  id : Nat
  user_id : Nat
  role : String
  content : String
  tool_name : Option String
  created_at : Nat
  deriving DecidableEq

/-- A table: its rows in insertion order and the next value of its id sequence. -/
structure Table (α : Type) where
  rows : List α
  nextId : Nat
  deriving DecidableEq

structure DB where
  categories : Table Category
  transactions : Table Transaction
  budgets : Table Budget
  goals : Table Goal
  chat_messages : Table ChatMessage
  deriving DecidableEq

/-! ## Messages exchanged with the model service -/

/-- The `function` part of a tool call; `arguments` is absent or a JSON text. -/
structure ToolFunction where
  name : String
  arguments : Option String
  deriving DecidableEq

structure ToolCall where
  id : String
  function : ToolFunction
  deriving DecidableEq

/-- An element of the `messages` array sent to the model service. -/
structure Message where
  role : String
  content : String
  tool_calls : Option (List ToolCall) := none
  name : Option String := none
  tool_call_id : Option String := none
  deriving DecidableEq

/-- The `message` of a response choice. -/
structure ModelMessage where
  content : Option String
  tool_calls : Option (List ToolCall)
  deriving DecidableEq

structure Choice where
  message : ModelMessage
  deriving DecidableEq

/-- The JSON body of a chat-completion response. -/
structure Completion where
  choices : Option (List Choice)
  deriving DecidableEq

/-- The expression `completion.choices?.[0]`. -/
def Completion.firstChoice (completion : Completion) : Option Choice :=
  completion.choices.bind List.head?

/-- The outcome of `fetch`: the status, the body as text, and the body as JSON
(or the exception `resp.json()` throws). -/
structure HttpResponse where
  status : Nat
  text : String
  json : Except Exn Completion

/-- The `ok` flag of a response: a status in the range 200..299. -/
def HttpResponse.ok (resp : HttpResponse) : Bool :=
  decide (200 ≤ resp.status) && decide (resp.status ≤ 299)

/-- The behaviour of the database server and of its driver that the statements
of the service rely on. -/
structure Postgres where
  /-- The text the driver sends for a bound parameter that is neither a string
  nor `null`/`undefined`; `none` is SQL `NULL`. -/
  prepareValue : JSValue → Option String
  /-- Input conversion of a text to `NUMERIC`; `none` is a conversion error. -/
  numericIn : String → Option ℚ
  /-- Input conversion of a text to `DATE`, giving `YYYY-MM-DD`; `none` is a
  conversion error. -/
  dateIn : String → Option String
  /-- `text ILIKE pattern`; `none` is a pattern error. -/
  ilike : String → String → Option Bool
  /-- How a `NUMERIC` value is delivered to JavaScript. -/
  numeric : ℚ → JSValue
  /-- How a `DATE` value is delivered to JavaScript. -/
  date : String → JSValue
  /-- How a timestamp is delivered to JavaScript. -/
  timestamp : Nat → JSValue

/-! ## The world and the effect type -/

/-- The state a turn acts on: the database, the number of queries issued so
far, and the `messages` argument of every model call made so far, in order. -/
structure World where
  db : DB
  queries : Nat
  modelCalls : List (List Message)
  deriving DecidableEq

/-- Everything outside the service. -/
structure Env where
  js : Builtins
  pg : Postgres
  /-- The endpoint: the outcome of the `n`-th request (counting from 0) sent
  with the given messages; `error` is a transport failure thrown by `fetch`. -/
  fetch : Nat → List Message → Except Exn HttpResponse
  /-- The exception raised by the `n`-th query (counting from 0), if any. -/
  queryFault : Nat → Option Exn
  /-- The database time at the `n`-th query. -/
  clock : Nat → Nat
  /-- `new Date().toISOString().slice(0, 10)`. -/
  today : String
  /-- The local year and month, `YYYY-MM`. -/
  month : String
  /-- `toLocaleDateString('en-US', { weekday: 'long' })`. -/
  dayOfWeek : String
  /-- `toLocaleDateString('en-US', { year: 'numeric', month: 'long', day: 'numeric' })`. -/
  fullDate : String

/-- The result of running an `async` function: a value or a thrown exception,
with the world reached. -/
inductive Result (α : Type) where
  | ok (value : α) (world : World) : Result α
  | throw (exn : Exn) (world : World) : Result α

namespace Result

def world {α : Type} : Result α → World
  | ok _ w => w
  | throw _ w => w

/-- Whether the call returned (did not throw). -/
def returns {α : Type} : Result α → Bool
  | ok _ _ => true
  | throw _ _ => false

def value? {α : Type} : Result α → Option α
  | ok a _ => some a
  | throw _ _ => none

end Result

/-- An `async` function body. -/
def Eff (α : Type) : Type := World → Result α

namespace Eff

def pure {α : Type} (a : α) : Eff α := fun w => .ok a w

def bind {α β : Type} (m : Eff α) (f : α → Eff β) : Eff β := fun w =>
  match m w with
  | .ok a w1 => f a w1
  | .throw e w1 => .throw e w1

def throw {α : Type} (e : Exn) : Eff α := fun w => .throw e w

/-- Lift a computation that touches no state. -/
def ofExcept {α : Type} (r : Except Exn α) : Eff α :=
  match r with
  | .ok a => pure a
  | .error e => throw e

end Eff

instance : Monad Eff where
  pure := Eff.pure
  bind := Eff.bind

/-- One call of `query(text, params)` of `db.js`: the statement runs against the
database and its result comes back, unless the connection fails at this query or
the statement raises an error. `stmt` receives the database time. -/
def query {α : Type} (env : Env) (stmt : Nat → DB → Except Exn (α × DB)) : Eff α := fun w =>
  let w1 : World := { w with queries := w.queries + 1 }
  match env.queryFault w.queries with
  | some e => .throw e w1
  | none =>
    match stmt (env.clock w.queries) w.db with
    | .ok (a, db) => .ok a { w1 with db := db }
    | .error e => .throw e w1

/-! ## The statements of `agent.js`

Each definition is the meaning of one SQL text of the file. A `SELECT` without
`ORDER BY` delivers its rows in table order, and `LIMIT 1` takes the first. -/

namespace Sql

/-- The text sent for a bound parameter; `none` is `NULL`. -/
def param (pg : Postgres) : JSValue → Option String
  | .undefined => none
  | .null => none
  | .str s => some s
  | v => pg.prepareValue v

/-- A parameter stored into a `NUMERIC NOT NULL` column. -/
def numeric (pg : Postgres) (column : String) (v : JSValue) : Except Exn ℚ :=
  match param pg v with
  | none => .error (.databaseError ("null value in column " ++ column))
  | some text =>
    match pg.numericIn text with
    | some q => .ok q
    | none => .error (.databaseError "invalid input syntax for type numeric")

/-- A parameter stored into a `DATE NOT NULL` column. -/
def date (pg : Postgres) (column : String) (v : JSValue) : Except Exn String :=
  match param pg v with
  | none => .error (.databaseError ("null value in column " ++ column))
  | some text =>
    match pg.dateIn text with
    | some d => .ok d
    | none => .error (.databaseError "invalid input syntax for type date")

/-- `to_char(date, 'YYYY-MM')` of a stored date `YYYY-MM-DD`. -/
def yearMonth (date : String) : String := String.mk (date.data.take 7)

/-- `(user_id = $1 OR user_id IS NULL)` on a category. -/
def visible (userId : Nat) (c : Category) : Bool :=
  decide (c.user_id = some userId) || decide (c.user_id = none)

/-- `SELECT id FROM categories WHERE (user_id = $1 OR user_id IS NULL) AND name
ILIKE $2 AND type = $3 LIMIT 1`: the id of the first matching row, if any. -/
def selectCategoryIlike (pg : Postgres) (userId : Nat) (name type : Option String) :
    List Category → Except Exn (Option Nat)
  | [] => .ok none
  | c :: rest =>
    match name, type with
    | some pattern, some ty =>
      if visible userId c then
        match pg.ilike c.name pattern with
        | none => .error (.databaseError "invalid ILIKE pattern")
        | some true =>
          if c.type = ty then .ok (some c.id)
          else selectCategoryIlike pg userId name type rest
        | some false => selectCategoryIlike pg userId name type rest
      else selectCategoryIlike pg userId name type rest
    | _, _ => .ok none

/-- `SELECT id FROM categories WHERE (user_id = $1 OR user_id IS NULL) AND name =
$2 LIMIT 1`: the id of the first matching row, if any. -/
def selectCategoryByName (userId : Nat) (name : Option String) (rows : List Category) :
    Option Nat :=
  match name with
  | none => none
  | some n => (rows.find? (fun c => visible userId c && decide (c.name = n))).map (fun c => c.id)

/-- `INSERT INTO categories (user_id, name, type) VALUES ($1, $2, $3) RETURNING id`. -/
def insertCategory (userId : Nat) (name type : Option String) (db : DB) :
    Except Exn (Nat × DB) :=
  match name, type with
  | some n, some ty =>
    let row : Category := { id := db.categories.nextId, user_id := some userId, name := n, type := ty }
    .ok (row.id, { db with categories :=
      { rows := db.categories.rows ++ [row], nextId := db.categories.nextId + 1 } })
  | none, _ => .error (.databaseError "null value in column name")
  | _, none => .error (.databaseError "null value in column type")

/-- `INSERT INTO transactions (user_id, amount, type, category_id, merchant,
description, date) VALUES ($1,$2,$3,$4,$5,$6,$7) RETURNING *`. -/
def insertTransaction (pg : Postgres) (userId : Nat) (amount type : JSValue)
    (categoryId : Option Nat) (merchant description date : JSValue) (now : Nat) (db : DB) :
    Except Exn (Transaction × DB) :=
  match numeric pg "amount" amount with
  | .error e => .error e
  | .ok a =>
    match param pg type with
    | none => .error (.databaseError "null value in column type")
    | some ty =>
      match Sql.date pg "date" date with
      | .error e => .error e
      | .ok d =>
        let row : Transaction :=
          { id := db.transactions.nextId, user_id := userId, amount := a, type := ty,
            category_id := categoryId, merchant := param pg merchant,
            description := param pg description, date := d, receipt_url := none,
            created_at := now }
        .ok (row, { db with transactions :=
          { rows := db.transactions.rows ++ [row], nextId := db.transactions.nextId + 1 } })

/-- `COALESCE(c.name, 'Uncategorized')` over `transactions t LEFT JOIN categories c
ON t.category_id = c.id`: one label for every pair of the join. -/
def categoryLabels (cats : List Category) (t : Transaction) : List String :=
  match cats.filter (fun c => decide (some c.id = t.category_id)) with
  | [] => ["Uncategorized"]
  | cs => cs.map (fun c => c.name)

/-- `SELECT COALESCE(c.name, 'Uncategorized') AS category, SUM(t.amount) AS total
FROM transactions t LEFT JOIN categories c ON t.category_id = c.id WHERE t.user_id
= $1 AND t.type = 'expense' AND to_char(t.date, 'YYYY-MM') = $2 GROUP BY
COALESCE(c.name, 'Uncategorized') ORDER BY total DESC`. -/
def spendingByCategory (userId : Nat) (month : Option String) (db : DB) : List (String × ℚ) :=
  match month with
  | none => []
  | some m =>
    let joined : List (String × ℚ) :=
      (db.transactions.rows.filter (fun t =>
        decide (t.user_id = userId) && decide (t.type = "expense") &&
          decide (yearMonth t.date = m))).flatMap
        (fun t => (categoryLabels db.categories.rows t).map (fun label => (label, t.amount)))
    let groups : List (String × ℚ) :=
      (joined.map Prod.fst).dedup.map (fun label =>
        (label, ((joined.filter (fun r => decide (r.1 = label))).map Prod.snd).sum))
    groups.insertionSort (fun a b => b.2 ≤ a.2)

/-- A row of the per-category aggregates: `COALESCE(category_id, 0)` and the
aggregate value. -/
structure AggregateRow where
  category_id : Nat
  value : ℚ
  deriving DecidableEq

/-- The grouping `GROUP BY COALESCE(category_id, 0)` of the given transactions
with the aggregate `agg` applied to the amounts of every group. -/
def groupByCategoryId (agg : List ℚ → ℚ) (ts : List Transaction) : List AggregateRow :=
  (ts.map (fun t => t.category_id.getD 0)).dedup.map (fun key =>
    { category_id := key,
      value := agg ((ts.filter (fun t => decide (t.category_id.getD 0 = key))).map
        (fun t => t.amount)) })

/-- The aggregate `AVG` on a non-empty group. -/
def avg (amounts : List ℚ) : ℚ := amounts.sum / amounts.length

/-- `SELECT COALESCE(category_id, 0) AS category_id, SUM(amount) AS spent FROM
transactions WHERE user_id = $1 AND type = 'expense' AND to_char(date, 'YYYY-MM') =
$2 GROUP BY COALESCE(category_id, 0)`. -/
def spentByCategoryId (userId : Nat) (month : String) (db : DB) : List AggregateRow :=
  groupByCategoryId List.sum (db.transactions.rows.filter (fun t =>
    decide (t.user_id = userId) && decide (t.type = "expense") &&
      decide (yearMonth t.date = month)))

/-- `SELECT COALESCE(category_id, 0) AS category_id, AVG(amount) AS avg_amount FROM
transactions WHERE user_id = $1 AND type = 'expense' GROUP BY COALESCE(category_id,
0)`. -/
def avgByCategoryId (userId : Nat) (db : DB) : List AggregateRow :=
  groupByCategoryId avg (db.transactions.rows.filter (fun t =>
    decide (t.user_id = userId) && decide (t.type = "expense")))

/-- A budget row joined with the name of its category (`b.*, c.name AS
category_name`). -/
structure BudgetRow where
  budget : Budget
  category_name : Option String
  deriving DecidableEq

/-- A transaction row joined with the name of its category (`t.*, c.name AS
category_name`). -/
structure TransactionRow where
  transaction : Transaction
  category_name : Option String
  deriving DecidableEq

/-- The names `c.name` of a `LEFT JOIN categories c ON x.category_id = c.id`:
one per matching category, a single `NULL` when there is none. -/
def joinedNames (cats : List Category) (categoryId : Option Nat) : List (Option String) :=
  match cats.filter (fun c => decide (some c.id = categoryId)) with
  | [] => [none]
  | cs => cs.map (fun c => some c.name)

/-- `SELECT b.*, c.name AS category_name FROM budgets b LEFT JOIN categories c ON
b.category_id = c.id WHERE b.user_id = $1 AND b.month = $2`. -/
def selectBudgets (userId : Nat) (month : String) (db : DB) : List BudgetRow :=
  (db.budgets.rows.filter (fun b => decide (b.user_id = userId) && decide (b.month = month))).flatMap
    (fun b => (joinedNames db.categories.rows b.category_id).map
      (fun n => { budget := b, category_name := n }))

/-- `SELECT t.*, c.name AS category_name FROM transactions t LEFT JOIN categories c
ON t.category_id = c.id WHERE t.user_id = $1 AND t.type = 'expense'`. -/
def selectExpenses (userId : Nat) (db : DB) : List TransactionRow :=
  (db.transactions.rows.filter (fun t =>
    decide (t.user_id = userId) && decide (t.type = "expense"))).flatMap
    (fun t => (joinedNames db.categories.rows t.category_id).map
      (fun n => { transaction := t, category_name := n }))

/-- `INSERT INTO budgets (user_id, category_id, monthly_limit, month) VALUES
($1,$2,$3,$4) ON CONFLICT (user_id, category_id, month) DO UPDATE SET
monthly_limit = EXCLUDED.monthly_limit RETURNING *`. -/
def upsertBudget (pg : Postgres) (userId categoryId : Nat) (limit month : JSValue)
    (now : Nat) (db : DB) : Except Exn (Budget × DB) :=
  match numeric pg "monthly_limit" limit with
  | .error e => .error e
  | .ok l =>
    match param pg month with
    | none => .error (.databaseError "null value in column month")
    | some m =>
      let same : Budget → Bool := fun b =>
        decide (b.user_id = userId) && decide (b.category_id = some categoryId) &&
          decide (b.month = m)
      match db.budgets.rows.find? same with
      | some old =>
        let row : Budget := { old with monthly_limit := l }
        .ok (row, { db with budgets :=
          { rows := db.budgets.rows.map (fun b => if same b then { b with monthly_limit := l } else b),
            nextId := db.budgets.nextId } })
      | none =>
        let row : Budget :=
          { id := db.budgets.nextId, user_id := userId, category_id := some categoryId,
            monthly_limit := l, month := m, created_at := now }
        .ok (row, { db with budgets :=
          { rows := db.budgets.rows ++ [row], nextId := db.budgets.nextId + 1 } })

/-- `INSERT INTO goals (user_id, name, target_amount, current_amount, target_date)
VALUES ($1, $2, $3, $4, $5) RETURNING *`. -/
def insertGoal (pg : Postgres) (userId : Nat) (name targetAmount currentAmount targetDate : JSValue)
    (now : Nat) (db : DB) : Except Exn (Goal × DB) :=
  match param pg name with
  | none => .error (.databaseError "null value in column name")
  | some n =>
    match numeric pg "target_amount" targetAmount with
    | .error e => .error e
    | .ok target =>
      match numeric pg "current_amount" currentAmount with
      | .error e => .error e
      | .ok current =>
        match Sql.date pg "target_date" targetDate with
        | .error e => .error e
        | .ok d =>
          let row : Goal :=
            { id := db.goals.nextId, user_id := userId, name := n, target_amount := target,
              current_amount := current, target_date := d, created_at := now }
          .ok (row, { db with goals :=
            { rows := db.goals.rows ++ [row], nextId := db.goals.nextId + 1 } })

/-- `SELECT role, content, tool_name FROM chat_messages WHERE user_id = $1 ORDER BY
created_at ASC LIMIT 30`; rows of equal `created_at` keep their table order. -/
def selectHistory (userId : Nat) (db : DB) : List ChatMessage :=
  (((db.chat_messages.rows.filter (fun m => decide (m.user_id = userId))).insertionSort
    (fun a b => a.created_at ≤ b.created_at))).take 30

/-- `INSERT INTO chat_messages (user_id, role, content[, tool_name]) VALUES (...)`
with `created_at` the time of the insertion; returns the new id. -/
def insertChatMessage (userId : Nat) (role content : String) (toolName : Option String)
    (now : Nat) (db : DB) : Except Exn (Nat × DB) :=
  let row : ChatMessage :=
    { id := db.chat_messages.nextId, user_id := userId, role := role, content := content,
      tool_name := toolName, created_at := now }
  .ok (row.id, { db with chat_messages :=
    { rows := db.chat_messages.rows ++ [row], nextId := db.chat_messages.nextId + 1 } })

end Sql

/-! ## Rows as JavaScript objects -/

namespace JSValue

def ofNat (n : Nat) : JSValue := num n

def ofOptNat : Option Nat → JSValue
  | none => null
  | some n => num n

def ofOptString : Option String → JSValue
  | none => null
  | some s => str s

end JSValue

/-- The properties of a `transactions` row. -/
def Transaction.toFields (pg : Postgres) (t : Transaction) : List (String × JSValue) :=
  [("id", .ofNat t.id), ("user_id", .ofNat t.user_id), ("amount", pg.numeric t.amount),
   ("type", .str t.type), ("category_id", .ofOptNat t.category_id),
   ("merchant", .ofOptString t.merchant), ("description", .ofOptString t.description),
   ("date", pg.date t.date), ("receipt_url", .ofOptString t.receipt_url),
   ("created_at", pg.timestamp t.created_at)]

/-- The properties of a `budgets` row. -/
def Budget.toFields (pg : Postgres) (b : Budget) : List (String × JSValue) :=
  [("id", .ofNat b.id), ("user_id", .ofNat b.user_id), ("category_id", .ofOptNat b.category_id),
   ("monthly_limit", pg.numeric b.monthly_limit), ("month", .str b.month),
   ("created_at", pg.timestamp b.created_at)]

/-- The properties of a `goals` row. -/
def Goal.toFields (pg : Postgres) (g : Goal) : List (String × JSValue) :=
  [("id", .ofNat g.id), ("user_id", .ofNat g.user_id), ("name", .str g.name),
   ("target_amount", pg.numeric g.target_amount),
   ("current_amount", pg.numeric g.current_amount), ("target_date", pg.date g.target_date),
   ("created_at", pg.timestamp g.created_at)]

/-- The properties of a row `b.*, c.name AS category_name`. -/
def Sql.BudgetRow.toFields (pg : Postgres) (b : Sql.BudgetRow) : List (String × JSValue) :=
  b.budget.toFields pg ++ [("category_name", .ofOptString b.category_name)]

/-- The properties of a row `t.*, c.name AS category_name`. -/
def Sql.TransactionRow.toFields (pg : Postgres) (t : Sql.TransactionRow) :
    List (String × JSValue) :=
  t.transaction.toFields pg ++ [("category_name", .ofOptString t.category_name)]

/-! ## The analytics of the tools -/

/-- A JavaScript `Map` from category ids to numbers, as a list of entries. -/
abbrev NumMap := List (Nat × ℚ)

namespace NumMap

/-- `map.set(key, value)`: replace the entry of `key`, or append a new one. -/
def set (m : NumMap) (key : Nat) (value : ℚ) : NumMap :=
  if m.any (fun e => e.1 == key) then
    m.map (fun e => if e.1 == key then (key, value) else e)
  else m ++ [(key, value)]

/-- `map.get(key)`; `none` is `undefined`. -/
def get (m : NumMap) (key : Nat) : Option ℚ :=
  (m.find? (fun e => e.1 == key)).map Prod.snd

/-- The loop `for (const row of rows) map.set(row.category_id, Number(row.value))`
on an empty map. -/
def ofRows (rows : List Sql.AggregateRow) : NumMap :=
  rows.foldl (fun m row => m.set row.category_id row.value) []

/-- The expression `map.get(key) || 0`. -/
def getOrZero (m : NumMap) (key : Nat) : ℚ :=
  match m.get key with
  | some v => if v ≠ 0 then v else 0
  | none => 0

end NumMap

/-- An item of `get_budget_status`: the budget row with `spent`, `utilization`
and `status` added. -/
structure BudgetItem where
  row : Sql.BudgetRow
  spent : ℚ
  utilization : ℚ
  status : String
  deriving DecidableEq

/-- The status of a utilization: the `let status = 'green'; if ... else if ...`
of `get_budget_status`. -/
def budgetStatus (utilization : ℚ) : String :=
  if utilization ≥ 0.9 then "red"
  else if utilization ≥ 0.7 then "yellow"
  else "green"

/-- The callback of `budgetsRes.rows.map` in `get_budget_status`. -/
def budgetItem (spentMap : NumMap) (b : Sql.BudgetRow) : BudgetItem :=
  let key := b.budget.category_id.getD 0
  let spent := spentMap.getOrZero key
  let utilization := if b.budget.monthly_limit > 0 then spent / b.budget.monthly_limit else 0
  { row := b, spent := spent, utilization := utilization, status := budgetStatus utilization }

/-- The items of `get_budget_status` from the rows of its two queries. -/
def budgetItems (budgets : List Sql.BudgetRow) (spentRows : List Sql.AggregateRow) :
    List BudgetItem :=
  budgets.map (budgetItem (NumMap.ofRows spentRows))

/-- The object `{ ...b, spent, utilization, status }`. -/
def BudgetItem.toJS (pg : Postgres) (item : BudgetItem) : JSValue :=
  .obj (item.row.toFields pg ++
    [("spent", .num item.spent), ("utilization", .num item.utilization),
     ("status", .str item.status)])

/-- An item of `detect_anomalies`. -/
structure Anomaly where
  transaction : Sql.TransactionRow
  category_average : ℚ
  deriving DecidableEq

/-- The loop of `detect_anomalies` over the expense rows, given the rows of the
averages query. -/
def anomalies (avgRows : List Sql.AggregateRow) (rows : List Sql.TransactionRow) :
    List Anomaly :=
  rows.filterMap (fun t =>
    let key := t.transaction.category_id.getD 0
    let avg := (NumMap.ofRows avgRows).getOrZero key
    if avg = 0 then none
    else if t.transaction.amount ≥ 2 * avg then
      some { transaction := t, category_average := avg }
    else none)

/-- The object `{ transaction: t, category_average: avg }`. -/
def Anomaly.toJS (pg : Postgres) (a : Anomaly) : JSValue :=
  .obj [("transaction", .obj (a.transaction.toFields pg)),
        ("category_average", .num a.category_average)]

/-! ## The catalog of tools

The constant `tools` of `agent.js`, lines 6 to 159. -/

/-- An entry of the catalog `tools`: the name of the function, the names and
JSON types of its parameters, and the required ones. The descriptions, the
`enum` of `type` and the `nullable` flags are left out. -/
structure ToolSpec where
  name : String
  properties : List (String × String)
  required : List String
  deriving DecidableEq

/-- The catalog `tools` sent to the model service with every request. -/
def tools : List ToolSpec :=
  [{ name := "convert_currency_to_inr",
     properties := [("amount", "number"), ("from_currency", "string")],
     required := ["amount", "from_currency"] },
   { name := "add_transaction",
     properties := [("amount", "number"), ("type", "string"), ("merchant", "string"),
                    ("description", "string"), ("category_name", "string"), ("date", "string")],
     required := ["amount", "type"] },
   { name := "get_spending_by_category",
     properties := [("month", "string")],
     required := [] },
   { name := "create_budget",
     properties := [("category_name", "string"), ("monthly_limit", "number"),
                    ("month", "string")],
     required := ["category_name", "monthly_limit"] },
   { name := "create_goal",
     properties := [("name", "string"), ("target_amount", "number"),
                    ("target_date", "string"), ("current_amount", "number")],
     required := ["name", "target_amount", "target_date"] },
   { name := "get_budget_status", properties := [], required := [] },
   { name := "detect_anomalies", properties := [], required := [] },
   { name := "suggest_savings",
     properties := [("target_amount", "number"), ("target_date", "string")],
     required := [] }]

/-! ## `callTool` -/

/-- The table `exchangeRates` of `convert_currency_to_inr`. -/
def exchangeRates : List (String × ℚ) :=
  [("USD", 83.50), ("EUR", 91.00), ("GBP", 106.00), ("JPY", 0.57), ("RUB", 0.92),
   ("INR", 1.00)]

/-- Reading a property of, or destructuring, `null` or `undefined` throws. -/
def requireObjectCoercible (v : JSValue) : Except Exn Unit :=
  if v.nullish then .error (.typeError "Cannot read properties of null") else .ok ()

/-- The branch `name === 'convert_currency_to_inr'` of `callTool`. The read
`exchangeRates[currencyUpper]` finds the six own properties only: an upper-cased
text is not the name of an inherited property. -/
def convert_currency_to_inr (js : Builtins) (args : JSValue) : Except Exn JSValue :=
  match requireObjectCoercible args with
  | .error e => .error e
  | .ok () =>
    let amount := args.get "amount"
    match args.get "from_currency" with
    | .str from_currency =>
      let currencyUpper := js.toUpperCase from_currency
      let unsupported : JSValue :=
        .obj [("error", .str ("Currency " ++ currencyUpper ++
          " not supported. Supported currencies: " ++
          ", ".intercalate (exchangeRates.map Prod.fst)))]
      match exchangeRates.lookup currencyUpper with
      | none => .ok unsupported
      | some rate =>
        if rate = 0 then .ok unsupported
        else
          let inrAmount : Option ℚ :=
            (JS.toNumber js amount).map (fun a => (JS.round (a * rate * 100) : ℚ) / 100)
          .ok (.obj
            [("original_amount", amount),
             ("original_currency", .str currencyUpper),
             ("inr_amount", .ofNumber inrAmount),
             ("exchange_rate", .num rate),
             ("message", .str (js.toStr amount ++ " " ++ currencyUpper ++ " = ₹" ++
                JS.toFixed js inrAmount 2 ++ " (Rate: 1 " ++ currencyUpper ++ " = ₹" ++
                js.toFixed rate 2 ++ ")"))])
    | .undefined =>
      .error (.typeError "Cannot read properties of undefined (reading \x27toUpperCase\x27)")
    | .null =>
      .error (.typeError "Cannot read properties of null (reading \x27toUpperCase\x27)")
    | _ => .error (.typeError "from_currency.toUpperCase is not a function")

/-- The branch `name === 'add_transaction'` of `callTool`. -/
def add_transaction (env : Env) (userId : Nat) (args : JSValue) : Eff JSValue := do
  Eff.ofExcept (requireObjectCoercible args)
  let amount := args.get "amount"
  let type := args.get "type"
  let merchant := (args.get "merchant").withDefault .null
  let description := (args.get "description").withDefault .null
  let category_name := (args.get "category_name").withDefault .null
  let date := (args.get "date").or (.str env.today)
  let categoryId : Option Nat ←
    if category_name.truthy then do
      let catRes ← query env (fun _ db =>
        (Sql.selectCategoryIlike env.pg userId (Sql.param env.pg category_name)
          (Sql.param env.pg type) db.categories.rows).map (fun r => (r, db)))
      match catRes with
      | some id => pure (some id)
      | none => do
        let inserted ← query env (fun _ db =>
          Sql.insertCategory userId (Sql.param env.pg category_name) (Sql.param env.pg type) db)
        pure (some inserted)
    else pure none
  let result ← query env
    (Sql.insertTransaction env.pg userId amount type categoryId merchant description date)
  pure (.obj [("transaction", .obj (result.toFields env.pg))])

/-- The branch `name === 'get_spending_by_category'` of `callTool`. -/
def get_spending_by_category (env : Env) (userId : Nat) (args : JSValue) : Eff JSValue := do
  Eff.ofExcept (requireObjectCoercible args)
  let month := (args.get "month").or (.str env.month)
  let res ← query env (fun _ db =>
    .ok (Sql.spendingByCategory userId (Sql.param env.pg month) db, db))
  pure (.obj [("month", month),
    ("categories", .arr (res.map (fun r =>
      .obj [("category", .str r.1), ("total", env.pg.numeric r.2)])))])

/-- The branch `name === 'create_budget'` of `callTool`. -/
def create_budget (env : Env) (userId : Nat) (args : JSValue) : Eff JSValue := do
  Eff.ofExcept (requireObjectCoercible args)
  let month := (args.get "month").or (.str env.month)
  let categoryName := args.get "category_name"
  let limit := args.get "monthly_limit"
  let catRes ← query env (fun _ db =>
    .ok (Sql.selectCategoryByName userId (Sql.param env.pg categoryName) db.categories.rows, db))
  let categoryId : Nat ←
    match catRes with
    | some id => pure id
    | none =>
      query env (fun _ db =>
        Sql.insertCategory userId (Sql.param env.pg categoryName) (some "expense") db)
  let upsert ← query env (Sql.upsertBudget env.pg userId categoryId limit month)
  pure (.obj [("budget", .obj (upsert.toFields env.pg))])

/-- The branch `name === 'get_budget_status'` of `callTool`. -/
def get_budget_status (env : Env) (userId : Nat) : Eff JSValue := do
  let month := env.month
  let budgetsRes ← query env (fun _ db => .ok (Sql.selectBudgets userId month db, db))
  let spentRes ← query env (fun _ db => .ok (Sql.spentByCategoryId userId month db, db))
  let items := budgetItems budgetsRes spentRes
  pure (.obj [("month", .str month), ("items", .arr (items.map (BudgetItem.toJS env.pg)))])

/-- The branch `name === 'detect_anomalies'` of `callTool`. -/
def detect_anomalies (env : Env) (userId : Nat) : Eff JSValue := do
  let avgRes ← query env (fun _ db => .ok (Sql.avgByCategoryId userId db, db))
  let anomaliesRes ← query env (fun _ db => .ok (Sql.selectExpenses userId db, db))
  pure (.obj [("items", .arr ((anomalies avgRes anomaliesRes).map (Anomaly.toJS env.pg)))])

/-- The branch `name === 'suggest_savings'` of `callTool`. -/
def suggest_savings (env : Env) (userId : Nat) (args : JSValue) : Eff JSValue := do
  let month := env.month
  let expenseRes ← query env (fun _ db =>
    .ok (Sql.spendingByCategory userId (some month) db, db))
  Eff.ofExcept (requireObjectCoercible args)
  pure (.obj [("month", .str month),
    ("target_amount", (args.get "target_amount").coalesce .null),
    ("target_date", (args.get "target_date").coalesce .null),
    ("top_categories", .arr (expenseRes.map (fun r =>
      .obj [("category", .str r.1), ("total", env.pg.numeric r.2)])))])

/-- The branch `name === 'create_goal'` of `callTool`. -/
def create_goal (env : Env) (userId : Nat) (args : JSValue) : Eff JSValue := do
  Eff.ofExcept (requireObjectCoercible args)
  let goalName := args.get "name"
  let target_amount := args.get "target_amount"
  let target_date := args.get "target_date"
  let current_amount := (args.get "current_amount").withDefault (.num 0)
  let result ← query env
    (Sql.insertGoal env.pg userId goalName target_amount current_amount target_date)
  pure (.obj [("goal", .obj (result.toFields env.pg))])

/-- The names that `callTool` has a branch for. -/
def handledTools : List String :=
  ["convert_currency_to_inr", "add_transaction", "get_spending_by_category",
   "create_budget", "get_budget_status", "detect_anomalies", "suggest_savings",
   "create_goal"]

/-- The text `toolCall.function.arguments || '{}'`. -/
def argumentsText (toolCall : ToolCall) : String :=
  match toolCall.function.arguments with
  | some text => if text = "" then "{}" else text
  | none => "{}"

/-- The function `callTool(userId, toolCall)`. -/
def callTool (env : Env) (userId : Nat) (toolCall : ToolCall) : Eff JSValue := do
  let name := toolCall.function.name
  let args ← Eff.ofExcept (env.js.parse (argumentsText toolCall))
  if name = "convert_currency_to_inr" then
    Eff.ofExcept (convert_currency_to_inr env.js args)
  else if name = "add_transaction" then add_transaction env userId args
  else if name = "get_spending_by_category" then get_spending_by_category env userId args
  else if name = "create_budget" then create_budget env userId args
  else if name = "get_budget_status" then get_budget_status env userId
  else if name = "detect_anomalies" then detect_anomalies env userId
  else if name = "suggest_savings" then suggest_savings env userId args
  else if name = "create_goal" then create_goal env userId args
  else pure (.obj [("error", .str ("Unknown tool " ++ name))])

/-! ## The model service and the agent loop -/

/-- The function `fetchChatCompletion(messages)`: one request to the endpoint.
The request is recorded in `modelCalls` whatever its outcome. -/
def fetchChatCompletion (env : Env) (messages : List Message) : Eff Completion := fun w =>
  let w1 : World := { w with modelCalls := w.modelCalls ++ [messages] }
  match env.fetch w.modelCalls.length messages with
  | .error e => .throw e w1
  | .ok resp =>
    if resp.ok then
      match resp.json with
      | .ok json => .ok json w1
      | .error e => .throw e w1
    else
      .throw (.error ("OpenRouter error: " ++ toString resp.status ++ " " ++ resp.text)) w1

/-- The content of the system message of a turn. -/
def systemPrompt (env : Env) : String :=
  "You are a helpful financial assistant. Today\x27s date is " ++
    env.fullDate ++
    " (" ++
    env.dayOfWeek ++
    "). The current date in YYYY-MM-DD format is " ++
    env.today ++
    ". The current month is " ++
    env.month ++
    ". When users refer to \"today\", \"this month\", \"this week\", or relative time " ++
    "periods, use this date as the reference point. Always consider this context " ++
    "when analyzing transactions, budgets, and financial goals.\n" ++
    "\n" ++
    "**IMPORTANT**: All monetary amounts are in Indian Rupees (₹ INR) by default. " ++
    "When users mention amounts without currency, assume it\x27s in Rupees. When " ++
    "displaying amounts, you can use the ₹ symbol.\n" ++
    "\n" ++
    "**CURRENCY CONVERSION**: When users mention amounts in foreign currencies (USD, " ++
    "EUR, GBP, AED, etc.), you MUST:\n" ++
    "1. FIRST use the convert_currency_to_inr tool to get the INR equivalent\n" ++
    "2. THEN use the converted INR amount when creating transactions\n" ++
    "3. Mention both the original amount and converted amount in your response\n" ++
    "\n" ++
    "Examples:\n" ++
    "- \"I spent 20 dollars on coffee\" → convert_currency_to_inr(20, USD) → then " ++
    "add_transaction with INR amount\n" ++
    "- \"Bought something for 50 euros\" → convert_currency_to_inr(50, EUR) → then " ++
    "add_transaction with INR amount\n" ++
    "- \"100 AED spent\" → convert first, then create transaction\n" ++
    "\n" ++
    "When users mention expenses without explicit merchant names, intelligently " ++
    "infer:\n" ++
    "1. **Merchant Name**: Create a clear, descriptive merchant name that symbolizes " ++
    "the product/service (e.g., \"Pizza\" → \"Pizza Restaurant\", \"coffee\" → \"Coffee " ++
    "Shop\", \"movie\" → \"Cinema\", \"uber\" → \"Uber\", \"groceries\" → \"Grocery Store\")\n" ++
    "2. **Category**: Assign the most appropriate category based on the " ++
    "product/service:\n" ++
    "   - Food items (pizza, burger, coffee) → \"Food & Dining\"\n" ++
    "   - Groceries, vegetables → \"Groceries\"\n" ++
    "   - Taxi, uber, bus → \"Transport\"\n" ++
    "   - Clothes, gadgets → \"Shopping\"\n" ++
    "   - Movies, games → \"Entertainment\"\n" ++
    "   - Doctor, medicine → \"Healthcare\"\n" ++
    "   - Electricity, water, internet → \"Utilities\"\n" ++
    "   - Courses, books → \"Education\"\n" ++
    "   - Flights, hotels → \"Travel\"\n" ++
    "   - Haircut, salon → \"Personal Care\"\n" ++
    "   - Netflix, Spotify → \"Subscriptions\"\n" ++
    "3. **Description**: Include what the user mentioned (product/service) for " ++
    "clarity\n" ++
    "\n" ++
    "When users want to create savings goals, use the create_goal tool. Examples:\n" ++
    "- \"I want to save 50000 for a vacation by June 2026\" → create_goal with " ++
    "name=\"Vacation\", target_amount=50000, target_date=\"2026-06-30\"\n" ++
    "- \"Save 100000 in 6 months\" → calculate target_date as 6 months from today, " ++
    "create_goal\n" ++
    "- \"Goal: new laptop, 80000, by next year\" → create_goal with appropriate " ++
    "parameters\n" ++
    "\n" ++
    "Always be intelligent about context - if user says \"I spent 500 on pizza\", " ++
    "understand it\x27s ₹500 for a food expense even without saying \"Domino\x27s\"."

/-- The fallback text returned when a turn ends without a final answer. -/
def fallbackMessage : String :=
  "I\x27m having trouble formulating a response right now, but your data and tools are available."

/-- The expression `msg.content || ''`. -/
def contentOrEmpty (msg : ModelMessage) : String :=
  match msg.content with
  | some c => c
  | none => ""

/-- The loop `for (const toolCall of msg.tool_calls)` of `runAgent`, returning
the `messages` array it has extended. -/
def dispatchToolCalls (env : Env) (userId : Nat) :
    List ToolCall → List Message → Eff (List Message)
  | [], messages => pure messages
  | toolCall :: rest, messages => do
    let toolResult ← callTool env userId toolCall
    let toolContent := env.js.stringify toolResult
    let messages := messages ++
      [{ role := "tool", name := some toolCall.function.name, content := toolContent,
         tool_call_id := some toolCall.id }]
    let _ ← query env
      (Sql.insertChatMessage userId "tool" toolContent (some toolCall.function.name))
    dispatchToolCalls env userId rest messages

/-- The loop `while (toolLoopCount < 4)` of `runAgent` with `remaining = 4 -
toolLoopCount` iterations left. It returns `finalAssistantMessage` (`none` is
`null`) and the `messages` array at the exit of the loop. -/
def agentLoop (env : Env) (userId : Nat) :
    Nat → List Message → Eff (Option String × List Message)
  | 0, messages => pure (none, messages)
  | remaining + 1, messages => do
    let completion ← fetchChatCompletion env messages
    match completion.firstChoice with
    | none => pure (none, messages)
    | some choice =>
      let msg := choice.message
      match msg.tool_calls with
      | some (toolCall :: rest) => do
        let messages := messages ++
          [{ role := "assistant", content := contentOrEmpty msg,
             tool_calls := msg.tool_calls }]
        let _ ← query env (Sql.insertChatMessage userId "assistant" (contentOrEmpty msg) none)
        let messages ← dispatchToolCalls env userId (toolCall :: rest) messages
        agentLoop env userId remaining messages
      | _ => do
        let finalAssistantMessage := contentOrEmpty msg
        let messages := messages ++ [{ role := "assistant", content := finalAssistantMessage }]
        let _ ← query env (Sql.insertChatMessage userId "assistant" finalAssistantMessage none)
        pure (some finalAssistantMessage, messages)

/-- The context rebuilt from the stored history: tool rows are dropped, the
others keep `role` and `content`. -/
def historyMessages (rows : List ChatMessage) : List Message :=
  rows.filterMap (fun m =>
    if m.role = "tool" then none else some { role := m.role, content := m.content })

/-- The value `{ message }` returned by `runAgent`. -/
structure Reply where
  message : String
  deriving DecidableEq

/-- The text returned for a given `finalAssistantMessage`: the fallback when it
is `null` or empty. -/
def finalText (finalAssistantMessage : Option String) : String :=
  match finalAssistantMessage with
  | some text => if text = "" then fallbackMessage else text
  | none => fallbackMessage

/-- The function `runAgent({ userId, message })`. -/
def runAgent (env : Env) (userId : Nat) (message : String) : Eff Reply := do
  let historyRes ← query env (fun _ db => .ok (Sql.selectHistory userId db, db))
  let messages := historyMessages historyRes
  let systemMessage : Message := { role := "system", content := systemPrompt env }
  let messages := systemMessage :: messages
  let messages := messages ++ [{ role := "user", content := message }]
  let _ ← query env (Sql.insertChatMessage userId "user" message none)
  let (finalAssistantMessage, _) ← agentLoop env userId 4 messages
  pure { message := finalText finalAssistantMessage }

/-! ## A reference environment

Executable instances of `Builtins` and `Postgres`, used to run the service on
concrete inputs. Numbers are printed in decimal notation. -/

namespace Reference

/-- Skip JSON whitespace. -/
def skipWs : List Char → List Char
  | c :: cs => if c = ' ' ∨ c = '\n' ∨ c = '\r' ∨ c = '\t' then skipWs cs else c :: cs
  | [] => []

def digitValue (c : Char) : Option Nat :=
  if '0' ≤ c ∧ c ≤ '9' then some (c.toNat - '0'.toNat) else none

def hexValue (c : Char) : Option Nat :=
  if '0' ≤ c ∧ c ≤ '9' then some (c.toNat - '0'.toNat)
  else if 'a' ≤ c ∧ c ≤ 'f' then some (c.toNat - 'a'.toNat + 10)
  else if 'A' ≤ c ∧ c ≤ 'F' then some (c.toNat - 'A'.toNat + 10)
  else none

/-- The longest prefix of digits: its value, its length and the rest. -/
def takeDigits : List Char → Nat → Nat → Nat × Nat × List Char
  | c :: cs, acc, n =>
    match digitValue c with
    | some d => takeDigits cs (acc * 10 + d) (n + 1)
    | none => (acc, n, c :: cs)
  | [], acc, n => (acc, n, [])

/-- The value of a decimal numeral: sign, integer digits, `fracDigits` fraction
digits of value `frac`, and a power of ten. -/
def decimal (neg : Bool) (int frac fracDigits : Nat) (exp : ℤ) : ℚ :=
  (if neg then -1 else 1) * ((int : ℚ) + (frac : ℚ) / (10 : ℚ) ^ fracDigits) * (10 : ℚ) ^ exp

/-- The exponent part of a numeral, if there is one. -/
def parseExponent : List Char → Option (ℤ × List Char)
  | c :: r =>
    if c = 'e' ∨ c = 'E' then
      let signed : Bool × List Char :=
        match r with
        | s :: t => if s = '-' then (true, t) else if s = '+' then (false, t) else (false, s :: t)
        | [] => (false, [])
      match takeDigits signed.2 0 0 with
      | (_, 0, _) => none
      | (v, _, rest) => some (if signed.1 then -(v : ℤ) else (v : ℤ), rest)
    else some (0, c :: r)
  | [] => some (0, [])

/-- The fraction part of a numeral, if there is one: its digits as a number,
their count, and the rest. -/
def parseFraction : List Char → Option (Nat × Nat × List Char)
  | c :: r =>
    if c = '.' then
      match takeDigits r 0 0 with
      | (_, 0, _) => none
      | (v, k, rest) => some (v, k, rest)
    else some (0, 0, c :: r)
  | [] => some (0, 0, [])

/-- The integer part of a JSON numeral: a single `0`, or digits. -/
def parseInteger : List Char → Option (Nat × List Char)
  | c :: r =>
    if c = '0' then some (0, r)
    else
      match takeDigits (c :: r) 0 0 with
      | (_, 0, _) => none
      | (v, _, rest) => some (v, rest)
  | [] => none

/-- A JSON number at the head of the input. -/
def parseNumber (cs : List Char) : Option (ℚ × List Char) :=
  let signed : Bool × List Char :=
    match cs with
    | c :: r => if c = '-' then (true, r) else (false, c :: r)
    | [] => (false, [])
  match parseInteger signed.2 with
  | none => none
  | some (i, cs2) =>
    match parseFraction cs2 with
    | none => none
    | some (f, k, cs3) =>
      match parseExponent cs3 with
      | none => none
      | some (e, cs4) => some (decimal signed.1 i f k e, cs4)

/-- The characters of a JSON string after its opening quote, up to the closing
quote. -/
def parseChars : List Char → List Char → Option (String × List Char)
  | '"' :: cs, acc => some (String.mk acc.reverse, cs)
  | '\\' :: 'u' :: a :: b :: c :: d :: cs, acc =>
    match hexValue a, hexValue b, hexValue c, hexValue d with
    | some x, some y, some z, some w =>
      parseChars cs (Char.ofNat (((x * 16 + y) * 16 + z) * 16 + w) :: acc)
    | _, _, _, _ => none
  | '\\' :: e :: cs, acc =>
    if e = '"' then parseChars cs ('"' :: acc)
    else if e = '\\' then parseChars cs ('\\' :: acc)
    else if e = '/' then parseChars cs ('/' :: acc)
    else if e = 'b' then parseChars cs (Char.ofNat 8 :: acc)
    else if e = 'f' then parseChars cs (Char.ofNat 12 :: acc)
    else if e = 'n' then parseChars cs ('\n' :: acc)
    else if e = 'r' then parseChars cs ('\r' :: acc)
    else if e = 't' then parseChars cs ('\t' :: acc)
    else none
  | c :: cs, acc => if c.toNat < 32 ∨ c = '\\' then none else parseChars cs (c :: acc)
  | [], _ => none

mutual
/-- A JSON value at the head of the input (after whitespace). -/
def parseValue : Nat → List Char → Option (JSValue × List Char)
  | 0, _ => none
  | fuel + 1, cs =>
    match skipWs cs with
    | 'n' :: 'u' :: 'l' :: 'l' :: r => some (.null, r)
    | 't' :: 'r' :: 'u' :: 'e' :: r => some (.bool true, r)
    | 'f' :: 'a' :: 'l' :: 's' :: 'e' :: r => some (.bool false, r)
    | '"' :: r => (parseChars r []).map (fun p => (.str p.1, p.2))
    | '[' :: r =>
      match skipWs r with
      | ']' :: r1 => some (.arr [], r1)
      | _ => (parseElements fuel r).map (fun p => (.arr p.1, p.2))
    | '{' :: r =>
      match skipWs r with
      | '}' :: r1 => some (.obj [], r1)
      | _ => (parseMembers fuel r).map (fun p => (.obj p.1, p.2))
    | r => (parseNumber r).map (fun p => (.num p.1, p.2))
/-- The elements of a non-empty array, up to the closing bracket. -/
def parseElements : Nat → List Char → Option (List JSValue × List Char)
  | 0, _ => none
  | fuel + 1, cs =>
    match parseValue fuel cs with
    | none => none
    | some (v, r) =>
      match skipWs r with
      | ',' :: r1 => (parseElements fuel r1).map (fun p => (v :: p.1, p.2))
      | ']' :: r1 => some ([v], r1)
      | _ => none
/-- The members of a non-empty object, up to the closing brace. -/
def parseMembers : Nat → List Char → Option (List (String × JSValue) × List Char)
  | 0, _ => none
  | fuel + 1, cs =>
    match skipWs cs with
    | '"' :: r =>
      match parseChars r [] with
      | none => none
      | some (k, r1) =>
        match skipWs r1 with
        | ':' :: r2 =>
          match parseValue fuel r2 with
          | none => none
          | some (v, r3) =>
            match skipWs r3 with
            | ',' :: r4 => (parseMembers fuel r4).map (fun p => ((k, v) :: p.1, p.2))
            | '}' :: r4 => some ([(k, v)], r4)
            | _ => none
        | _ => none
    | _ => none
end

/-- `JSON.parse`. -/
def parse (s : String) : Except Exn JSValue :=
  match parseValue (s.length + 1) s.data with
  | some (v, rest) =>
    if skipWs rest = [] then .ok v else .error (.syntaxError "Unexpected non-whitespace character")
  | none => .error (.syntaxError "Unexpected token")

/-- The fraction digits of `rem / den` (with `rem < den`), at most `fuel` of them. -/
def fractionDigits : Nat → Nat → Nat → List Char
  | 0, _, _ => []
  | fuel + 1, rem, den =>
    if rem = 0 then []
    else Char.ofNat ('0'.toNat + rem * 10 / den) :: fractionDigits fuel (rem * 10 % den) den

/-- A number in decimal notation (`Number::toString` on the values that have a
short decimal expansion). -/
def renderNumber (q : ℚ) : String :=
  let n := q.num.natAbs
  let whole := toString (n / q.den)
  let frac := fractionDigits 20 (n % q.den) q.den
  (if q < 0 then "-" else "") ++ whole ++ (if frac = [] then "" else "." ++ String.mk frac)

/-- Pad a numeral with zeros on the left up to `width` characters. -/
def padZeros (width : Nat) (digits : String) : String :=
  String.mk (List.replicate (width - digits.length) '0') ++ digits

/-- `Number.prototype.toFixed`: `digits` fraction digits, ties away from zero. -/
def toFixed (q : ℚ) (digits : Nat) : String :=
  let scaled := (q.num.natAbs * 10 ^ digits * 2 + q.den) / (2 * q.den)
  let whole := toString (scaled / 10 ^ digits)
  (if q < 0 then "-" else "") ++ whole ++
    (if digits = 0 then "" else "." ++ padZeros digits (toString (scaled % 10 ^ digits)))

/-- The characters of a string inside a JSON text. -/
def escapeChars : List Char → List Char
  | [] => []
  | c :: cs =>
    (if c = '"' then ['\\', '"']
     else if c = '\\' then ['\\', '\\']
     else if c = '\n' then ['\\', 'n']
     else if c = '\r' then ['\\', 'r']
     else if c = '\t' then ['\\', 't']
     else if c = Char.ofNat 8 then ['\\', 'b']
     else if c = Char.ofNat 12 then ['\\', 'f']
     else if c.toNat < 32 then
       ['\\', 'u', '0', '0', Nat.digitChar (c.toNat / 16), Nat.digitChar (c.toNat % 16)]
     else [c]) ++ escapeChars cs

/-- A string as a JSON text. -/
def quote (s : String) : String := "\"" ++ String.mk (escapeChars s.data) ++ "\""

mutual
/-- `JSON.stringify` of a value; `none` where the result is `undefined`. -/
def stringifyValue : JSValue → Option String
  | .undefined => none
  | .null => some "null"
  | .bool b => some (if b then "true" else "false")
  | .num q => some (renderNumber q)
  | .nan => some "null"
  | .str s => some (quote s)
  | .arr items => some ("[" ++ ",".intercalate (stringifyItems items) ++ "]")
  | .obj fields => some ("\x7b" ++ ",".intercalate (stringifyFields fields) ++ "\x7d")
/-- The elements of an array: `undefined` is written `null`. -/
def stringifyItems : List JSValue → List String
  | [] => []
  | v :: rest => (stringifyValue v).getD "null" :: stringifyItems rest
/-- The members of an object: a member whose value is `undefined` is left out. -/
def stringifyFields : List (String × JSValue) → List String
  | [] => []
  | (k, v) :: rest =>
    match stringifyValue v with
    | some text => (quote k ++ ":" ++ text) :: stringifyFields rest
    | none => stringifyFields rest
end

/-- `JSON.stringify` where the result is a string. -/
def stringify (v : JSValue) : String := (stringifyValue v).getD "undefined"

mutual
/-- `ToString` of a value. -/
def toStr : JSValue → String
  | .undefined => "undefined"
  | .null => "null"
  | .bool b => if b then "true" else "false"
  | .num q => renderNumber q
  | .nan => "NaN"
  | .str s => s
  | .arr items => ",".intercalate (toStrItems items)
  | .obj _ => "[object Object]"
/-- The elements of an array as joined by `Array.prototype.join`. -/
def toStrItems : List JSValue → List String
  | [] => []
  | .undefined :: rest => "" :: toStrItems rest
  | .null :: rest => "" :: toStrItems rest
  | v :: rest => toStr v :: toStrItems rest
end

/-- `String.prototype.toUpperCase` on the letters `a`..`z`; other characters
are kept. -/
def toUpperCase (s : String) : String := String.mk (s.data.map Char.toUpper)

/-- Lower-casing on the letters `A`..`Z`. -/
def toLowerCase (s : String) : String := String.mk (s.data.map Char.toLower)

/-- `ToNumber` on a string holding a decimal numeral, with surrounding
whitespace allowed; the empty string is 0 and any other text is `NaN`. -/
def stringToNumber (s : String) : Option ℚ :=
  match skipWs s.data with
  | [] => some 0
  | cs =>
    match parseNumber cs with
    | some (q, rest) => if skipWs rest = [] then some q else none
    | none => none

/-- The built-ins of the reference environment. -/
def builtins : Builtins where
  parse := parse
  stringify := stringify
  toUpperCase := toUpperCase
  stringToNumber := stringToNumber
  objectToNumber := fun v => stringToNumber (toStr v)
  toStr := toStr
  toFixed := toFixed

/-- An element of a `LIKE` pattern. -/
inductive LikeToken where
  | anyString : LikeToken
  | anyChar : LikeToken
  | literal (c : Char) : LikeToken

/-- The elements of a `LIKE` pattern with escape character `\`; `none` for a
pattern that ends in the escape character, which the server rejects. -/
def likeTokens : List Char → Option (List LikeToken)
  | [] => some []
  | c :: rest =>
    if c = '\\' then
      match rest with
      | [] => none
      | e :: rest1 => (likeTokens rest1).map (fun ts => LikeToken.literal e :: ts)
    else if c = '%' then (likeTokens rest).map (fun ts => LikeToken.anyString :: ts)
    else if c = '_' then (likeTokens rest).map (fun ts => LikeToken.anyChar :: ts)
    else (likeTokens rest).map (fun ts => LikeToken.literal c :: ts)

/-- Whether a text matches the elements of a pattern. -/
def likeMatch : List LikeToken → List Char → Bool
  | [], text => text.isEmpty
  | .anyString :: pattern, text => text.tails.any (fun suffix => likeMatch pattern suffix)
  | .anyChar :: pattern, text =>
    match text with
    | [] => false
    | _ :: rest => likeMatch pattern rest
  | .literal c :: pattern, text =>
    match text with
    | [] => false
    | t :: rest => decide (c = t) && likeMatch pattern rest

/-- `text ILIKE pattern`, case-insensitive on the letters `A`..`Z`. -/
def ilike (text pattern : String) : Option Bool :=
  (likeTokens (toLowerCase pattern).data).map (fun ts => likeMatch ts (toLowerCase text).data)

/-- Whether a text has the shape `YYYY-MM-DD`. -/
def isIsoDate (s : String) : Bool :=
  match s.data with
  | [y1, y2, y3, y4, d1, m1, m2, d2, a, b] =>
    [y1, y2, y3, y4, m1, m2, a, b].all Char.isDigit && decide (d1 = '-') && decide (d2 = '-')
  | _ => false

/-- The elements of an array parameter, given the text of each non-null element. -/
def arrayElements (prepare : JSValue → Option String) : List JSValue → List String
  | [] => []
  | v :: rest =>
    (match prepare v with
     | none => "NULL"
     | some text => quote text) :: arrayElements prepare rest

/-- The text the driver sends for a number, a boolean, an array or an object. -/
def prepareValue : JSValue → Option String
  | .undefined => none
  | .null => none
  | .str s => some s
  | .arr items =>
    some ("\x7b" ++ ",".intercalate (arrayElements (fun v => match v with
      | .undefined => none
      | .null => none
      | .str s => some s
      | .arr _ => some (stringify v)
      | .obj _ => some (stringify v)
      | w => some (toStr w)) items) ++ "\x7d")
  | .obj fields => some (stringify (.obj fields))
  | v => some (toStr v)

/-- Input conversion to `NUMERIC`: a decimal numeral with optional surrounding
whitespace. -/
def numericIn (text : String) : Option ℚ :=
  match skipWs text.data with
  | [] => none
  | cs =>
    match parseNumber cs with
    | some (q, rest) => if skipWs rest = [] then some q else none
    | none => none

/-- The database behaviour of the reference environment: `NUMERIC` values
arrive as decimal texts, dates as texts, timestamps as numbers. -/
def postgres : Postgres where
  prepareValue := prepareValue
  numericIn := numericIn
  dateIn := fun text => if isIsoDate text then some text else none
  ilike := ilike
  numeric := fun q => .str (renderNumber q)
  date := fun d => .str d
  timestamp := fun t => .ofNat t

/-- The reference environment around a given model service: no query fails,
the database time is the number of queries issued, and the wall clock shows
Wednesday 15 January 2025. -/
def env (fetch : Nat → List Message → Except Exn HttpResponse) : Env where
  js := builtins
  pg := postgres
  fetch := fetch
  queryFault := fun _ => none
  clock := fun n => n
  today := "2025-01-15"
  month := "2025-01"
  dayOfWeek := "Wednesday"
  fullDate := "January 15, 2025"

/-- A database with no rows. -/
def emptyDB : DB where
  categories := { rows := [], nextId := 1 }
  transactions := { rows := [], nextId := 1 }
  budgets := { rows := [], nextId := 1 }
  goals := { rows := [], nextId := 1 }
  chat_messages := { rows := [], nextId := 1 }

/-- The world before anything has happened. -/
def emptyWorld : World where
  db := emptyDB
  queries := 0
  modelCalls := []

/-- A successful response with the given completion as its body. -/
def respond (completion : Completion) : Except Exn HttpResponse :=
  .ok { status := 200, text := "", json := .ok completion }

/-- A completion whose only choice carries the given message. -/
def completion (content : Option String) (toolCalls : Option (List ToolCall)) : Completion :=
  { choices := some [{ message := { content := content, tool_calls := toolCalls } }] }

/-- A model service that answers every request by asking for the budget status. -/
def budgetLoopService : Nat → List Message → Except Exn HttpResponse :=
  fun _ _ => respond (completion none
    (some [{ id := "call_1", function := { name := "get_budget_status", arguments := some "{}" } }]))

/-- A model service that answers every request with the given plain text. -/
def plainService (content : String) : Nat → List Message → Except Exn HttpResponse :=
  fun _ _ => respond (completion (some content) none)

/-- A model service whose responses carry an empty list of choices. -/
def noChoiceService : Nat → List Message → Except Exn HttpResponse :=
  fun _ _ => respond { choices := some [] }

/-- A tool call that no branch of `callTool` handles. -/
def weatherCall : ToolCall :=
  { id := "call_7", function := { name := "get_weather", arguments := some "\x7b\"city\":\"Pune\"\x7d" } }

/-- A model service that answers every request by asking for the weather. -/
def weatherService : Nat → List Message → Except Exn HttpResponse :=
  fun _ _ => respond (completion none (some [weatherCall]))

/-- A currency conversion requested without `from_currency`. -/
def conversionCall : ToolCall :=
  { id := "call_3",
    function := { name := "convert_currency_to_inr", arguments := some "\x7b\"amount\":20\x7d" } }

/-- A model service that answers every request by asking for that conversion. -/
def conversionService : Nat → List Message → Except Exn HttpResponse :=
  fun _ _ => respond (completion none (some [conversionCall]))

/-- A request to convert 20 US dollars. -/
def dollarCall : ToolCall :=
  { id := "call_2",
    function := { name := "convert_currency_to_inr",
                  arguments := some "\x7b\"amount\":20,\"from_currency\":\"usd\"\x7d" } }

/-- A request to convert 20 units of a currency that is not in the table. -/
def unsupportedCall : ToolCall :=
  { id := "call_4",
    function := { name := "convert_currency_to_inr",
                  arguments := some "\x7b\"amount\":20,\"from_currency\":\"xyz\"\x7d" } }

/-- A database with two budgets of user 1 for January 2025 and two expenses:
90 of 100 spent on category 1, 35 of 50 on category 2. -/
def budgetDB : DB where
  categories :=
    { rows := [{ id := 1, user_id := none, name := "Groceries", type := "expense" },
               { id := 2, user_id := some 1, name := "Transport", type := "expense" }],
      nextId := 3 }
  transactions :=
    { rows := [{ id := 1, user_id := 1, amount := 90, type := "expense", category_id := some 1,
                 merchant := none, description := none, date := "2025-01-03",
                 receipt_url := none, created_at := 0 },
               { id := 2, user_id := 1, amount := 35, type := "expense", category_id := some 2,
                 merchant := none, description := none, date := "2025-01-09",
                 receipt_url := none, created_at := 0 }],
      nextId := 3 }
  budgets :=
    { rows := [{ id := 1, user_id := 1, category_id := some 1, monthly_limit := 100,
                 month := "2025-01", created_at := 0 },
               { id := 2, user_id := 1, category_id := some 2, monthly_limit := 50,
                 month := "2025-01", created_at := 0 }],
      nextId := 3 }
  goals := { rows := [], nextId := 1 }
  chat_messages := { rows := [], nextId := 1 }

/-- A stored conversation of user 1 with a tool message in it, and a message
of user 2. -/
def historyDB : DB where
  categories := { rows := [], nextId := 1 }
  transactions := { rows := [], nextId := 1 }
  budgets := { rows := [], nextId := 1 }
  goals := { rows := [], nextId := 1 }
  chat_messages :=
    { rows := [{ id := 1, user_id := 1, role := "user", content := "How much did I spend?",
                 tool_name := none, created_at := 10 },
               { id := 2, user_id := 1, role := "assistant", content := "",
                 tool_name := none, created_at := 11 },
               { id := 3, user_id := 1, role := "tool", content := "\x7b\"items\":[]\x7d",
                 tool_name := some "get_budget_status", created_at := 12 },
               { id := 4, user_id := 2, role := "user", content := "Hi",
                 tool_name := none, created_at := 13 },
               { id := 5, user_id := 1, role := "assistant", content := "Nothing so far.",
                 tool_name := none, created_at := 14 }],
      nextId := 6 }

/-- A model service whose every request fails with status 503. -/
def downService : Nat → List Message → Except Exn HttpResponse :=
  fun _ _ => .ok { status := 503, text := "Service Unavailable",
                   json := .error (.syntaxError "Unexpected token") }

/-- A stored conversation of user 1 with 31 messages `m1` .. `m31`, written at
the times 1 .. 31 by the user and the assistant in turn. -/
def longHistoryDB : DB where
  categories := { rows := [], nextId := 1 }
  transactions := { rows := [], nextId := 1 }
  budgets := { rows := [], nextId := 1 }
  goals := { rows := [], nextId := 1 }
  chat_messages :=
    { rows := (List.range 31).map (fun i =>
        { id := i + 1, user_id := 1, role := if i % 2 = 0 then "user" else "assistant",
          content := "m" ++ toString (i + 1), tool_name := none, created_at := i + 1 }),
      nextId := 32 }

/-- An expense of user 1 in category 1. -/
def expense (id : Nat) (amount : ℚ) : Transaction :=
  { id := id, user_id := 1, amount := amount, type := "expense", category_id := some 1,
    merchant := none, description := none, date := "2025-01-05", receipt_url := none,
    created_at := 0 }

/-- A database in which user 1 has three expenses of 50, 50 and 200 in category
1: their mean is 100. -/
def anomalyDB : DB where
  categories := { rows := [{ id := 1, user_id := none, name := "Shopping", type := "expense" }],
                  nextId := 2 }
  transactions := { rows := [expense 1 50, expense 2 50, expense 3 200], nextId := 4 }
  budgets := { rows := [], nextId := 1 }
  goals := { rows := [], nextId := 1 }
  chat_messages := { rows := [], nextId := 1 }

/-- A model service that answers every request by asking for the weather and
for the conversion of an unsupported currency. -/
def twoCallsService : Nat → List Message → Except Exn HttpResponse :=
  fun _ _ => respond (completion none (some [weatherCall, unsupportedCall]))

/-- A database whose only category is the shared expense category
"Food & Dining". -/
def foodDB : DB where
  categories :=
    { rows := [{ id := 1, user_id := none, name := "Food & Dining", type := "expense" }],
      nextId := 2 }
  transactions := { rows := [], nextId := 1 }
  budgets := { rows := [], nextId := 1 }
  goals := { rows := [], nextId := 1 }
  chat_messages := { rows := [], nextId := 1 }

/-- A request to add an expense of 250 in the category named `Food%`. -/
def wildcardCall : ToolCall :=
  { id := "call_5",
    function :=
      { name := "add_transaction",
        arguments := some
          "\x7b\"amount\":250,\"type\":\"expense\",\"category_name\":\"Food%\"\x7d" } }

/-- A database whose only category is the shared income category "Salary". -/
def salaryDB : DB where
  categories :=
    { rows := [{ id := 1, user_id := none, name := "Salary", type := "income" }],
      nextId := 2 }
  transactions := { rows := [], nextId := 1 }
  budgets := { rows := [], nextId := 1 }
  goals := { rows := [], nextId := 1 }
  chat_messages := { rows := [], nextId := 1 }

/-- A request to set a budget of 500 for the category named `Salary`. -/
def salaryBudgetCall : ToolCall :=
  { id := "call_6",
    function :=
      { name := "create_budget",
        arguments := some "\x7b\"category_name\":\"Salary\",\"monthly_limit\":500\x7d" } }

/-- A database in which user 1 has three expenses of 10, 10 and 50 in category
1: their mean is 70/3. -/
def thirdsDB : DB where
  categories := { rows := [{ id := 1, user_id := none, name := "Shopping", type := "expense" }],
                  nextId := 2 }
  transactions := { rows := [expense 1 10, expense 2 10, expense 3 50], nextId := 4 }
  budgets := { rows := [], nextId := 1 }
  goals := { rows := [], nextId := 1 }
  chat_messages := { rows := [], nextId := 1 }

/-- A model service that answers every request with status 200 and a body that
is not JSON. -/
def htmlService : Nat → List Message → Except Exn HttpResponse :=
  fun _ _ => .ok { status := 200, text := "<html></html>",
                   json := .error (.syntaxError "Unexpected token <") }

/-- The request to convert 20 US dollars of the coffee example. -/
def coffeeConversionCall : ToolCall :=
  { id := "call_a",
    function := { name := "convert_currency_to_inr",
                  arguments := some "\x7b\"amount\":20,\"from_currency\":\"USD\"\x7d" } }

/-- The request to add the converted expense of the coffee example. -/
def coffeeTransactionCall : ToolCall :=
  { id := "call_b",
    function :=
      { name := "add_transaction",
        arguments := some ("\x7b\"amount\":1670,\"type\":\"expense\"," ++
          "\"merchant\":\"Coffee Shop\",\"category_name\":\"Food & Dining\"\x7d") } }

/-- The arguments of `coffeeConversionCall` as `JSON.parse` delivers them. -/
def coffeeConversionArgs : JSValue :=
  .obj [("amount", .num (decimal false 20 0 0 0)), ("from_currency", .str "USD")]

/-- The arguments of `coffeeTransactionCall` as `JSON.parse` delivers them. -/
def coffeeTransactionArgs : JSValue :=
  .obj [("amount", .num (decimal false 1670 0 0 0)), ("type", .str "expense"),
        ("merchant", .str "Coffee Shop"), ("category_name", .str "Food & Dining")]

/-- A model service that answers the request number `start` by asking for the
conversion, the next request by asking for the transaction, and every later
request with the plain text `answer`. -/
def coffeeService (start : Nat) (answer : String) : Nat → List Message → Except Exn HttpResponse :=
  fun n _ =>
    if n = start then respond (completion none (some [coffeeConversionCall]))
    else if n = start + 1 then respond (completion none (some [coffeeTransactionCall]))
    else respond (completion (some answer) none)

end Reference

/-! ## Vocabulary of the properties -/

/-- Every run of the computation relates the world it starts in to the world
it ends in, whether it returns or throws. -/
def Eff.Respects {α : Type} (R : World → World → Prop) (m : Eff α) : Prop :=
  ∀ w, R w (m w).world

/-- A step that makes no model call and leaves the conversation log as it is. -/
def Quiet (w w1 : World) : Prop :=
  w1.modelCalls = w.modelCalls ∧ w1.db.chat_messages = w.db.chat_messages

/-- A statement that does not write to `chat_messages`. -/
def Sql.KeepsChat {α : Type} (stmt : Nat → DB → Except Exn (α × DB)) : Prop :=
  ∀ now db r db1, stmt now db = .ok (r, db1) → db1.chat_messages = db.chat_messages

/-- A step during which at most `k` model calls are made; the calls made before
stay recorded. -/
def Calls (k : Nat) (w w1 : World) : Prop :=
  ∃ extra, w1.modelCalls = w.modelCalls ++ extra ∧ extra.length ≤ k

/-- The completion that `fetchChatCompletion` returns for the `n`-th request
with the given messages; `none` when it throws. -/
def completionOf (env : Env) (n : Nat) (messages : List Message) : Option Completion :=
  match env.fetch n messages with
  | .ok resp => if resp.ok then resp.json.toOption else none
  | .error _ => none

/-- The world after one more successful `INSERT INTO chat_messages`. -/
def persisted (env : Env) (w : World) (userId : Nat) (role content : String)
    (toolName : Option String) : World :=
  { db := { w.db with chat_messages :=
      { rows := w.db.chat_messages.rows ++
          [{ id := w.db.chat_messages.nextId, user_id := userId, role := role,
             content := content, tool_name := toolName, created_at := env.clock w.queries }],
        nextId := w.db.chat_messages.nextId + 1 } },
    queries := w.queries + 1,
    modelCalls := w.modelCalls }

/-- No database query of the run fails. -/
def Env.databaseUp (env : Env) : Prop := ∀ n, env.queryFault n = none

/-- The model service answers every request with a response whose first choice
carries at least one tool invocation, and every dispatch of a requested tool
returns. -/
def AlwaysRequestsTools (env : Env) (userId : Nat) : Prop :=
  ∀ n messages, ∃ completion choice toolCall rest,
    completionOf env n messages = some completion ∧
    completion.firstChoice = some choice ∧
    choice.message.tool_calls = some (toolCall :: rest) ∧
    ∀ t ∈ toolCall :: rest, ∀ w, (callTool env userId t w).returns = true

/-- The `messages` array at the entry of the loop of `runAgent`: the system
message, the rebuilt history and the new user message. -/
def turnMessages (env : Env) (userId : Nat) (message : String) (w : World) : List Message :=
  { role := "system", content := systemPrompt env } ::
    historyMessages (Sql.selectHistory userId w.db) ++ [{ role := "user", content := message }]

/-- The world at the entry of the loop of `runAgent`: the history has been read
and the user message has been persisted. -/
def turnStart (env : Env) (userId : Nat) (message : String) (w : World) : World :=
  persisted env { w with queries := w.queries + 1 } userId "user" message none

/-- What `runAgent` makes of the outcome of its loop. -/
def replyOf (r : Result (Option String × List Message)) : Result Reply :=
  match r with
  | .ok (finalAssistantMessage, _) w => .ok { message := finalText finalAssistantMessage } w
  | .throw e w => .throw e w

/-- A step that only appends rows to the conversation log. -/
def ChatGrows (w w1 : World) : Prop :=
  ∃ extra, w1.db.chat_messages.rows = w.db.chat_messages.rows ++ extra

/-- The value `{ error: "Unknown tool X" }`. -/
def unknownTool (name : String) : JSValue :=
  .obj [("error", .str ("Unknown tool " ++ name))]

/-- The tool message appended to `messages` for a dispatched call. -/
def toolMessage (env : Env) (toolCall : ToolCall) (toolResult : JSValue) : Message :=
  { role := "tool", name := some toolCall.function.name,
    content := env.js.stringify toolResult, tool_call_id := some toolCall.id }

/-- The row that `runAgent` inserts for the user message of a turn started in
`w`. -/
def userRow (env : Env) (userId : Nat) (message : String) (w : World) : ChatMessage :=
  { id := w.db.chat_messages.nextId, user_id := userId, role := "user", content := message,
    tool_name := none, created_at := env.clock (w.queries + 1) }

/-- The value a list of aggregate rows records for a key: the value of the last
row of that key. -/
def recorded (rows : List Sql.AggregateRow) (key : Nat) : Option ℚ :=
  (rows.reverse.find? (fun r => r.category_id == key)).map (fun r => r.value)

/-- The bucket of a transaction: `COALESCE(category_id, 0)`. -/
def bucket (t : Transaction) : Nat := t.category_id.getD 0

/-- The expense transactions of a user. -/
def expensesOf (userId : Nat) (db : DB) : List Transaction :=
  db.transactions.rows.filter (fun t => decide (t.user_id = userId) && decide (t.type = "expense"))

/-- The amounts of the transactions of a bucket. -/
def bucketAmounts (ts : List Transaction) (key : Nat) : List ℚ :=
  (ts.filter (fun t => decide (bucket t = key))).map (fun t => t.amount)

/-- The mean amount of a list of amounts. -/
def mean (amounts : List ℚ) : ℚ := amounts.sum / amounts.length

/-- `Number.MAX_VALUE`, the largest finite double, `(2 - 2^(-52)) * 2^1023`: a
stored amount of at most this value is a finite number after `Number(...)`, a
larger one may become `Infinity`. -/
def JS.maxValue : ℚ := 2 ^ 1024 - 2 ^ 971

/-- The part of a stored message that `runAgent` decides: the user, the role,
the content and the tool name. -/
def ChatMessage.payload (m : ChatMessage) : Nat × String × String × Option String :=
  (m.user_id, m.role, m.content, m.tool_name)

/-- The calls of `done`, with their results, were dispatched one after the other
starting in the world `w`: each call ran in the world in which the result of the
call before it had been persisted, and `w1` is the world in which the result of
the last one has been persisted. -/
inductive Dispatched (env : Env) (userId : Nat) :
    World → List (ToolCall × JSValue) → World → Prop where
  | nil (w : World) : Dispatched env userId w [] w
  | cons (c : ToolCall) (r : JSValue) (w w1 w2 : World) (rest : List (ToolCall × JSValue)) :
      callTool env userId c w = .ok r w1 →
      env.queryFault w1.queries = none →
      Dispatched env userId
        (persisted env w1 userId "tool" (env.js.stringify r) (some c.function.name)) rest w2 →
      Dispatched env userId w ((c, r) :: rest) w2

/-- A step that leaves every table of the database as it is. -/
def SameData (w w1 : World) : Prop := w1.db = w.db

/-- The names of the tools whose branch of `callTool` issues an `INSERT`. -/
def writingTools : List String := ["add_transaction", "create_budget", "create_goal"]

/-- Every value that the computation returns satisfies `P`. -/
def Eff.Yields {α : Type} (P : α → Prop) (m : Eff α) : Prop :=
  ∀ w a w1, m w = .ok a w1 → P a

/-! ## The routes that repeat the analytics of the tools

The handlers of `GET /budgets/status/current` (`routes/budgets.js`) and of
`GET /analytics/anomalies` (`routes/analytics.js`). Their SQL texts are those of
the tools `get_budget_status` and `detect_anomalies`. -/

/-- The items of `GET /budgets/status/current` (`routes/budgets.js`) from the
rows of its two queries: the loop that fills `spentMap`, then the callback of
`budgetsRes.rows.map`. -/
def Routes.budgetStatusItems (budgetsRows : List Sql.BudgetRow)
    (spentRows : List Sql.AggregateRow) : List BudgetItem :=
  let spentMap : NumMap := spentRows.foldl (fun m row => m.set row.category_id row.value) []
  budgetsRows.map (fun b =>
    let key := b.budget.category_id.getD 0
    let spent : ℚ :=
      match spentMap.get key with
      | some v => if v ≠ 0 then v else 0
      | none => 0
    let utilization : ℚ :=
      if b.budget.monthly_limit > 0 then spent / b.budget.monthly_limit else 0
    let status : String :=
      if utilization ≥ 0.9 then "red" else if utilization ≥ 0.7 then "yellow" else "green"
    { row := b, spent := spent, utilization := utilization, status := status })

/-- The handler of `budgetsRouter.get('/status/current')`: the value passed to
`res.json`; an exception is handed to `next`. -/
def Routes.budgetStatusCurrent (env : Env) (userId : Nat) : Eff JSValue := do
  let month := env.month
  let budgetsRes ← query env (fun _ db => .ok (Sql.selectBudgets userId month db, db))
  let spentRes ← query env (fun _ db => .ok (Sql.spentByCategoryId userId month db, db))
  let items := Routes.budgetStatusItems budgetsRes spentRes
  pure (.obj [("month", .str month), ("items", .arr (items.map (BudgetItem.toJS env.pg)))])

/-- The list `anomalies` of `GET /analytics/anomalies` (`routes/analytics.js`)
from the rows of its two queries: the loop that fills `avgMap`, then the loop
over the expense rows that pushes the flagged ones. -/
def Routes.anomalyItems (avgRows : List Sql.AggregateRow) (rows : List Sql.TransactionRow) :
    List Anomaly :=
  let avgMap : NumMap := avgRows.foldl (fun m row => m.set row.category_id row.value) []
  rows.foldl (fun anomalies t =>
    let key := t.transaction.category_id.getD 0
    let avg : ℚ :=
      match avgMap.get key with
      | some v => if v ≠ 0 then v else 0
      | none => 0
    if avg = 0 then anomalies
    else if t.transaction.amount ≥ 2 * avg then
      anomalies ++ [{ transaction := t, category_average := avg }]
    else anomalies) []

/-- The handler of `analyticsRouter.get('/anomalies')`: the value passed to
`res.json`; an exception is handed to `next`. -/
def Routes.analyticsAnomalies (env : Env) (userId : Nat) : Eff JSValue := do
  let avgRes ← query env (fun _ db => .ok (Sql.avgByCategoryId userId db, db))
  let anomaliesRes ← query env (fun _ db => .ok (Sql.selectExpenses userId db, db))
  pure (.obj [("items", .arr ((Routes.anomalyItems avgRes anomaliesRes).map
    (Anomaly.toJS env.pg)))])

/-- What the log keeps of a message of the `messages` array: the user of the
turn, the role, the content and, for a tool message, the name of the tool. -/
def Message.payload (userId : Nat) (m : Message) : Nat × String × String × Option String :=
  (userId, m.role, m.content, m.name)

/-- Every tool message of the list answers the nearest assistant message before
it: only tool messages lie between the two, and the `tool_call_id` of the tool
message is the id of one of the `tool_calls` of that assistant message. -/
def ToolChained (msgs : List Message) : Prop :=
  ∀ before m after, msgs = before ++ m :: after → m.role = "tool" →
    ∃ pre a between, before = pre ++ a :: between ∧ a.role = "assistant" ∧
      (∀ x ∈ between, x.role = "tool") ∧
      ∃ c ∈ a.tool_calls.getD [], m.tool_call_id = some c.id

/-! ## Basic facts about the effect type -/

namespace Eff

@[simp] theorem pure_apply {α : Type} (a : α) (w : World) :
    (Pure.pure a : Eff α) w = .ok a w := rfl

@[simp] theorem bind_apply {α β : Type} (m : Eff α) (f : α → Eff β) (w : World) :
    (m >>= f) w = match m w with
      | .ok a w1 => f a w1
      | .throw e w1 => .throw e w1 := rfl

@[simp] theorem throw_apply {α : Type} (e : Exn) (w : World) :
    (Eff.throw e : Eff α) w = .throw e w := rfl

@[simp] theorem ofExcept_ok {α : Type} (a : α) (w : World) :
    (Eff.ofExcept (.ok a) : Eff α) w = .ok a w := rfl

@[simp] theorem ofExcept_error {α : Type} (e : Exn) (w : World) :
    (Eff.ofExcept (.error e) : Eff α) w = .throw e w := rfl

theorem respects_pure {α : Type} {R : World → World → Prop} (hrefl : ∀ w, R w w) (a : α) :
    Respects R (Pure.pure a : Eff α) :=
  fun w => hrefl w

theorem respects_ofExcept {α : Type} {R : World → World → Prop} (hrefl : ∀ w, R w w)
    (r : Except Exn α) : Respects R (Eff.ofExcept r) := by
  intro w
  cases r <;> exact hrefl w

theorem respects_seq {α β : Type} (R1 R2 R3 : World → World → Prop)
    (hcomp : ∀ a b c, R1 a b → R2 b c → R3 a c) (hsub : ∀ a b, R1 a b → R3 a b)
    {m : Eff α} {f : α → Eff β}
    (hm : Respects R1 m) (hf : ∀ a, Respects R2 (f a)) : Respects R3 (m >>= f) := by
  intro w
  have h := hm w
  simp only [bind_apply]
  cases hmw : m w with
  | ok a w1 =>
    rw [hmw] at h
    exact hcomp _ _ _ h (hf a w1)
  | throw e w1 =>
    rw [hmw] at h
    exact hsub _ _ h

theorem respects_bind {α β : Type} {R : World → World → Prop}
    (htrans : ∀ a b c, R a b → R b c → R a c) {m : Eff α} {f : α → Eff β}
    (hm : Respects R m) (hf : ∀ a, Respects R (f a)) : Respects R (m >>= f) :=
  respects_seq R R R htrans (fun _ _ h => h) hm hf

theorem respects_of_ok {α : Type} {R : World → World → Prop} {m : Eff α}
    (hm : Respects R m) {w w1 : World} {a : α} (h : m w = .ok a w1) : R w w1 := by
  have := hm w
  rwa [h] at this

theorem respects_mono {α : Type} {R1 R2 : World → World → Prop}
    (hsub : ∀ a b, R1 a b → R2 a b) {m : Eff α} (hm : Respects R1 m) : Respects R2 m :=
  fun w => hsub _ _ (hm w)

end Eff

theorem quiet_refl (w : World) : Quiet w w := ⟨rfl, rfl⟩

theorem quiet_trans (a b c : World) (h1 : Quiet a b) (h2 : Quiet b c) : Quiet a c :=
  ⟨h2.1.trans h1.1, h2.2.trans h1.2⟩

theorem quiet_query {α : Type} (env : Env) {stmt : Nat → DB → Except Exn (α × DB)}
    (h : Sql.KeepsChat stmt) : Eff.Respects Quiet (query env stmt) := by
  intro w
  unfold query
  cases env.queryFault w.queries with
  | some e => exact ⟨rfl, rfl⟩
  | none =>
    cases hs : stmt (env.clock w.queries) w.db with
    | ok r =>
      obtain ⟨a, db1⟩ := r
      exact ⟨rfl, h _ _ _ _ hs⟩
    | error e => exact ⟨rfl, rfl⟩

theorem Sql.keepsChat_read {α : Type} (f : DB → α) :
    Sql.KeepsChat (fun _ db => (.ok (f db, db) : Except Exn (α × DB))) := by
  intro now db r db1 h
  cases h
  rfl

theorem Sql.keepsChat_map {α : Type} (f : DB → Except Exn α) :
    Sql.KeepsChat (fun _ db => (f db).map (fun r => (r, db))) := by
  intro now db r db1 h
  cases hf : f db with
  | ok a =>
    simp only [hf, Except.map] at h
    cases h
    rfl
  | error e => simp [hf, Except.map] at h

theorem Sql.keepsChat_insertCategory (userId : Nat) (name type : Option String) :
    Sql.KeepsChat (fun _ db => Sql.insertCategory userId name type db) := by
  intro now db r db1 h
  unfold Sql.insertCategory at h
  split at h
  · cases h
    rfl
  · cases h
  · cases h

theorem Sql.keepsChat_insertTransaction (pg : Postgres) (userId : Nat) (amount type : JSValue)
    (categoryId : Option Nat) (merchant description date : JSValue) :
    Sql.KeepsChat (Sql.insertTransaction pg userId amount type categoryId merchant description date) := by
  intro now db r db1 h
  unfold Sql.insertTransaction at h
  repeat' split at h
  all_goals first
    | (cases h; rfl)
    | cases h

theorem Sql.keepsChat_upsertBudget (pg : Postgres) (userId categoryId : Nat)
    (limit month : JSValue) : Sql.KeepsChat (Sql.upsertBudget pg userId categoryId limit month) := by
  intro now db r db1 h
  unfold Sql.upsertBudget at h
  split at h
  · cases h
  · split at h
    · cases h
    · dsimp only at h
      split at h
      · cases h
        rfl
      · cases h
        rfl

theorem Sql.keepsChat_insertGoal (pg : Postgres) (userId : Nat)
    (name targetAmount currentAmount targetDate : JSValue) :
    Sql.KeepsChat (Sql.insertGoal pg userId name targetAmount currentAmount targetDate) := by
  intro now db r db1 h
  unfold Sql.insertGoal at h
  repeat' split at h
  all_goals first
    | (cases h; rfl)
    | cases h

theorem quiet_add_transaction (env : Env) (userId : Nat) (args : JSValue) :
    Eff.Respects Quiet (add_transaction env userId args) := by
  unfold add_transaction
  dsimp only
  repeat' first
    | exact Eff.respects_pure quiet_refl _
    | exact Eff.respects_ofExcept quiet_refl _
    | exact quiet_query _ (Sql.keepsChat_read _)
    | exact quiet_query _ (Sql.keepsChat_map _)
    | exact quiet_query _ (Sql.keepsChat_insertCategory _ _ _)
    | exact quiet_query _ (Sql.keepsChat_insertTransaction _ _ _ _ _ _ _ _)
    | exact quiet_query _ (Sql.keepsChat_upsertBudget _ _ _ _ _)
    | exact quiet_query _ (Sql.keepsChat_insertGoal _ _ _ _ _ _)
    | apply Eff.respects_bind quiet_trans
    | intro _
    | split

theorem quiet_get_spending_by_category (env : Env) (userId : Nat) (args : JSValue) :
    Eff.Respects Quiet (get_spending_by_category env userId args) := by
  unfold get_spending_by_category
  dsimp only
  repeat' first
    | exact Eff.respects_pure quiet_refl _
    | exact Eff.respects_ofExcept quiet_refl _
    | exact quiet_query _ (Sql.keepsChat_read _)
    | exact quiet_query _ (Sql.keepsChat_map _)
    | exact quiet_query _ (Sql.keepsChat_insertCategory _ _ _)
    | exact quiet_query _ (Sql.keepsChat_insertTransaction _ _ _ _ _ _ _ _)
    | exact quiet_query _ (Sql.keepsChat_upsertBudget _ _ _ _ _)
    | exact quiet_query _ (Sql.keepsChat_insertGoal _ _ _ _ _ _)
    | apply Eff.respects_bind quiet_trans
    | intro _

theorem quiet_create_budget (env : Env) (userId : Nat) (args : JSValue) :
    Eff.Respects Quiet (create_budget env userId args) := by
  unfold create_budget
  dsimp only
  repeat' first
    | exact Eff.respects_pure quiet_refl _
    | exact Eff.respects_ofExcept quiet_refl _
    | exact quiet_query _ (Sql.keepsChat_read _)
    | exact quiet_query _ (Sql.keepsChat_map _)
    | exact quiet_query _ (Sql.keepsChat_insertCategory _ _ _)
    | exact quiet_query _ (Sql.keepsChat_insertTransaction _ _ _ _ _ _ _ _)
    | exact quiet_query _ (Sql.keepsChat_upsertBudget _ _ _ _ _)
    | exact quiet_query _ (Sql.keepsChat_insertGoal _ _ _ _ _ _)
    | apply Eff.respects_bind quiet_trans
    | intro _
    | split

theorem quiet_get_budget_status (env : Env) (userId : Nat) :
    Eff.Respects Quiet (get_budget_status env userId) := by
  unfold get_budget_status
  dsimp only
  repeat' first
    | exact Eff.respects_pure quiet_refl _
    | exact Eff.respects_ofExcept quiet_refl _
    | exact quiet_query _ (Sql.keepsChat_read _)
    | exact quiet_query _ (Sql.keepsChat_map _)
    | exact quiet_query _ (Sql.keepsChat_insertCategory _ _ _)
    | exact quiet_query _ (Sql.keepsChat_insertTransaction _ _ _ _ _ _ _ _)
    | exact quiet_query _ (Sql.keepsChat_upsertBudget _ _ _ _ _)
    | exact quiet_query _ (Sql.keepsChat_insertGoal _ _ _ _ _ _)
    | apply Eff.respects_bind quiet_trans
    | intro _

theorem quiet_detect_anomalies (env : Env) (userId : Nat) :
    Eff.Respects Quiet (detect_anomalies env userId) := by
  unfold detect_anomalies
  repeat' first
    | exact Eff.respects_pure quiet_refl _
    | exact Eff.respects_ofExcept quiet_refl _
    | exact quiet_query _ (Sql.keepsChat_read _)
    | exact quiet_query _ (Sql.keepsChat_map _)
    | exact quiet_query _ (Sql.keepsChat_insertCategory _ _ _)
    | exact quiet_query _ (Sql.keepsChat_insertTransaction _ _ _ _ _ _ _ _)
    | exact quiet_query _ (Sql.keepsChat_upsertBudget _ _ _ _ _)
    | exact quiet_query _ (Sql.keepsChat_insertGoal _ _ _ _ _ _)
    | apply Eff.respects_bind quiet_trans
    | intro _

theorem quiet_suggest_savings (env : Env) (userId : Nat) (args : JSValue) :
    Eff.Respects Quiet (suggest_savings env userId args) := by
  unfold suggest_savings
  dsimp only
  repeat' first
    | exact Eff.respects_pure quiet_refl _
    | exact Eff.respects_ofExcept quiet_refl _
    | exact quiet_query _ (Sql.keepsChat_read _)
    | exact quiet_query _ (Sql.keepsChat_map _)
    | exact quiet_query _ (Sql.keepsChat_insertCategory _ _ _)
    | exact quiet_query _ (Sql.keepsChat_insertTransaction _ _ _ _ _ _ _ _)
    | exact quiet_query _ (Sql.keepsChat_upsertBudget _ _ _ _ _)
    | exact quiet_query _ (Sql.keepsChat_insertGoal _ _ _ _ _ _)
    | apply Eff.respects_bind quiet_trans
    | intro _

theorem quiet_create_goal (env : Env) (userId : Nat) (args : JSValue) :
    Eff.Respects Quiet (create_goal env userId args) := by
  unfold create_goal
  dsimp only
  repeat' first
    | exact Eff.respects_pure quiet_refl _
    | exact Eff.respects_ofExcept quiet_refl _
    | exact quiet_query _ (Sql.keepsChat_read _)
    | exact quiet_query _ (Sql.keepsChat_map _)
    | exact quiet_query _ (Sql.keepsChat_insertCategory _ _ _)
    | exact quiet_query _ (Sql.keepsChat_insertTransaction _ _ _ _ _ _ _ _)
    | exact quiet_query _ (Sql.keepsChat_upsertBudget _ _ _ _ _)
    | exact quiet_query _ (Sql.keepsChat_insertGoal _ _ _ _ _ _)
    | apply Eff.respects_bind quiet_trans
    | intro _

/-- A tool dispatch makes no model call and does not write to the conversation
log, whether it returns or throws. -/
theorem quiet_callTool (env : Env) (userId : Nat) (toolCall : ToolCall) :
    Eff.Respects Quiet (callTool env userId toolCall) := by
  unfold callTool
  dsimp only
  apply Eff.respects_bind quiet_trans (Eff.respects_ofExcept quiet_refl _)
  intro args
  repeat' first
    | exact Eff.respects_pure quiet_refl _
    | exact Eff.respects_ofExcept quiet_refl _
    | exact quiet_add_transaction _ _ _
    | exact quiet_get_spending_by_category _ _ _
    | exact quiet_create_budget _ _ _
    | exact quiet_get_budget_status _ _
    | exact quiet_detect_anomalies _ _
    | exact quiet_suggest_savings _ _ _
    | exact quiet_create_goal _ _ _
    | split

/-! ## Counting the model calls of a turn -/

theorem calls_refl (w : World) : Calls 0 w w := ⟨[], by simp, by simp⟩

theorem calls_of_quiet (a b : World) (h : Quiet a b) : Calls 0 a b :=
  ⟨[], by simp [h.1], by simp⟩

theorem calls_trans {j k : Nat} (a b c : World) (h1 : Calls j a b) (h2 : Calls k b c) :
    Calls (j + k) a c := by
  obtain ⟨x, hx, hxl⟩ := h1
  obtain ⟨y, hy, hyl⟩ := h2
  refine ⟨x ++ y, ?_, ?_⟩
  · rw [hy, hx, List.append_assoc]
  · rw [List.length_append]
    omega

theorem calls_mono {j k : Nat} (hjk : j ≤ k) (a b : World) (h : Calls j a b) : Calls k a b := by
  obtain ⟨x, hx, hxl⟩ := h
  exact ⟨x, hx, by omega⟩

theorem calls_zero_trans {k : Nat} (a b c : World) (h1 : Calls 0 a b) (h2 : Calls k b c) :
    Calls k a c := by
  simpa using calls_trans a b c h1 h2

theorem calls_zero_bind {α β : Type} {k : Nat} {m : Eff α} {f : α → Eff β}
    (hm : Eff.Respects (Calls 0) m) (hf : ∀ a, Eff.Respects (Calls k) (f a)) :
    Eff.Respects (Calls k) (m >>= f) :=
  Eff.respects_seq (Calls 0) (Calls k) (Calls k) calls_zero_trans (calls_mono (Nat.zero_le k)) hm hf

theorem calls_query {α : Type} (env : Env) (stmt : Nat → DB → Except Exn (α × DB)) :
    Eff.Respects (Calls 0) (query env stmt) := by
  intro w
  unfold query
  cases env.queryFault w.queries with
  | some e => exact calls_refl _
  | none =>
    cases hs : stmt (env.clock w.queries) w.db with
    | ok r => exact ⟨[], by simp [Result.world], by simp⟩
    | error e => exact calls_refl _

theorem calls_fetchChatCompletion (env : Env) (messages : List Message) :
    Eff.Respects (Calls 1) (fetchChatCompletion env messages) := by
  intro w
  refine ⟨[messages], ?_, by simp⟩
  unfold fetchChatCompletion
  dsimp only
  repeat' split
  all_goals rfl

theorem calls_callTool (env : Env) (userId : Nat) (toolCall : ToolCall) :
    Eff.Respects (Calls 0) (callTool env userId toolCall) :=
  Eff.respects_mono calls_of_quiet (quiet_callTool env userId toolCall)

theorem calls_dispatchToolCalls (env : Env) (userId : Nat) (toolCalls : List ToolCall) :
    ∀ messages, Eff.Respects (Calls 0) (dispatchToolCalls env userId toolCalls messages) := by
  induction toolCalls with
  | nil =>
    intro messages
    exact Eff.respects_pure calls_refl _
  | cons toolCall rest ih =>
    intro messages
    unfold dispatchToolCalls
    refine calls_zero_bind (calls_callTool _ _ _) (fun _ => ?_)
    exact calls_zero_bind (calls_query _ _) (fun _ => ih _)

theorem calls_agentLoop (env : Env) (userId : Nat) (remaining : Nat) :
    ∀ messages, Eff.Respects (Calls remaining) (agentLoop env userId remaining messages) := by
  induction remaining with
  | zero =>
    intro messages
    exact Eff.respects_pure calls_refl _
  | succ n ih =>
    intro messages
    unfold agentLoop
    refine Eff.respects_seq (Calls 1) (Calls n) (Calls (n + 1)) ?_ ?_
      (calls_fetchChatCompletion _ _) (fun completion => ?_)
    · intro a b c h1 h2
      have h := calls_trans a b c h1 h2
      rwa [Nat.add_comm] at h
    · intro a b h
      exact calls_mono (by omega) a b h
    · split
      · exact Eff.respects_pure (fun w => calls_mono (Nat.zero_le n) w w (calls_refl w)) _
      · dsimp only
        split
        · refine calls_zero_bind (calls_query _ _) (fun _ => ?_)
          exact calls_zero_bind (calls_dispatchToolCalls _ _ _ _) (fun _ => ih _)
        · refine Eff.respects_mono (calls_mono (Nat.zero_le n)) ?_
          refine calls_zero_bind (calls_query _ _) (fun _ => ?_)
          exact Eff.respects_pure calls_refl _

theorem calls_runAgent (env : Env) (userId : Nat) (message : String) :
    Eff.Respects (Calls 4) (runAgent env userId message) := by
  unfold runAgent
  refine calls_zero_bind (calls_query _ _) (fun _ => ?_)
  dsimp only
  refine calls_zero_bind (calls_query _ _) (fun _ => ?_)
  refine Eff.respects_seq (Calls 4) (Calls 0) (Calls 4) ?_ (fun _ _ h => h)
    (calls_agentLoop _ _ _ _) (fun r => ?_)
  · intro a b c h1 h2
    exact calls_trans a b c h1 h2
  · exact Eff.respects_pure calls_refl _

/-- Claim C1: whatever the user, the message, the stored data and the behaviour
of the model service and of the database, one run of `runAgent` makes at most 4
calls of `fetchChatCompletion`: the record of model calls grows by at most 4
entries, whether the run returns or throws. -/
theorem runAgent_at_most_four_model_calls (env : Env) (userId : Nat) (message : String)
    (w : World) :
    (runAgent env userId message w).world.modelCalls.length ≤ w.modelCalls.length + 4 := by
  obtain ⟨extra, h, hl⟩ := calls_runAgent env userId message w
  rw [h, List.length_append]
  omega

/-! ## Running a turn step by step -/

theorem fetchChatCompletion_ok (env : Env) (messages : List Message) (w : World)
    (completion : Completion)
    (h : completionOf env w.modelCalls.length messages = some completion) :
    fetchChatCompletion env messages w =
      .ok completion { w with modelCalls := w.modelCalls ++ [messages] } := by
  unfold completionOf at h
  unfold fetchChatCompletion
  cases hf : env.fetch w.modelCalls.length messages with
  | error e => simp [hf] at h
  | ok resp =>
    simp only [hf] at h ⊢
    cases hok : resp.ok with
    | false => simp [hok] at h
    | true =>
      simp only [hok, if_true] at h ⊢
      cases hj : resp.json with
      | error e => simp [hj, Except.toOption] at h
      | ok json =>
        simp only [hj, Except.toOption, Option.some.injEq] at h
        simp [h]

theorem query_insertChatMessage (env : Env) (w : World) (userId : Nat) (role content : String)
    (toolName : Option String) (h : env.queryFault w.queries = none) :
    query env (Sql.insertChatMessage userId role content toolName) w =
      .ok w.db.chat_messages.nextId (persisted env w userId role content toolName) := by
  unfold query
  simp [h, Sql.insertChatMessage, persisted]

theorem query_read (env : Env) (w : World) {α : Type} (f : DB → α)
    (h : env.queryFault w.queries = none) :
    query env (fun _ db => (.ok (f db, db) : Except Exn (α × DB))) w =
      .ok (f w.db) { w with queries := w.queries + 1 } := by
  unfold query
  simp [h]

/-- One step of the loop over the requested tool calls, when the dispatch
returns and the result is persisted. -/
theorem dispatchToolCalls_cons_ok (env : Env) (userId : Nat) (toolCall : ToolCall)
    (rest : List ToolCall) (messages : List Message) (w w1 : World) (toolResult : JSValue)
    (hcall : callTool env userId toolCall w = .ok toolResult w1)
    (hq : env.queryFault w1.queries = none) :
    dispatchToolCalls env userId (toolCall :: rest) messages w =
      dispatchToolCalls env userId rest
        (messages ++ [{ role := "tool", name := some toolCall.function.name,
                        content := env.js.stringify toolResult,
                        tool_call_id := some toolCall.id }])
        (persisted env w1 userId "tool" (env.js.stringify toolResult)
          (some toolCall.function.name)) := by
  rw [dispatchToolCalls]
  simp only [Eff.bind_apply, hcall, query_insertChatMessage env w1 userId _ _ _ hq]

/-- One step of the loop over the requested tool calls, when the dispatch throws. -/
theorem dispatchToolCalls_cons_throw (env : Env) (userId : Nat) (toolCall : ToolCall)
    (rest : List ToolCall) (messages : List Message) (w w1 : World) (e : Exn)
    (hcall : callTool env userId toolCall w = .throw e w1) :
    dispatchToolCalls env userId (toolCall :: rest) messages w = .throw e w1 := by
  rw [dispatchToolCalls]
  simp only [Eff.bind_apply, hcall]

theorem dispatchToolCalls_returns (env : Env) (userId : Nat) (hDb : env.databaseUp)
    (toolCalls : List ToolCall)
    (hT : ∀ t ∈ toolCalls, ∀ w, (callTool env userId t w).returns = true) :
    ∀ messages w, ∃ messages1 w1,
      dispatchToolCalls env userId toolCalls messages w = .ok messages1 w1 ∧
        w1.modelCalls = w.modelCalls := by
  induction toolCalls with
  | nil =>
    intro messages w
    exact ⟨messages, w, rfl, rfl⟩
  | cons t rest ih =>
    intro messages w
    have hret := hT t (List.mem_cons_self _ _) w
    have hquiet := quiet_callTool env userId t w
    cases hcall : callTool env userId t w with
    | throw e w1 => simp [hcall, Result.returns] at hret
    | ok r w1 =>
      rw [hcall] at hquiet
      rw [dispatchToolCalls_cons_ok env userId t rest messages w w1 r hcall (hDb _)]
      obtain ⟨m1, w2, h2, hc⟩ :=
        ih (fun t ht => hT t (List.mem_cons_of_mem _ ht)) _
          (persisted env w1 userId "tool" (env.js.stringify r) (some t.function.name))
      exact ⟨m1, w2, h2, by rw [hc]; exact hquiet.1⟩

theorem agentLoop_exhausts (env : Env) (userId : Nat) (hDb : env.databaseUp)
    (hModel : AlwaysRequestsTools env userId) (remaining : Nat) :
    ∀ messages w, ∃ messages1 w1,
      agentLoop env userId remaining messages w = .ok (none, messages1) w1 ∧
        w1.modelCalls.length = w.modelCalls.length + remaining := by
  induction remaining with
  | zero =>
    intro messages w
    exact ⟨messages, w, rfl, rfl⟩
  | succ n ih =>
    intro messages w
    obtain ⟨completion, choice, toolCall, rest, hc, hfirst, htools, hret⟩ :=
      hModel w.modelCalls.length messages
    rw [agentLoop]
    simp only [Eff.bind_apply, fetchChatCompletion_ok env messages w completion hc, hfirst,
      htools]
    rw [query_insertChatMessage env _ userId _ _ _ (hDb _)]
    dsimp only
    obtain ⟨m1, w1, hd, hcalls⟩ := dispatchToolCalls_returns env userId hDb _ hret
      (messages ++ [{ role := "assistant", content := contentOrEmpty choice.message,
                      tool_calls := some (toolCall :: rest) }])
      (persisted env { w with modelCalls := w.modelCalls ++ [messages] } userId "assistant"
        (contentOrEmpty choice.message) none)
    rw [hd]
    dsimp only
    obtain ⟨m2, w2, h2, hlen⟩ := ih m1 w1
    refine ⟨m2, w2, h2, ?_⟩
    rw [hlen, hcalls]
    simp [persisted]
    omega

/-- Claim C2: when the model service answers every request with a response
whose first choice carries at least one tool invocation, every requested tool
dispatch returns and the database queries of the turn succeed, `runAgent` makes
exactly 4 model calls and returns `{ message: F }` with `F` the fixed fallback
text, without throwing. -/
theorem runAgent_tool_loop_gives_fallback (env : Env) (userId : Nat) (message : String)
    (w : World) (hDb : env.databaseUp) (hModel : AlwaysRequestsTools env userId) :
    ∃ w1, runAgent env userId message w = .ok { message := fallbackMessage } w1 ∧
      w1.modelCalls.length = w.modelCalls.length + 4 := by
  rw [runAgent]
  simp only [Eff.bind_apply, query_read env w _ (hDb _)]
  rw [query_insertChatMessage env _ userId _ _ _ (hDb _)]
  dsimp only
  obtain ⟨m1, w1, h1, hlen⟩ := agentLoop_exhausts env userId hDb hModel 4
    ({ role := "system", content := systemPrompt env } ::
      historyMessages (Sql.selectHistory userId w.db) ++ [{ role := "user", content := message }])
    (persisted env { w with queries := w.queries + 1 } userId "user" message none)
  rw [h1]
  exact ⟨w1, rfl, by rw [hlen]; rfl⟩

/-- Witness for claim C2: the reference environment with a model service that
always asks for the budget status. -/
theorem runAgent_tool_loop_gives_fallback_witness :
    (Reference.env Reference.budgetLoopService).databaseUp ∧
    AlwaysRequestsTools (Reference.env Reference.budgetLoopService) 1 ∧
    ∃ w1, runAgent (Reference.env Reference.budgetLoopService) 1 "How are my budgets?"
        Reference.emptyWorld = .ok { message := fallbackMessage } w1 ∧
      w1.modelCalls.length = Reference.emptyWorld.modelCalls.length + 4 := by
  have hDb : (Reference.env Reference.budgetLoopService).databaseUp := fun _ => rfl
  have hModel : AlwaysRequestsTools (Reference.env Reference.budgetLoopService) 1 := by
    intro n messages
    refine ⟨_, _, _, _, rfl, rfl, rfl, ?_⟩
    intro t ht w
    simp only [List.mem_singleton] at ht
    subst ht
    rfl
  exact ⟨hDb, hModel,
    runAgent_tool_loop_gives_fallback _ 1 "How are my budgets?" Reference.emptyWorld hDb hModel⟩

/-- When the two queries before the loop succeed, `runAgent` is its loop run
from `turnStart` on `turnMessages`. -/
theorem runAgent_eq_loop (env : Env) (userId : Nat) (message : String) (w : World)
    (hq1 : env.queryFault w.queries = none) (hq2 : env.queryFault (w.queries + 1) = none) :
    runAgent env userId message w =
      replyOf (agentLoop env userId 4 (turnMessages env userId message w)
        (turnStart env userId message w)) := by
  rw [runAgent]
  simp only [Eff.bind_apply, query_read env w _ hq1]
  rw [query_insertChatMessage env _ userId _ _ _ hq2]
  dsimp only
  unfold replyOf turnStart turnMessages
  cases agentLoop env userId 4
    ({ role := "system", content := systemPrompt env } ::
      historyMessages (Sql.selectHistory userId w.db) ++ [{ role := "user", content := message }])
    (persisted env { w with queries := w.queries + 1 } userId "user" message none) with
  | ok r w1 => rfl
  | throw e w1 => rfl

/-- An iteration of the loop whose response carries no tool invocation: the
content (or the empty string) is persisted as an assistant message and the loop
is left. -/
theorem agentLoop_plain (env : Env) (userId : Nat) (n : Nat) (messages : List Message)
    (w : World) (completion : Completion) (choice : Choice)
    (hc : completionOf env w.modelCalls.length messages = some completion)
    (hfirst : completion.firstChoice = some choice)
    (hplain : choice.message.tool_calls.getD [] = [])
    (hq : env.queryFault w.queries = none) :
    agentLoop env userId (n + 1) messages w =
      .ok (some (contentOrEmpty choice.message),
            messages ++ [{ role := "assistant", content := contentOrEmpty choice.message }])
        (persisted env { w with modelCalls := w.modelCalls ++ [messages] } userId "assistant"
          (contentOrEmpty choice.message) none) := by
  rw [agentLoop]
  simp only [Eff.bind_apply, fetchChatCompletion_ok env messages w completion hc, hfirst]
  cases htc : choice.message.tool_calls with
  | none =>
    simp only [Eff.bind_apply]
    rw [query_insertChatMessage env { w with modelCalls := w.modelCalls ++ [messages] } userId _ _ _ hq]
    rfl
  | some tcs =>
    cases tcs with
    | nil =>
      simp only [Eff.bind_apply]
      rw [query_insertChatMessage env { w with modelCalls := w.modelCalls ++ [messages] } userId _ _ _ hq]
      rfl
    | cons t rest => simp [htc] at hplain

/-- Claim C3, as the code has it: when the loop of a turn reaches an iteration
whose model response carries no tool invocation in its first choice and a
non-empty content `c`, and the database queries succeed, `runAgent` persists `c`
as an assistant message, makes no model call after this one and returns
`{ message: c }`. -/
theorem runAgent_plain_answer (env : Env) (userId : Nat) (message : String) (w0 : World)
    (n : Nat) (messages : List Message) (w : World) (completion : Completion)
    (choice : Choice) (c : String)
    (hq1 : env.queryFault w0.queries = none) (hq2 : env.queryFault (w0.queries + 1) = none)
    (hreach : agentLoop env userId 4 (turnMessages env userId message w0)
        (turnStart env userId message w0) = agentLoop env userId (n + 1) messages w)
    (hc : completionOf env w.modelCalls.length messages = some completion)
    (hfirst : completion.firstChoice = some choice)
    (hplain : choice.message.tool_calls.getD [] = [])
    (hcontent : choice.message.content = some c) (hne : c ≠ "")
    (hq : env.queryFault w.queries = none) :
    runAgent env userId message w0 =
      .ok { message := c }
        (persisted env { w with modelCalls := w.modelCalls ++ [messages] } userId
          "assistant" c none) := by
  have hce : contentOrEmpty choice.message = c := by simp [contentOrEmpty, hcontent]
  rw [runAgent_eq_loop env userId message w0 hq1 hq2, hreach,
    agentLoop_plain env userId n messages w completion choice hc hfirst hplain hq, hce]
  simp [replyOf, finalText, hne]

/-- Witness for claim C3: the model answers the first request with a plain
text. -/
theorem runAgent_plain_answer_witness :
    runAgent (Reference.env (Reference.plainService "You have no budgets yet.")) 1 "Hi"
        Reference.emptyWorld =
      .ok { message := "You have no budgets yet." }
        (persisted (Reference.env (Reference.plainService "You have no budgets yet."))
          { turnStart (Reference.env (Reference.plainService "You have no budgets yet.")) 1 "Hi"
              Reference.emptyWorld with
            modelCalls := [turnMessages
              (Reference.env (Reference.plainService "You have no budgets yet.")) 1 "Hi"
              Reference.emptyWorld] }
          1 "assistant" "You have no budgets yet." none) :=
  runAgent_plain_answer (Reference.env (Reference.plainService "You have no budgets yet.")) 1
    "Hi" Reference.emptyWorld 3 _ _ _ _ "You have no budgets yet." rfl rfl rfl rfl rfl rfl rfl
    (by decide) rfl

/-- Counterexample to claim C3 as stated: a response whose first choice is the
plain content `""` makes `runAgent` return the fallback text, not `""`. -/
theorem runAgent_empty_answer_gives_fallback :
    (runAgent (Reference.env (Reference.plainService "")) 1 "Hi" Reference.emptyWorld).value? =
        some { message := fallbackMessage } ∧
      ({ message := fallbackMessage } : Reply) ≠ { message := "" } := by
  constructor
  · rfl
  · decide

/-! ## What a turn leaves in the conversation log -/

theorem Eff.bind_eq_ok {α β : Type} {m : Eff α} {f : α → Eff β} {w w2 : World} {b : β}
    (h : (m >>= f) w = .ok b w2) : ∃ a w1, m w = .ok a w1 ∧ f a w1 = .ok b w2 := by
  simp only [Eff.bind_apply] at h
  cases hm : m w with
  | ok a w1 =>
    rw [hm] at h
    exact ⟨a, w1, rfl, h⟩
  | throw e w1 =>
    rw [hm] at h
    cases h

theorem chatGrows_refl (w : World) : ChatGrows w w := ⟨[], by simp⟩

theorem chatGrows_trans (a b c : World) (h1 : ChatGrows a b) (h2 : ChatGrows b c) :
    ChatGrows a c := by
  obtain ⟨x, hx⟩ := h1
  obtain ⟨y, hy⟩ := h2
  exact ⟨x ++ y, by rw [hy, hx, List.append_assoc]⟩

theorem chatGrows_of_quiet (a b : World) (h : Quiet a b) : ChatGrows a b :=
  ⟨[], by simp [h.2]⟩

/-- The outcome of an insertion into the conversation log: it throws and leaves
the log as it was, or returns in the world `persisted`. -/
theorem query_insertChatMessage_cases (env : Env) (w : World) (userId : Nat)
    (role content : String) (toolName : Option String) :
    (∃ e, query env (Sql.insertChatMessage userId role content toolName) w =
        .throw e { w with queries := w.queries + 1 }) ∨
      query env (Sql.insertChatMessage userId role content toolName) w =
        .ok w.db.chat_messages.nextId (persisted env w userId role content toolName) := by
  cases hq : env.queryFault w.queries with
  | some e =>
    left
    exact ⟨e, by unfold query; simp [hq]⟩
  | none =>
    right
    exact query_insertChatMessage env w userId role content toolName hq

theorem chatGrows_insertChatMessage (env : Env) (userId : Nat) (role content : String)
    (toolName : Option String) :
    Eff.Respects ChatGrows (query env (Sql.insertChatMessage userId role content toolName)) := by
  intro w
  rcases query_insertChatMessage_cases env w userId role content toolName with ⟨e, h⟩ | h
  · rw [h]
    exact chatGrows_refl w
  · rw [h]
    exact ⟨_, rfl⟩

theorem chatGrows_dispatchToolCalls (env : Env) (userId : Nat) (toolCalls : List ToolCall) :
    ∀ messages, Eff.Respects ChatGrows (dispatchToolCalls env userId toolCalls messages) := by
  induction toolCalls with
  | nil =>
    intro messages
    exact Eff.respects_pure chatGrows_refl _
  | cons toolCall rest ih =>
    intro messages
    unfold dispatchToolCalls
    refine Eff.respects_bind chatGrows_trans
      (Eff.respects_mono chatGrows_of_quiet (quiet_callTool _ _ _)) (fun _ => ?_)
    exact Eff.respects_bind chatGrows_trans (chatGrows_insertChatMessage _ _ _ _ _)
      (fun _ => ih _)

/-- The database is the same after `fetchChatCompletion` as before. -/
theorem fetchChatCompletion_db (env : Env) (messages : List Message) (w : World) :
    (fetchChatCompletion env messages w).world.db = w.db := by
  unfold fetchChatCompletion
  dsimp only
  repeat' split
  all_goals rfl

/-- When the loop returns a final assistant message `c`, the conversation log
is the log at the entry of the loop, followed by further rows, followed by an
assistant row of content `c`. -/
theorem agentLoop_final_is_last_row (env : Env) (userId : Nat) (remaining : Nat) :
    ∀ messages w r w1, agentLoop env userId remaining messages w = .ok r w1 →
      ∀ c, r.1 = some c →
        ∃ earlier row, w1.db.chat_messages.rows = w.db.chat_messages.rows ++ earlier ++ [row] ∧
          row.user_id = userId ∧ row.role = "assistant" ∧ row.content = c ∧
          row.tool_name = none := by
  induction remaining with
  | zero =>
    intro messages w r w1 h c hc
    cases h
    cases hc
  | succ n ih =>
    intro messages w r w1 h c hc
    rw [agentLoop] at h
    obtain ⟨completion, wa, hfetch, h⟩ := Eff.bind_eq_ok h
    have hdb : wa.db = w.db := by
      have := fetchChatCompletion_db env messages w
      rwa [hfetch] at this
    cases hfirst : completion.firstChoice with
    | none =>
      simp only [hfirst] at h
      cases h
      cases hc
    | some choice =>
      simp only [hfirst] at h
      have plain : ∀ (h : (query env (Sql.insertChatMessage userId "assistant"
          (contentOrEmpty choice.message) none) >>= fun _ =>
            (pure (some (contentOrEmpty choice.message),
              messages ++ [{ role := "assistant", content := contentOrEmpty choice.message }]) :
              Eff (Option String × List Message))) wa = .ok r w1),
          ∃ earlier row, w1.db.chat_messages.rows = w.db.chat_messages.rows ++ earlier ++ [row] ∧
            row.user_id = userId ∧ row.role = "assistant" ∧ row.content = c ∧
            row.tool_name = none := by
        intro h
        obtain ⟨a, wb, hq, h⟩ := Eff.bind_eq_ok h
        cases h
        simp only [Option.some.injEq] at hc
        rcases query_insertChatMessage_cases env wa userId "assistant"
          (contentOrEmpty choice.message) none with ⟨e, hthrow⟩ | hok
        · rw [hthrow] at hq
          cases hq
        · rw [hok] at hq
          cases hq
          refine ⟨[], ChatMessage.mk wa.db.chat_messages.nextId userId "assistant"
            (contentOrEmpty choice.message) none (env.clock wa.queries), ?_, rfl, rfl, hc, rfl⟩
          simp [persisted, hdb]
      cases htc : choice.message.tool_calls with
      | none =>
        simp only [htc] at h
        exact plain h
      | some tcs =>
        cases tcs with
        | nil =>
          simp only [htc] at h
          exact plain h
        | cons t rest =>
          simp only [htc] at h
          obtain ⟨a, wb, hq, h⟩ := Eff.bind_eq_ok h
          obtain ⟨m1, wc, hd, h⟩ := Eff.bind_eq_ok h
          obtain ⟨earlier, row, hrows, hrow⟩ := ih m1 wc r w1 h c hc
          obtain ⟨x, hx⟩ := Eff.respects_of_ok (chatGrows_insertChatMessage env userId _ _ _) hq
          obtain ⟨y, hy⟩ := Eff.respects_of_ok (chatGrows_dispatchToolCalls env userId _ _) hd
          refine ⟨x ++ y ++ earlier, row, ?_, hrow⟩
          rw [hrows, hy, hx, hdb]
          simp [List.append_assoc]

/-- Claim C4, as the code has it: in every turn of `runAgent` that returns a
text other than the fixed fallback, the last message persisted to
`chat_messages` during the turn is an assistant message of this user whose
content is the text returned to the caller, the final answer of the model. -/
theorem runAgent_answer_is_last_persisted (env : Env) (userId : Nat) (message : String)
    (w w1 : World) (reply : Reply)
    (hrun : runAgent env userId message w = .ok reply w1)
    (hanswer : reply.message ≠ fallbackMessage) :
    ∃ earlier row, w1.db.chat_messages.rows = w.db.chat_messages.rows ++ earlier ++ [row] ∧
      row.user_id = userId ∧ row.role = "assistant" ∧ row.content = reply.message ∧
      row.tool_name = none := by
  rw [runAgent] at hrun
  obtain ⟨hist, wa, hread, hrun⟩ := Eff.bind_eq_ok hrun
  obtain ⟨uid, wb, hins, hrun⟩ := Eff.bind_eq_ok hrun
  obtain ⟨r, wc, hloop, hrun⟩ := Eff.bind_eq_ok hrun
  obtain ⟨final, msgs⟩ := r
  cases hrun
  have hqa := Eff.respects_of_ok (quiet_query env (Sql.keepsChat_read (Sql.selectHistory userId))) hread
  obtain ⟨x, hx⟩ := Eff.respects_of_ok (chatGrows_insertChatMessage env userId _ _ _) hins
  cases final with
  | none => exact absurd rfl hanswer
  | some c =>
    have hc : finalText (some c) = c := by
      by_cases hempty : c = ""
      · subst hempty
        exact absurd rfl hanswer
      · simp [finalText, hempty]
    obtain ⟨earlier, row, hrows, h1, h2, h3, h4⟩ :=
      agentLoop_final_is_last_row env userId 4 _ wb _ _ hloop c rfl
    refine ⟨x ++ earlier, row, ?_, h1, h2, ?_, h4⟩
    · rw [hrows, hx, hqa.2]
      simp [List.append_assoc]
    · rw [h3]
      exact hc.symm

/-- Witness for claim C4: the model answers the first request with a plain
text. -/
theorem runAgent_answer_is_last_persisted_witness :
    ∃ earlier row,
      (runAgent (Reference.env (Reference.plainService "All budgets are green.")) 1 "Status?"
          Reference.emptyWorld).world.db.chat_messages.rows =
        Reference.emptyWorld.db.chat_messages.rows ++ earlier ++ [row] ∧
      row.user_id = 1 ∧ row.role = "assistant" ∧ row.content = "All budgets are green." ∧
      row.tool_name = none :=
  runAgent_answer_is_last_persisted
    (Reference.env (Reference.plainService "All budgets are green.")) 1 "Status?"
    Reference.emptyWorld _ { message := "All budgets are green." } rfl (by decide)

/-- Counterexample to claim C4 as stated: when the model response has no
choice, the turn returns the fallback text, and the only message it has
persisted, hence the last one, is the user message. -/
theorem runAgent_fallback_is_not_persisted :
    (runAgent (Reference.env Reference.noChoiceService) 1 "Status?"
        Reference.emptyWorld).value? = some { message := fallbackMessage } ∧
      ((runAgent (Reference.env Reference.noChoiceService) 1 "Status?"
        Reference.emptyWorld).world.db.chat_messages.rows.map
          (fun m => (m.role, m.content))) = [("user", "Status?")] := by
  constructor
  · rfl
  · rfl

theorem callTool_parse_error (env : Env) (userId : Nat) (toolCall : ToolCall) (w : World)
    (e : Exn) (h : env.js.parse (argumentsText toolCall) = .error e) :
    callTool env userId toolCall w = .throw e w := by
  rw [callTool]
  simp only [Eff.bind_apply, h, Eff.ofExcept_error]

theorem callTool_unknown (env : Env) (userId : Nat) (toolCall : ToolCall) (w : World)
    (args : JSValue) (hargs : env.js.parse (argumentsText toolCall) = .ok args)
    (hname : toolCall.function.name ∉ handledTools) :
    callTool env userId toolCall w = .ok (unknownTool toolCall.function.name) w := by
  simp only [handledTools, List.mem_cons, List.mem_singleton, not_or, List.not_mem_nil,
    not_false_eq_true, and_true] at hname
  obtain ⟨h1, h2, h3, h4, h5, h6, h7, h8⟩ := hname
  rw [callTool]
  simp only [Eff.bind_apply, hargs, Eff.ofExcept_ok, h1, h2, h3, h4, h5, h6, h7, h8, if_false]
  rfl

theorem argumentsText_of_nonempty (toolCall : ToolCall) (text : String)
    (h : toolCall.function.arguments = some text) (hne : text ≠ "") :
    argumentsText toolCall = text := by
  simp [argumentsText, h, hne]

theorem fetchChatCompletion_calls (env : Env) (messages : List Message) (w : World) :
    (fetchChatCompletion env messages w).world.modelCalls = w.modelCalls ++ [messages] := by
  unfold fetchChatCompletion
  dsimp only
  repeat' split
  all_goals rfl

/-- An iteration of the loop starts with a model call on the current messages. -/
theorem agentLoop_first_call (env : Env) (userId : Nat) (n : Nat) (messages : List Message)
    (w : World) :
    ∃ extra, (agentLoop env userId (n + 1) messages w).world.modelCalls =
      w.modelCalls ++ messages :: extra := by
  have hfetch := fetchChatCompletion_calls env messages w
  rw [agentLoop]
  cases hf : fetchChatCompletion env messages w with
  | throw e w1 =>
    rw [hf] at hfetch
    simp only [Eff.bind_apply, hf]
    exact ⟨[], hfetch⟩
  | ok completion w1 =>
    rw [hf] at hfetch
    simp only [Result.world] at hfetch
    have hrest : ∀ (m : Eff (Option String × List Message)), Eff.Respects (Calls n) m →
        ∃ extra, (m w1).world.modelCalls = w.modelCalls ++ messages :: extra := by
      intro m hm
      obtain ⟨extra, hx, _⟩ := hm w1
      exact ⟨extra, by rw [hx, hfetch]; simp⟩
    simp only [Eff.bind_apply, hf]
    refine hrest _ ?_
    split
    · exact Eff.respects_pure (fun w => calls_mono (Nat.zero_le n) w w (calls_refl w)) _
    · split
      · refine calls_zero_bind (calls_query _ _) (fun _ => ?_)
        exact calls_zero_bind (calls_dispatchToolCalls _ _ _ _) (fun _ => calls_agentLoop _ _ _ _)
      · refine Eff.respects_mono (calls_mono (Nat.zero_le n)) ?_
        refine calls_zero_bind (calls_query _ _) (fun _ => ?_)
        exact Eff.respects_pure calls_refl _

/-- An iteration of the loop whose response requests tools: the assistant
message is persisted, then the requested calls are dispatched, then the loop
goes on with one iteration less. -/
theorem agentLoop_tool_round (env : Env) (userId : Nat) (n : Nat) (messages : List Message)
    (w : World) (completion : Completion) (choice : Choice) (toolCall : ToolCall)
    (rest : List ToolCall)
    (hc : completionOf env w.modelCalls.length messages = some completion)
    (hfirst : completion.firstChoice = some choice)
    (htools : choice.message.tool_calls = some (toolCall :: rest))
    (hq : env.queryFault w.queries = none) :
    agentLoop env userId (n + 1) messages w =
      (dispatchToolCalls env userId (toolCall :: rest)
          (messages ++ [{ role := "assistant", content := contentOrEmpty choice.message,
                          tool_calls := some (toolCall :: rest) }]) >>=
        agentLoop env userId n)
        (persisted env { w with modelCalls := w.modelCalls ++ [messages] } userId "assistant"
          (contentOrEmpty choice.message) none) := by
  rw [agentLoop]
  simp only [Eff.bind_apply, fetchChatCompletion_ok env messages w completion hc, hfirst,
    htools]
  rw [query_insertChatMessage env { w with modelCalls := w.modelCalls ++ [messages] } userId
    _ _ _ hq]

/-- Claim C5, as the code has it: for a tool call whose `function.arguments` is a
non-empty string that is not valid JSON, `JSON.parse` throws and `callTool` throws
that error before any handler runs, leaving the world as it is; only an absent
or empty arguments string is treated as `{}`. -/
theorem callTool_malformed_arguments_throw (env : Env) (userId : Nat) (toolCall : ToolCall)
    (w : World) (text : String) (e : Exn)
    (harg : toolCall.function.arguments = some text) (hne : text ≠ "")
    (hbad : env.js.parse text = .error e) :
    callTool env userId toolCall w = .throw e w ∧
      ∀ name id, callTool env userId { id := id, function := { name := name, arguments := none } } w =
          callTool env userId
            { id := id, function := { name := name, arguments := some "{}" } } w ∧
        callTool env userId { id := id, function := { name := name, arguments := some "" } } w =
          callTool env userId
            { id := id, function := { name := name, arguments := some "{}" } } w := by
  constructor
  · exact callTool_parse_error env userId toolCall w e
      (by rw [argumentsText_of_nonempty toolCall text harg hne]; exact hbad)
  · intro name id
    exact ⟨rfl, rfl⟩

/-- Witness for claim C5: the arguments text `{"month"` in the reference
environment. -/
theorem callTool_malformed_arguments_throw_witness :
    callTool (Reference.env Reference.noChoiceService) 1
        { id := "call_1",
          function := { name := "get_spending_by_category", arguments := some "\x7b\"month\"" } }
        Reference.emptyWorld =
      .throw (.syntaxError "Unexpected token") Reference.emptyWorld :=
  (callTool_malformed_arguments_throw (Reference.env Reference.noChoiceService) 1 _
    Reference.emptyWorld "\x7b\"month\"" (.syntaxError "Unexpected token") rfl (by decide) rfl).1

/-- Counterexample to claim C5 as stated: with the arguments text `{` the call
of `get_budget_status` throws, with `{}` it returns. -/
theorem callTool_malformed_arguments_not_defaulted :
    (callTool (Reference.env Reference.noChoiceService) 1
        { id := "call_1", function := { name := "get_budget_status", arguments := some "\x7b" } }
        Reference.emptyWorld).returns = false ∧
      (callTool (Reference.env Reference.noChoiceService) 1
        { id := "call_1", function := { name := "get_budget_status", arguments := some "{}" } }
        Reference.emptyWorld).returns = true := by
  constructor
  · rfl
  · rfl

/-- Claim C6, as the code has it: for a tool name `X` that `callTool` has no
branch for and an arguments text that `JSON.parse` accepts (an absent or empty
text counts as `{}`), `callTool` returns `{ error: "Unknown tool X" }` without
throwing and without touching the world; `runAgent` then persists the
serialized result as a tool message tagged `X` and goes on with the remaining
calls; and when the call was the only one of its response and an iteration is
left, the next model call is made on the messages extended by the assistant
message and this tool result. -/
theorem unknown_tool_is_reported (env : Env) (userId : Nat) (toolCall : ToolCall)
    (args : JSValue) (hname : toolCall.function.name ∉ handledTools)
    (hargs : env.js.parse (argumentsText toolCall) = .ok args) :
    (∀ w, callTool env userId toolCall w = .ok (unknownTool toolCall.function.name) w) ∧
    (∀ rest messages w, env.queryFault w.queries = none →
      dispatchToolCalls env userId (toolCall :: rest) messages w =
        dispatchToolCalls env userId rest
          (messages ++ [toolMessage env toolCall (unknownTool toolCall.function.name)])
          (persisted env w userId "tool"
            (env.js.stringify (unknownTool toolCall.function.name))
            (some toolCall.function.name))) ∧
    (∀ n messages w completion choice,
      completionOf env w.modelCalls.length messages = some completion →
      completion.firstChoice = some choice →
      choice.message.tool_calls = some [toolCall] →
      env.queryFault w.queries = none → env.queryFault (w.queries + 1) = none →
      ∃ extra, (agentLoop env userId (n + 2) messages w).world.modelCalls =
        w.modelCalls ++ messages ::
          (messages ++
            [{ role := "assistant", content := contentOrEmpty choice.message,
               tool_calls := some [toolCall] },
             toolMessage env toolCall (unknownTool toolCall.function.name)]) :: extra) := by
  have hcall : ∀ w, callTool env userId toolCall w =
      .ok (unknownTool toolCall.function.name) w :=
    fun w => callTool_unknown env userId toolCall w args hargs hname
  refine ⟨hcall, ?_, ?_⟩
  · intro rest messages w hq
    exact dispatchToolCalls_cons_ok env userId toolCall rest messages w w _ (hcall w) hq
  · intro n messages w completion choice hc hfirst htools hq1 hq2
    rw [agentLoop_tool_round env userId (n + 1) messages w completion choice toolCall []
      hc hfirst htools hq1]
    simp only [Eff.bind_apply]
    rw [dispatchToolCalls_cons_ok env userId toolCall [] _ _ _ _ (hcall _) hq2]
    simp only [dispatchToolCalls, Eff.pure_apply]
    obtain ⟨extra, hx⟩ := agentLoop_first_call env userId n
      (messages ++ [{ role := "assistant", content := contentOrEmpty choice.message,
                      tool_calls := some [toolCall] }] ++
        [toolMessage env toolCall (unknownTool toolCall.function.name)])
      (persisted env
        (persisted env { w with modelCalls := w.modelCalls ++ [messages] } userId "assistant"
          (contentOrEmpty choice.message) none)
        userId "tool" (env.js.stringify (unknownTool toolCall.function.name))
        (some toolCall.function.name))
    refine ⟨extra, ?_⟩
    simp only [toolMessage, List.append_assoc, List.singleton_append] at hx ⊢
    rw [hx]
    simp [persisted]

/-- Witness for claim C6: the model asks for the tool `get_weather`. -/
theorem unknown_tool_is_reported_witness :
    (∀ w, callTool (Reference.env Reference.weatherService) 1 Reference.weatherCall w =
      .ok (unknownTool "get_weather") w) ∧
    ∃ extra, (agentLoop (Reference.env Reference.weatherService) 1 2 [] Reference.emptyWorld
        ).world.modelCalls =
      [] ++ [] ::
        ([] ++ [{ role := "assistant", content := "", tool_calls := some [Reference.weatherCall] },
          toolMessage (Reference.env Reference.weatherService) Reference.weatherCall
            (unknownTool "get_weather")]) :: extra :=
  ⟨(unknown_tool_is_reported (Reference.env Reference.weatherService) 1 Reference.weatherCall
      (.obj [("city", .str "Pune")]) (by decide) rfl).1,
   (unknown_tool_is_reported (Reference.env Reference.weatherService) 1 Reference.weatherCall
      (.obj [("city", .str "Pune")]) (by decide) rfl).2.2 0 [] Reference.emptyWorld _ _
      rfl rfl rfl rfl rfl⟩

/-- Counterexample to claim C6 as stated: for the unhandled name `get_weather`
and the arguments text `{"city":`, `callTool` throws instead of returning the
error value. -/
theorem unknown_tool_with_malformed_arguments_throws :
    callTool (Reference.env Reference.weatherService) 1
        { id := "call_7",
          function := { name := "get_weather", arguments := some "\x7b\"city\":" } }
        Reference.emptyWorld =
      .throw (.syntaxError "Unexpected token") Reference.emptyWorld := by
  rfl

/-- Claim C7, as the code has it: when the handler of a requested tool throws,
the exception is not caught: `callTool` throws it, the loop over the tool calls
and the agent loop pass it on, and `runAgent` fails with it. No tool message is
persisted for that call and no further model call is made. -/
theorem tool_exception_aborts_turn (env : Env) (userId : Nat) (message : String) (w0 : World)
    (n : Nat) (messages : List Message) (w : World) (completion : Completion)
    (choice : Choice) (first : ToolCall) (others : List ToolCall)
    (toolCall : ToolCall) (rest : List ToolCall) (messagesB : List Message) (wB w1 : World)
    (e : Exn)
    (hq1 : env.queryFault w0.queries = none) (hq2 : env.queryFault (w0.queries + 1) = none)
    (hreach : agentLoop env userId 4 (turnMessages env userId message w0)
        (turnStart env userId message w0) = agentLoop env userId (n + 1) messages w)
    (hc : completionOf env w.modelCalls.length messages = some completion)
    (hfirst : completion.firstChoice = some choice)
    (htools : choice.message.tool_calls = some (first :: others))
    (hq : env.queryFault w.queries = none)
    (hreachCall : dispatchToolCalls env userId (first :: others)
        (messages ++ [{ role := "assistant", content := contentOrEmpty choice.message,
                        tool_calls := some (first :: others) }])
        (persisted env { w with modelCalls := w.modelCalls ++ [messages] } userId "assistant"
          (contentOrEmpty choice.message) none) =
      dispatchToolCalls env userId (toolCall :: rest) messagesB wB)
    (hthrow : callTool env userId toolCall wB = .throw e w1) :
    runAgent env userId message w0 = .throw e w1 ∧
      w1.db.chat_messages = wB.db.chat_messages ∧ w1.modelCalls = wB.modelCalls := by
  constructor
  · rw [runAgent_eq_loop env userId message w0 hq1 hq2, hreach,
      agentLoop_tool_round env userId n messages w completion choice first others hc hfirst
        htools hq]
    simp only [Eff.bind_apply, hreachCall,
      dispatchToolCalls_cons_throw env userId toolCall rest messagesB wB w1 e hthrow]
    rfl
  · have hquiet := quiet_callTool env userId toolCall wB
    rw [hthrow] at hquiet
    exact ⟨hquiet.2, hquiet.1⟩

/-- Witness for claim C7: the model asks for a currency conversion without
`from_currency`; the handler throws a `TypeError` and so does `runAgent`. -/
theorem tool_exception_aborts_turn_witness :
    runAgent (Reference.env Reference.conversionService) 1 "I spent 20 dollars on coffee"
        Reference.emptyWorld =
      .throw (.typeError "Cannot read properties of undefined (reading \x27toUpperCase\x27)")
        (persisted (Reference.env Reference.conversionService)
          { turnStart (Reference.env Reference.conversionService) 1
              "I spent 20 dollars on coffee" Reference.emptyWorld with
            modelCalls := [turnMessages (Reference.env Reference.conversionService) 1
              "I spent 20 dollars on coffee" Reference.emptyWorld] }
          1 "assistant" "" none) :=
  (tool_exception_aborts_turn (Reference.env Reference.conversionService) 1
    "I spent 20 dollars on coffee" Reference.emptyWorld 3 _ _ _ _ Reference.conversionCall []
    Reference.conversionCall [] _ _ _
    (.typeError "Cannot read properties of undefined (reading \x27toUpperCase\x27)")
    rfl rfl rfl rfl rfl rfl rfl rfl rfl).1

/-- Counterexample to claim C7 as stated: the handler of the requested
conversion throws, `runAgent` does not return, and the messages persisted by the
turn are the user message and the assistant message only: no tool message with
an error payload. -/
theorem tool_exception_is_not_caught :
    (runAgent (Reference.env Reference.conversionService) 1 "I spent 20 dollars on coffee"
        Reference.emptyWorld).returns = false ∧
      ((runAgent (Reference.env Reference.conversionService) 1 "I spent 20 dollars on coffee"
        Reference.emptyWorld).world.db.chat_messages.rows.map (fun m => (m.role, m.content))) =
        [("user", "I spent 20 dollars on coffee"), ("assistant", "")] ∧
      (runAgent (Reference.env Reference.conversionService) 1 "I spent 20 dollars on coffee"
        Reference.emptyWorld).world.modelCalls.length = 1 := by
  refine ⟨?_, ?_, ?_⟩
  · rfl
  · rfl
  · rfl

/-! ## The currency conversion and the budget status -/

theorem get_of_obj_ne_undefined (v : JSValue) (key : String) (h : v.get key ≠ .undefined) :
    v.nullish = false := by
  cases v <;> simp [JSValue.get, JSValue.nullish] at h ⊢

theorem lookup_exchangeRates (code : String) (rate : ℚ) (h : (code, rate) ∈ exchangeRates) :
    exchangeRates.lookup code = some rate ∧ rate ≠ 0 := by
  simp only [exchangeRates, List.mem_cons, Prod.mk.injEq, List.mem_singleton,
    List.not_mem_nil, or_false] at h
  rcases h with ⟨h1, h2⟩ | ⟨h1, h2⟩ | ⟨h1, h2⟩ | ⟨h1, h2⟩ | ⟨h1, h2⟩ | ⟨h1, h2⟩
  all_goals
    subst h1 h2
    refine ⟨?_, by norm_num⟩
    simp [exchangeRates, List.lookup]

theorem convert_supported (js : Builtins) (args : JSValue) (amount : ℚ) (c : String) (rate : ℚ)
    (hamount : args.get "amount" = .num amount)
    (hcur : args.get "from_currency" = .str c)
    (hrate : (js.toUpperCase c, rate) ∈ exchangeRates) :
    convert_currency_to_inr js args = .ok (.obj
      [("original_amount", .num amount),
       ("original_currency", .str (js.toUpperCase c)),
       ("inr_amount", .num ((JS.round (amount * rate * 100) : ℚ) / 100)),
       ("exchange_rate", .num rate),
       ("message", .str (js.toStr (.num amount) ++ " " ++ js.toUpperCase c ++ " = ₹" ++
          js.toFixed ((JS.round (amount * rate * 100) : ℚ) / 100) 2 ++ " (Rate: 1 " ++
          js.toUpperCase c ++ " = ₹" ++ js.toFixed rate 2 ++ ")"))]) := by
  have hn : args.nullish = false :=
    get_of_obj_ne_undefined args "amount" (by rw [hamount]; exact fun h => JSValue.noConfusion h)
  obtain ⟨hl, h0⟩ := lookup_exchangeRates _ _ hrate
  unfold convert_currency_to_inr
  simp [requireObjectCoercible, hn, hamount, hcur, hl, h0, JS.toNumber, JSValue.ofNumber,
    JS.toFixed]

theorem callTool_convert (env : Env) (userId : Nat) (toolCall : ToolCall) (w : World)
    (args : JSValue) (hname : toolCall.function.name = "convert_currency_to_inr")
    (hargs : env.js.parse (argumentsText toolCall) = .ok args) :
    callTool env userId toolCall w = Eff.ofExcept (convert_currency_to_inr env.js args) w := by
  rw [callTool]
  simp only [Eff.bind_apply, hargs, Eff.ofExcept_ok, hname, if_true]

/-- Claim C9: for a conversion request whose currency code `c` is a string that,
upper-cased, is none of the six supported codes, `callTool` returns, without
throwing and without touching the world, an object whose only property is
`error`, with a text that names the upper-cased code and lists the six
supported codes; the object has no `inr_amount`. -/
theorem convert_currency_to_inr_unsupported (env : Env) (userId : Nat) (toolCall : ToolCall)
    (w : World) (args : JSValue) (c : String)
    (hname : toolCall.function.name = "convert_currency_to_inr")
    (hargs : env.js.parse (argumentsText toolCall) = .ok args)
    (hcur : args.get "from_currency" = .str c)
    (hnot : env.js.toUpperCase c ∉ ["USD", "EUR", "GBP", "JPY", "RUB", "INR"]) :
    callTool env userId toolCall w = .ok (.obj
      [("error", .str ("Currency " ++ env.js.toUpperCase c ++
        " not supported. Supported currencies: " ++ "USD, EUR, GBP, JPY, RUB, INR"))]) w ∧
    (JSValue.obj
      [("error", .str ("Currency " ++ env.js.toUpperCase c ++
        " not supported. Supported currencies: " ++ "USD, EUR, GBP, JPY, RUB, INR"))]).get
        "inr_amount" = .undefined := by
  have hn : args.nullish = false :=
    get_of_obj_ne_undefined args "from_currency"
      (by rw [hcur]; exact fun h => JSValue.noConfusion h)
  have hl : exchangeRates.lookup (env.js.toUpperCase c) = none := by
    simp only [List.mem_cons, List.mem_singleton, List.not_mem_nil, or_false, not_or] at hnot
    obtain ⟨h1, h2, h3, h4, h5, h6⟩ := hnot
    have e1 := beq_false_of_ne h1
    have e2 := beq_false_of_ne h2
    have e3 := beq_false_of_ne h3
    have e4 := beq_false_of_ne h4
    have e5 := beq_false_of_ne h5
    have e6 := beq_false_of_ne h6
    simp only [exchangeRates, List.lookup, e1, e2, e3, e4, e5, e6]
  have hkeys : ", ".intercalate (exchangeRates.map Prod.fst) = "USD, EUR, GBP, JPY, RUB, INR" := by
    decide
  constructor
  · rw [callTool_convert env userId toolCall w args hname hargs]
    unfold convert_currency_to_inr
    simp only [requireObjectCoercible, hn, hcur, hl, hkeys]
    rfl
  · rfl

/-- Witness for claim C9: the code `xyz` in the reference environment. -/
theorem convert_currency_to_inr_unsupported_witness :
    callTool (Reference.env Reference.noChoiceService) 1 Reference.unsupportedCall
        Reference.emptyWorld = .ok (.obj
      [("error", .str ("Currency " ++ "XYZ" ++
        " not supported. Supported currencies: " ++ "USD, EUR, GBP, JPY, RUB, INR"))])
      Reference.emptyWorld :=
  (convert_currency_to_inr_unsupported (Reference.env Reference.noChoiceService) 1
    Reference.unsupportedCall Reference.emptyWorld
    (.obj [("amount", .num (Reference.decimal false 20 0 0 0)), ("from_currency", .str "xyz")])
    "xyz" rfl rfl rfl (by decide)).1

theorem budgetStatus_red (u : ℚ) : budgetStatus u = "red" ↔ u ≥ 0.9 := by
  unfold budgetStatus
  split
  · simp [*]
  · split <;> simp [*]

theorem budgetStatus_yellow (u : ℚ) : budgetStatus u = "yellow" ↔ 0.7 ≤ u ∧ u < 0.9 := by
  unfold budgetStatus
  split
  · rename_i h
    simp only [ge_iff_le] at h
    simp
    intro _
    exact h
  · rename_i h
    simp only [ge_iff_le, not_le] at h
    split
    · rename_i h2
      simp only [ge_iff_le] at h2
      simp [h, h2]
    · rename_i h2
      simp only [ge_iff_le, not_le] at h2
      simp
      intro h3
      linarith

theorem budgetStatus_green (u : ℚ) : budgetStatus u = "green" ↔ u < 0.7 := by
  unfold budgetStatus
  split
  · rename_i h
    simp only [ge_iff_le] at h
    simp
    linarith
  · split
    · rename_i h2
      simp only [ge_iff_le] at h2
      simp
      exact h2
    · rename_i h2
      simp only [ge_iff_le, not_le] at h2
      simp [h2]

/-- Claim C10: whenever `get_budget_status` returns, its result is the object
`{ month, items }` whose items come from a list of budget items each of which has
status "red" exactly when its utilization is at least 0.90, "yellow" exactly when
its utilization is at least 0.70 and below 0.90, and "green" exactly when its
utilization is below 0.70. So utilization 0.95 and 0.90 are red, 0.75 and 0.70
are yellow, and 0.50 is green. -/
theorem get_budget_status_thresholds (env : Env) (userId : Nat) (w w1 : World)
    (result : JSValue) (h : get_budget_status env userId w = .ok result w1) :
    (∃ items : List BudgetItem,
      result = .obj [("month", .str env.month),
        ("items", .arr (items.map (BudgetItem.toJS env.pg)))] ∧
      ∀ item ∈ items,
        (item.status = "red" ↔ item.utilization ≥ 0.9) ∧
        (item.status = "yellow" ↔ 0.7 ≤ item.utilization ∧ item.utilization < 0.9) ∧
        (item.status = "green" ↔ item.utilization < 0.7)) ∧
    budgetStatus 0.95 = "red" ∧ budgetStatus 0.9 = "red" ∧ budgetStatus 0.75 = "yellow" ∧
    budgetStatus 0.7 = "yellow" ∧ budgetStatus 0.5 = "green" := by
  refine ⟨?_, ?_, ?_, ?_, ?_, ?_⟩
  · rw [get_budget_status] at h
    obtain ⟨budgetsRes, wa, h1, h⟩ := Eff.bind_eq_ok h
    obtain ⟨spentRes, wb, h2, h⟩ := Eff.bind_eq_ok h
    cases h
    refine ⟨budgetItems budgetsRes spentRes, rfl, ?_⟩
    intro item hitem
    simp only [budgetItems, List.mem_map] at hitem
    obtain ⟨b, _, hb⟩ := hitem
    subst hb
    exact ⟨budgetStatus_red _, budgetStatus_yellow _, budgetStatus_green _⟩
  · rw [budgetStatus_red]
    norm_num
  · rw [budgetStatus_red]
  · rw [budgetStatus_yellow]
    norm_num
  · rw [budgetStatus_yellow]
    norm_num
  · rw [budgetStatus_green]
    norm_num

/-- Witness for claim C10: the budgets of the sample database, where 90 of 100
and 35 of 50 are spent. -/
theorem get_budget_status_thresholds_witness :
    ∃ result w1,
      get_budget_status (Reference.env Reference.noChoiceService) 1
        { db := Reference.budgetDB, queries := 0, modelCalls := [] } = .ok result w1 ∧
      ∃ items : List BudgetItem,
        result = .obj [("month", .str "2025-01"),
          ("items", .arr (items.map (BudgetItem.toJS Reference.postgres)))] ∧
        ∀ item ∈ items,
          (item.status = "red" ↔ item.utilization ≥ 0.9) ∧
          (item.status = "yellow" ↔ 0.7 ≤ item.utilization ∧ item.utilization < 0.9) ∧
          (item.status = "green" ↔ item.utilization < 0.7) :=
  ⟨_, _, rfl,
    (get_budget_status_thresholds (Reference.env Reference.noChoiceService) 1
      { db := Reference.budgetDB, queries := 0, modelCalls := [] } _ _ rfl).1⟩

/-! ## The start of a turn and its context -/

theorem chatGrows_fetchChatCompletion (env : Env) (messages : List Message) :
    Eff.Respects ChatGrows (fetchChatCompletion env messages) := by
  intro w
  exact ⟨[], by rw [fetchChatCompletion_db]; simp⟩

theorem chatGrows_agentLoop (env : Env) (userId : Nat) (remaining : Nat) :
    ∀ messages, Eff.Respects ChatGrows (agentLoop env userId remaining messages) := by
  induction remaining with
  | zero =>
    intro messages
    exact Eff.respects_pure chatGrows_refl _
  | succ n ih =>
    intro messages
    unfold agentLoop
    refine Eff.respects_bind chatGrows_trans (chatGrows_fetchChatCompletion _ _) (fun _ => ?_)
    split
    · exact Eff.respects_pure chatGrows_refl _
    · dsimp only
      split
      · refine Eff.respects_bind chatGrows_trans (chatGrows_insertChatMessage _ _ _ _ _)
          (fun _ => ?_)
        exact Eff.respects_bind chatGrows_trans (chatGrows_dispatchToolCalls _ _ _ _)
          (fun _ => ih _)
      · refine Eff.respects_bind chatGrows_trans (chatGrows_insertChatMessage _ _ _ _ _)
          (fun _ => ?_)
        exact Eff.respects_pure chatGrows_refl _

/-- An iteration of the loop whose response has no choice: the loop is left
with no final message and nothing is persisted. -/
theorem agentLoop_no_choice (env : Env) (userId : Nat) (n : Nat) (messages : List Message)
    (w : World) (completion : Completion)
    (hc : completionOf env w.modelCalls.length messages = some completion)
    (hfirst : completion.firstChoice = none) :
    agentLoop env userId (n + 1) messages w =
      .ok (none, messages) { w with modelCalls := w.modelCalls ++ [messages] } := by
  rw [agentLoop]
  simp only [Eff.bind_apply, fetchChatCompletion_ok env messages w completion hc, hfirst]
  rfl

/-- Claim C17: when the loop of a turn reaches an iteration whose model
response has no choice (`choices` missing or empty), `runAgent` makes no model
call after this one, persists nothing for the response, does not throw, and
returns `{ message: F }` with `F` the fixed fallback text. -/
theorem runAgent_no_choice_gives_fallback (env : Env) (userId : Nat) (message : String)
    (w0 : World) (n : Nat) (messages : List Message) (w : World) (completion : Completion)
    (hq1 : env.queryFault w0.queries = none) (hq2 : env.queryFault (w0.queries + 1) = none)
    (hreach : agentLoop env userId 4 (turnMessages env userId message w0)
        (turnStart env userId message w0) = agentLoop env userId (n + 1) messages w)
    (hc : completionOf env w.modelCalls.length messages = some completion)
    (hnone : completion.choices = none ∨ completion.choices = some []) :
    runAgent env userId message w0 =
      .ok { message := fallbackMessage }
        { db := w.db, queries := w.queries, modelCalls := w.modelCalls ++ [messages] } := by
  have hfirst : completion.firstChoice = none := by
    rcases hnone with h | h <;> simp [Completion.firstChoice, h]
  rw [runAgent_eq_loop env userId message w0 hq1 hq2, hreach,
    agentLoop_no_choice env userId n messages w completion hc hfirst]
  rfl

/-- Witness for claim C17: the model answers the first request with an empty
list of choices. -/
theorem runAgent_no_choice_gives_fallback_witness :
    runAgent (Reference.env Reference.noChoiceService) 1 "Hello" Reference.emptyWorld =
      .ok { message := fallbackMessage }
        { db := (turnStart (Reference.env Reference.noChoiceService) 1 "Hello"
            Reference.emptyWorld).db,
          queries := 2,
          modelCalls := [] ++ [turnMessages (Reference.env Reference.noChoiceService) 1 "Hello"
            Reference.emptyWorld] } :=
  runAgent_no_choice_gives_fallback (Reference.env Reference.noChoiceService) 1 "Hello"
    Reference.emptyWorld 3 _ _ { choices := some [] } rfl rfl rfl rfl (Or.inr rfl)

theorem fetchChatCompletion_fail (env : Env) (messages : List Message) (w : World)
    (h : completionOf env w.modelCalls.length messages = none) :
    ∃ e, fetchChatCompletion env messages w =
      .throw e { w with modelCalls := w.modelCalls ++ [messages] } := by
  unfold completionOf at h
  unfold fetchChatCompletion
  cases hf : env.fetch w.modelCalls.length messages with
  | error e => exact ⟨e, by simp⟩
  | ok resp =>
    simp only [hf] at h ⊢
    cases hok : resp.ok with
    | false =>
      exact ⟨.error ("OpenRouter error: " ++ toString resp.status ++ " " ++ resp.text), by simp⟩
    | true =>
      simp only [hok, if_true] at h ⊢
      cases hj : resp.json with
      | error e => exact ⟨e, by simp⟩
      | ok json => simp [hj, Except.toOption] at h

theorem query_fault {α : Type} (env : Env) (stmt : Nat → DB → Except Exn (α × DB))
    (w : World) (e : Exn) (h : env.queryFault w.queries = some e) :
    query env stmt w = .throw e { w with queries := w.queries + 1 } := by
  unfold query
  simp [h]

theorem replyOf_world (r : Result (Option String × List Message)) :
    (replyOf r).world = r.world := by
  cases r <;> rfl

/-- Claim C14: in every run of `runAgent` in which a model call is made, the
user message has been persisted before as a user row, and the row is still in
the log when the run ends, whether it returns or throws. In particular, when
the first model call fails, `runAgent` throws and the log is the log before the
turn followed by the user row. -/
theorem user_message_persisted_before_model_call (env : Env) (userId : Nat)
    (message : String) (w : World) :
    ((runAgent env userId message w).world.modelCalls ≠ w.modelCalls →
      ∃ rest, (runAgent env userId message w).world.db.chat_messages.rows =
        w.db.chat_messages.rows ++ userRow env userId message w :: rest) ∧
    (env.queryFault w.queries = none → env.queryFault (w.queries + 1) = none →
      completionOf env w.modelCalls.length (turnMessages env userId message w) = none →
      ∃ e w1, runAgent env userId message w = .throw e w1 ∧
        w1.db.chat_messages.rows = w.db.chat_messages.rows ++ [userRow env userId message w] ∧
        w1.modelCalls = w.modelCalls ++ [turnMessages env userId message w]) := by
  constructor
  · intro hcalls
    cases hq1 : env.queryFault w.queries with
    | some e =>
      rw [runAgent] at hcalls
      simp only [Eff.bind_apply, query_fault env _ w e hq1] at hcalls
      exact absurd rfl hcalls
    | none =>
      cases hq2 : env.queryFault (w.queries + 1) with
      | some e =>
        rw [runAgent] at hcalls
        simp only [Eff.bind_apply, query_read env w _ hq1,
          query_fault env _ { w with queries := w.queries + 1 } e hq2] at hcalls
        exact absurd rfl hcalls
      | none =>
        rw [runAgent_eq_loop env userId message w hq1 hq2, replyOf_world]
        obtain ⟨extra, hextra⟩ := chatGrows_agentLoop env userId 4
          (turnMessages env userId message w) (turnStart env userId message w)
        refine ⟨extra, ?_⟩
        rw [hextra]
        simp [turnStart, persisted, userRow]
  · intro hq1 hq2 hfail
    obtain ⟨e, hthrow⟩ := fetchChatCompletion_fail env (turnMessages env userId message w)
      (turnStart env userId message w) hfail
    refine ⟨e, { turnStart env userId message w with
      modelCalls := (turnStart env userId message w).modelCalls ++
        [turnMessages env userId message w] }, ?_, ?_, ?_⟩
    · rw [runAgent_eq_loop env userId message w hq1 hq2, agentLoop]
      simp only [Eff.bind_apply, hthrow]
      rfl
    · simp [turnStart, persisted, userRow]
    · simp [turnStart, persisted]

/-- Witness for claim C14: the model service is down; the turn fails and the
log holds the user message. -/
theorem user_message_persisted_before_model_call_witness :
    ∃ e w1, runAgent (Reference.env Reference.downService) 1 "I spent 500 on pizza"
        Reference.emptyWorld = .throw e w1 ∧
      w1.db.chat_messages.rows = Reference.emptyWorld.db.chat_messages.rows ++
        [userRow (Reference.env Reference.downService) 1 "I spent 500 on pizza"
          Reference.emptyWorld] ∧
      w1.modelCalls = Reference.emptyWorld.modelCalls ++
        [turnMessages (Reference.env Reference.downService) 1 "I spent 500 on pizza"
          Reference.emptyWorld] :=
  (user_message_persisted_before_model_call (Reference.env Reference.downService) 1
    "I spent 500 on pizza" Reference.emptyWorld).2 rfl rfl rfl

theorem historyMessages_eq (rows : List ChatMessage) :
    historyMessages rows =
      (rows.filter (fun m => decide (m.role ≠ "tool"))).map
        (fun m => { role := m.role, content := m.content }) := by
  induction rows with
  | nil => rfl
  | cons m rest ih =>
    unfold historyMessages at ih ⊢
    by_cases h : m.role = "tool"
    · simp [List.filterMap_cons, h, ih]
    · simp [List.filterMap_cons, h, ih]

/-- Claim C15: the context that `runAgent` rebuilds from the rows of its history
query is these rows without the tool rows, in the same order, each reduced to
its `role` and `content`; no message of it has the role `tool`. When the two
queries before the loop succeed, the first model call of the turn is sent the
system message, this context, and the new user message. -/
theorem rebuilt_context_has_no_tool_messages (env : Env) (userId : Nat) (message : String)
    (w : World) :
    (∀ rows : List ChatMessage,
      historyMessages rows =
        (rows.filter (fun m => decide (m.role ≠ "tool"))).map
          (fun m => { role := m.role, content := m.content, tool_calls := none, name := none,
                      tool_call_id := none }) ∧
      ∀ m ∈ historyMessages rows, m.role ≠ "tool") ∧
    (env.queryFault w.queries = none → env.queryFault (w.queries + 1) = none →
      ∃ extra, (runAgent env userId message w).world.modelCalls =
        w.modelCalls ++
          ({ role := "system", content := systemPrompt env } ::
            historyMessages (Sql.selectHistory userId w.db) ++
              [{ role := "user", content := message }]) :: extra) := by
  constructor
  · intro rows
    refine ⟨historyMessages_eq rows, ?_⟩
    intro m hm
    rw [historyMessages_eq, List.mem_map] at hm
    obtain ⟨r, hr, rfl⟩ := hm
    simpa using (List.mem_filter.mp hr).2
  · intro hq1 hq2
    rw [runAgent_eq_loop env userId message w hq1 hq2, replyOf_world]
    obtain ⟨extra, hextra⟩ := agentLoop_first_call env userId 3
      (turnMessages env userId message w) (turnStart env userId message w)
    exact ⟨extra, by rw [hextra]; rfl⟩

/-- Witness for claim C15: a stored conversation with a tool row in it. -/
theorem rebuilt_context_has_no_tool_messages_witness :
    historyMessages (Sql.selectHistory 1 Reference.historyDB) =
      [{ role := "user", content := "How much did I spend?" },
       { role := "assistant", content := "" },
       { role := "assistant", content := "Nothing so far." }] ∧
    ∃ extra, (runAgent (Reference.env Reference.noChoiceService) 1 "And today?"
        { db := Reference.historyDB, queries := 0, modelCalls := [] }).world.modelCalls =
      [] ++
        ({ role := "system", content := systemPrompt (Reference.env Reference.noChoiceService) } ::
          historyMessages (Sql.selectHistory 1 Reference.historyDB) ++
            [{ role := "user", content := "And today?" }]) :: extra :=
  ⟨by decide,
   (rebuilt_context_has_no_tool_messages (Reference.env Reference.noChoiceService) 1
      "And today?" { db := Reference.historyDB, queries := 0, modelCalls := [] }).2 rfl rfl⟩

/-- Claim C16, the code at a log of 31 messages: the context rebuilt by
`runAgent` holds the 30 oldest messages `m1` .. `m30`; the newest message `m31`
is not in it. -/
theorem history_keeps_oldest_thirty :
    (historyMessages (Sql.selectHistory 1 Reference.longHistoryDB)).map (fun m => m.content) =
      (List.range 30).map (fun i => "m" ++ toString (i + 1)) ∧
    "m31" ∉ (historyMessages (Sql.selectHistory 1 Reference.longHistoryDB)).map
      (fun m => m.content) ∧
    "m31" ∈ Reference.longHistoryDB.chat_messages.rows.map (fun m => m.content) := by
  refine ⟨?_, ?_, ?_⟩
  · decide
  · decide
  · decide

/-! ## The budget items and the anomalies -/

theorem numMap_get_cons (e : Nat × ℚ) (rest : NumMap) (k1 : Nat) :
    NumMap.get (e :: rest) k1 = if e.1 = k1 then some e.2 else NumMap.get rest k1 := by
  unfold NumMap.get
  by_cases h : e.1 = k1
  · simp [List.find?_cons, h]
  · simp [List.find?_cons, h]

theorem numMap_get_map_replace (m : NumMap) (k k1 : Nat) (v : ℚ) :
    NumMap.get (m.map (fun e => if e.1 == k then (k, v) else e)) k1 =
      if k1 = k then (if m.any (fun e => e.1 == k) then some v else none) else NumMap.get m k1 := by
  induction m with
  | nil => simp [NumMap.get]
  | cons e rest ih =>
    rw [List.map_cons, numMap_get_cons, ih, numMap_get_cons, List.any_cons]
    by_cases hk : k1 = k
    · subst hk
      by_cases he : e.1 = k1
      · simp [he]
      · have hb : (e.1 == k1) = false := beq_false_of_ne he
        simp [he]
        rw [hb, Bool.false_or]
    · have hne : ¬ k = k1 := fun h => hk h.symm
      by_cases he : e.1 = k
      · have hne2 : ¬ e.1 = k1 := fun h => hk (h.symm.trans he)
        simp [he, hk, hne, hne2]
      · simp [he, hk]

theorem numMap_get_set (m : NumMap) (k k1 : Nat) (v : ℚ) :
    (m.set k v).get k1 = if k1 = k then some v else m.get k1 := by
  unfold NumMap.set
  by_cases hany : m.any (fun e => e.1 == k) = true
  · rw [if_pos hany, numMap_get_map_replace]
    simp [hany]
  · rw [if_neg hany]
    unfold NumMap.get
    by_cases hk : k1 = k
    · subst hk
      have hnone : List.find? (fun e => e.1 == k1) m = none := by
        rw [List.find?_eq_none]
        intro e he
        simp only [List.any_eq_true, not_exists, not_and] at hany
        exact hany e he
      simp [List.find?_append, hnone]
    · have hne : ¬ k = k1 := fun h => hk h.symm
      simp [List.find?_append, hk, hne]

theorem numMap_get_foldl (rows : List Sql.AggregateRow) (key : Nat) :
    ∀ m : NumMap, (rows.foldl (fun m row => m.set row.category_id row.value) m).get key =
      match recorded rows key with
      | some v => some v
      | none => m.get key := by
  induction rows with
  | nil =>
    intro m
    simp [recorded]
  | cons r rest ih =>
    intro m
    rw [List.foldl_cons, ih]
    unfold recorded
    rw [List.reverse_cons, List.find?_append]
    cases hrest : List.find? (fun r => r.category_id == key) rest.reverse with
    | some x => simp
    | none =>
      simp only [Option.map_none', Option.none_or, numMap_get_set]
      by_cases hk : key = r.category_id
      · have : r.category_id = key := hk.symm
        simp [List.find?_cons, this]
      · have : ¬ r.category_id = key := fun h => hk h.symm
        simp [List.find?_cons, this, hk]

theorem numMap_get_ofRows (rows : List Sql.AggregateRow) (key : Nat) :
    (NumMap.ofRows rows).get key = recorded rows key := by
  unfold NumMap.ofRows
  rw [numMap_get_foldl]
  cases recorded rows key <;> simp [NumMap.get]

theorem numMap_getOrZero_ofRows (rows : List Sql.AggregateRow) (key : Nat) :
    (NumMap.ofRows rows).getOrZero key = (recorded rows key).getD 0 := by
  unfold NumMap.getOrZero
  rw [numMap_get_ofRows]
  cases recorded rows key with
  | none => rfl
  | some v =>
    by_cases hv : v = 0
    · simp [hv]
    · simp [hv]

theorem find_map_keyed (f : Nat → ℚ) (key : Nat) (l : List Nat) :
    (List.find? (fun r : Sql.AggregateRow => r.category_id == key)
      (l.map (fun k => { category_id := k, value := f k }))).map (fun r => r.value) =
      if key ∈ l then some (f key) else none := by
  induction l with
  | nil => simp
  | cons k rest ih =>
    rw [List.map_cons, List.find?_cons]
    by_cases hk : k = key
    · subst hk
      simp
    · have hb : (k == key) = false := beq_false_of_ne hk
      have hne : ¬ key = k := fun h => hk h.symm
      simp only [hb, ih, List.mem_cons, hne, false_or]

theorem recorded_groupByCategoryId (agg : List ℚ → ℚ) (ts : List Transaction) (key : Nat) :
    recorded (Sql.groupByCategoryId agg ts) key =
      if ∃ t ∈ ts, bucket t = key then some (agg (bucketAmounts ts key)) else none := by
  unfold recorded Sql.groupByCategoryId
  rw [← List.map_reverse]
  have h := find_map_keyed
    (fun k => agg ((ts.filter (fun t => decide (t.category_id.getD 0 = k))).map
      (fun t => t.amount))) key ((ts.map (fun t => t.category_id.getD 0)).dedup.reverse)
  rw [h]
  simp only [List.mem_reverse, List.mem_dedup, List.mem_map, bucket, bucketAmounts]

theorem query_read_ok {α : Type} (env : Env) (f : DB → α) (w w1 : World) (a : α)
    (h : query env (fun _ db => (.ok (f db, db) : Except Exn (α × DB))) w = .ok a w1) :
    a = f w.db ∧ w1 = { w with queries := w.queries + 1 } := by
  unfold query at h
  cases hq : env.queryFault w.queries with
  | some e => simp [hq] at h
  | none =>
    simp only [hq] at h
    cases h
    exact ⟨rfl, rfl⟩

/-- The result of `get_budget_status`, whenever it returns: the items computed
from the rows of its two queries on the database of the call. -/
theorem get_budget_status_result (env : Env) (userId : Nat) (w w1 : World) (result : JSValue)
    (h : get_budget_status env userId w = .ok result w1) :
    result = .obj [("month", .str env.month),
      ("items", .arr ((budgetItems (Sql.selectBudgets userId env.month w.db)
        (Sql.spentByCategoryId userId env.month w.db)).map (BudgetItem.toJS env.pg)))] ∧
    w1.db = w.db := by
  rw [get_budget_status] at h
  obtain ⟨budgetsRes, wa, h1, h⟩ := Eff.bind_eq_ok h
  obtain ⟨spentRes, wb, h2, h⟩ := Eff.bind_eq_ok h
  obtain ⟨hb, hwa⟩ := query_read_ok env _ w wa budgetsRes h1
  obtain ⟨hs, hwb⟩ := query_read_ok env _ wa wb spentRes h2
  cases h
  subst hb hs hwa hwb
  exact ⟨rfl, rfl⟩

/-- When its two queries do not fail, `get_budget_status` returns. -/
theorem get_budget_status_returns (env : Env) (userId : Nat) (w : World)
    (hq1 : env.queryFault w.queries = none) (hq2 : env.queryFault (w.queries + 1) = none) :
    get_budget_status env userId w =
      .ok (.obj [("month", .str env.month),
        ("items", .arr ((budgetItems (Sql.selectBudgets userId env.month w.db)
          (Sql.spentByCategoryId userId env.month w.db)).map (BudgetItem.toJS env.pg)))])
        { w with queries := w.queries + 2 } := by
  rw [get_budget_status]
  simp only [Eff.bind_apply, query_read env w _ hq1,
    query_read env { w with queries := w.queries + 1 } _ hq2]
  rfl

/-- Claim C11: each item that `get_budget_status` computes for a budget row `b`
from a list of spent rows has `spent` equal to the value recorded for the
category of `b` (a null category is keyed 0; the value of the last row of the
key, as `Map.set` overwrites), or 0 when no row has that key; `utilization` is
`spent / monthly_limit` when `monthly_limit > 0`, where the divisor is not zero,
and 0 when `monthly_limit ≤ 0`, in which case the status is "green". The tool
returns when its two queries do not fail, and whenever it returns its items are
these, computed from the budgets of the month and the per-category sums of the
expenses of the month. -/
theorem budget_item_spent_and_utilization (env : Env) (userId : Nat) (w : World) :
    (∀ (spentRows : List Sql.AggregateRow) (b : Sql.BudgetRow),
      (budgetItem (NumMap.ofRows spentRows) b).row = b ∧
      (budgetItem (NumMap.ofRows spentRows) b).spent =
        (recorded spentRows (b.budget.category_id.getD 0)).getD 0 ∧
      ((∀ r ∈ spentRows, r.category_id ≠ b.budget.category_id.getD 0) →
        (budgetItem (NumMap.ofRows spentRows) b).spent = 0) ∧
      (b.budget.monthly_limit > 0 →
        b.budget.monthly_limit ≠ 0 ∧
        (budgetItem (NumMap.ofRows spentRows) b).utilization =
          (budgetItem (NumMap.ofRows spentRows) b).spent / b.budget.monthly_limit) ∧
      (b.budget.monthly_limit ≤ 0 →
        (budgetItem (NumMap.ofRows spentRows) b).utilization = 0 ∧
        (budgetItem (NumMap.ofRows spentRows) b).status = "green")) ∧
    (∀ key, recorded (Sql.spentByCategoryId userId env.month w.db) key =
      if ∃ t ∈ expensesOf userId w.db, Sql.yearMonth t.date = env.month ∧ bucket t = key then
        some (bucketAmounts ((expensesOf userId w.db).filter
          (fun t => decide (Sql.yearMonth t.date = env.month))) key).sum
      else none) ∧
    (env.queryFault w.queries = none → env.queryFault (w.queries + 1) = none →
      ∃ w1, get_budget_status env userId w =
        .ok (.obj [("month", .str env.month),
          ("items", .arr ((budgetItems (Sql.selectBudgets userId env.month w.db)
            (Sql.spentByCategoryId userId env.month w.db)).map (BudgetItem.toJS env.pg)))])
          w1) ∧
    (∀ w1 result, get_budget_status env userId w = .ok result w1 →
      result = .obj [("month", .str env.month),
        ("items", .arr ((budgetItems (Sql.selectBudgets userId env.month w.db)
          (Sql.spentByCategoryId userId env.month w.db)).map (BudgetItem.toJS env.pg)))]) := by
  refine ⟨?_, ?_, ?_, ?_⟩
  · intro spentRows b
    have hspent : (budgetItem (NumMap.ofRows spentRows) b).spent =
        (recorded spentRows (b.budget.category_id.getD 0)).getD 0 :=
      numMap_getOrZero_ofRows spentRows _
    refine ⟨rfl, hspent, ?_, ?_, ?_⟩
    · intro hno
      rw [hspent]
      have : recorded spentRows (b.budget.category_id.getD 0) = none := by
        unfold recorded
        rw [Option.map_eq_none', List.find?_eq_none]
        intro r hr
        have := hno r (List.mem_reverse.mp hr)
        simpa using this
      rw [this]
      rfl
    · intro hpos
      refine ⟨ne_of_gt hpos, ?_⟩
      simp [budgetItem, hpos]
    · intro hle
      have hnot : ¬ b.budget.monthly_limit > 0 := not_lt.mpr hle
      have hu : (budgetItem (NumMap.ofRows spentRows) b).utilization = 0 := by
        simp [budgetItem, hnot]
      refine ⟨hu, ?_⟩
      have hs : (budgetItem (NumMap.ofRows spentRows) b).status =
          budgetStatus (budgetItem (NumMap.ofRows spentRows) b).utilization := rfl
      rw [hs, hu, budgetStatus_green]
      norm_num
  · intro key
    unfold Sql.spentByCategoryId
    rw [recorded_groupByCategoryId]
    have hf : w.db.transactions.rows.filter (fun t =>
        decide (t.user_id = userId) && decide (t.type = "expense") &&
          decide (Sql.yearMonth t.date = env.month)) =
        (expensesOf userId w.db).filter (fun t => decide (Sql.yearMonth t.date = env.month)) := by
      unfold expensesOf
      rw [List.filter_filter]
      congr 1
      funext t
      simp only [Bool.and_comm]
    rw [hf]
    have hiff : (∃ t ∈ (expensesOf userId w.db).filter
          (fun t => decide (Sql.yearMonth t.date = env.month)), bucket t = key) ↔
        ∃ t ∈ expensesOf userId w.db, Sql.yearMonth t.date = env.month ∧ bucket t = key := by
      constructor
      · rintro ⟨t, ht, hb⟩
        rw [List.mem_filter] at ht
        exact ⟨t, ht.1, by simpa using ht.2, hb⟩
      · rintro ⟨t, ht, hm, hb⟩
        exact ⟨t, List.mem_filter.mpr ⟨ht, by simpa using hm⟩, hb⟩
    simp only [hiff]
  · intro hq1 hq2
    exact ⟨_, get_budget_status_returns env userId w hq1 hq2⟩
  · intro w1 result h
    exact (get_budget_status_result env userId w w1 result h).1

/-- Witness for claim C11: the budgets of the sample database. -/
theorem budget_item_spent_and_utilization_witness :
    ∃ w1 result,
      get_budget_status (Reference.env Reference.noChoiceService) 1
        { db := Reference.budgetDB, queries := 0, modelCalls := [] } = .ok result w1 ∧
      result = .obj [("month", .str "2025-01"),
        ("items", .arr ((budgetItems (Sql.selectBudgets 1 "2025-01" Reference.budgetDB)
          (Sql.spentByCategoryId 1 "2025-01" Reference.budgetDB)).map
            (BudgetItem.toJS Reference.postgres)))] :=
  ⟨_, _, rfl,
    (budget_item_spent_and_utilization (Reference.env Reference.noChoiceService) 1
      { db := Reference.budgetDB, queries := 0, modelCalls := [] }).2.2.2 _ _ rfl⟩

/-- The average that `detect_anomalies` uses for a bucket: the mean amount of
the expense transactions of the user in that bucket (0 for an empty bucket). -/
theorem avg_getOrZero (userId : Nat) (db : DB) (key : Nat) :
    (NumMap.ofRows (Sql.avgByCategoryId userId db)).getOrZero key =
      if ∃ t ∈ expensesOf userId db, bucket t = key then
        mean (bucketAmounts (expensesOf userId db) key)
      else 0 := by
  rw [numMap_getOrZero_ofRows]
  unfold Sql.avgByCategoryId
  rw [recorded_groupByCategoryId]
  by_cases h : ∃ t ∈ expensesOf userId db, bucket t = key
  · have h1 : ∃ t ∈ List.filter (fun t => decide (t.user_id = userId) && decide (t.type = "expense"))
        db.transactions.rows, bucket t = key := h
    rw [if_pos h, if_pos h1]
    rfl
  · have h1 : ¬ ∃ t ∈ List.filter (fun t => decide (t.user_id = userId) && decide (t.type = "expense"))
        db.transactions.rows, bucket t = key := h
    rw [if_neg h, if_neg h1]
    rfl

theorem selectExpenses_mem (userId : Nat) (db : DB) (row : Sql.TransactionRow)
    (h : row ∈ Sql.selectExpenses userId db) : row.transaction ∈ expensesOf userId db := by
  unfold Sql.selectExpenses at h
  rw [List.mem_flatMap] at h
  obtain ⟨t, ht, hrow⟩ := h
  rw [List.mem_map] at hrow
  obtain ⟨n, _, rfl⟩ := hrow
  exact ht

theorem anomalies_mem (avgRows : List Sql.AggregateRow) (rows : List Sql.TransactionRow)
    (a : Anomaly) :
    a ∈ anomalies avgRows rows ↔
      a.transaction ∈ rows ∧
      a.category_average = (NumMap.ofRows avgRows).getOrZero (bucket a.transaction.transaction) ∧
      a.category_average ≠ 0 ∧ a.transaction.transaction.amount ≥ 2 * a.category_average := by
  unfold anomalies
  rw [List.mem_filterMap]
  constructor
  · rintro ⟨t, ht, h⟩
    dsimp only at h
    split at h
    · cases h
    · split at h
      · cases h
        rename_i h0 hge
        exact ⟨ht, rfl, h0, hge⟩
      · cases h
  · rintro ⟨ht, havg, h0, hge⟩
    refine ⟨a.transaction, ht, ?_⟩
    dsimp only
    have havg1 : (NumMap.ofRows avgRows).getOrZero (a.transaction.transaction.category_id.getD 0) =
        a.category_average := havg.symm
    rw [havg1, if_neg h0, if_pos hge]

/-- The result of `detect_anomalies`, whenever it returns: the items computed
from the rows of its two queries on the database of the call. -/
theorem detect_anomalies_result (env : Env) (userId : Nat) (w w1 : World) (result : JSValue)
    (h : detect_anomalies env userId w = .ok result w1) :
    result = .obj [("items", .arr ((anomalies (Sql.avgByCategoryId userId w.db)
      (Sql.selectExpenses userId w.db)).map (Anomaly.toJS env.pg)))] := by
  rw [detect_anomalies] at h
  obtain ⟨avgRes, wa, h1, h⟩ := Eff.bind_eq_ok h
  obtain ⟨rows, wb, h2, h⟩ := Eff.bind_eq_ok h
  obtain ⟨ha, hwa⟩ := query_read_ok env _ w wa avgRes h1
  obtain ⟨hr, hwb⟩ := query_read_ok env _ wa wb rows h2
  cases h
  subst ha hr hwa hwb
  rfl

/-- When its two queries do not fail, `detect_anomalies` returns. -/
theorem detect_anomalies_returns (env : Env) (userId : Nat) (w : World)
    (hq1 : env.queryFault w.queries = none) (hq2 : env.queryFault (w.queries + 1) = none) :
    detect_anomalies env userId w =
      .ok (.obj [("items", .arr ((anomalies (Sql.avgByCategoryId userId w.db)
        (Sql.selectExpenses userId w.db)).map (Anomaly.toJS env.pg)))])
        { w with queries := w.queries + 2 } := by
  rw [detect_anomalies]
  simp only [Eff.bind_apply, query_read env w _ hq1,
    query_read env { w with queries := w.queries + 1 } _ hq2]
  rfl

/-- Claim C12: `detect_anomalies` returns when its two queries do not fail, and
whenever it returns, its result is the object
`{ items }` built from a list of anomalies in which an expense row `t` of the
user occurs if and only if the mean amount `m` of the expense transactions of
the user in the bucket of `t` (its category, 0 for a null category) is not zero
and the amount of `t` is at least `2 * m`; each item carries
`category_average = m`. So with mean 100 an amount of 200 is flagged and 199.99
is not, and with mean 0 nothing is flagged. -/
theorem detect_anomalies_flags (env : Env) (userId : Nat) (w : World) :
    ((env.queryFault w.queries = none → env.queryFault (w.queries + 1) = none →
        ∃ w1, detect_anomalies env userId w =
          .ok (.obj [("items", .arr ((anomalies (Sql.avgByCategoryId userId w.db)
            (Sql.selectExpenses userId w.db)).map (Anomaly.toJS env.pg)))]) w1) ∧
      ∀ w1 result, detect_anomalies env userId w = .ok result w1 →
        result = .obj [("items", .arr ((anomalies (Sql.avgByCategoryId userId w.db)
          (Sql.selectExpenses userId w.db)).map (Anomaly.toJS env.pg)))]) ∧
    (∀ row : Sql.TransactionRow,
      (∃ a ∈ anomalies (Sql.avgByCategoryId userId w.db) (Sql.selectExpenses userId w.db),
          a.transaction = row) ↔
        row ∈ Sql.selectExpenses userId w.db ∧
        mean (bucketAmounts (expensesOf userId w.db) (bucket row.transaction)) ≠ 0 ∧
        row.transaction.amount ≥
          2 * mean (bucketAmounts (expensesOf userId w.db) (bucket row.transaction))) ∧
    (∀ a ∈ anomalies (Sql.avgByCategoryId userId w.db) (Sql.selectExpenses userId w.db),
      a.category_average =
        mean (bucketAmounts (expensesOf userId w.db) (bucket a.transaction.transaction))) ∧
    (∀ row ∈ Sql.selectExpenses userId w.db,
      (mean (bucketAmounts (expensesOf userId w.db) (bucket row.transaction)) = 100 →
        row.transaction.amount = 200 →
        ∃ a ∈ anomalies (Sql.avgByCategoryId userId w.db) (Sql.selectExpenses userId w.db),
          a.transaction = row) ∧
      (mean (bucketAmounts (expensesOf userId w.db) (bucket row.transaction)) = 100 →
        row.transaction.amount = 199.99 →
        ¬ ∃ a ∈ anomalies (Sql.avgByCategoryId userId w.db) (Sql.selectExpenses userId w.db),
          a.transaction = row) ∧
      (mean (bucketAmounts (expensesOf userId w.db) (bucket row.transaction)) = 0 →
        ¬ ∃ a ∈ anomalies (Sql.avgByCategoryId userId w.db) (Sql.selectExpenses userId w.db),
          a.transaction = row)) := by
  have havg : ∀ row ∈ Sql.selectExpenses userId w.db,
      (NumMap.ofRows (Sql.avgByCategoryId userId w.db)).getOrZero (bucket row.transaction) =
        mean (bucketAmounts (expensesOf userId w.db) (bucket row.transaction)) := by
    intro row hrow
    rw [avg_getOrZero, if_pos ⟨row.transaction, selectExpenses_mem userId w.db row hrow, rfl⟩]
  have hiff : ∀ row : Sql.TransactionRow,
      (∃ a ∈ anomalies (Sql.avgByCategoryId userId w.db) (Sql.selectExpenses userId w.db),
          a.transaction = row) ↔
        row ∈ Sql.selectExpenses userId w.db ∧
        mean (bucketAmounts (expensesOf userId w.db) (bucket row.transaction)) ≠ 0 ∧
        row.transaction.amount ≥
          2 * mean (bucketAmounts (expensesOf userId w.db) (bucket row.transaction)) := by
    intro row
    constructor
    · rintro ⟨a, ha, rfl⟩
      rw [anomalies_mem] at ha
      obtain ⟨hrow, hval, h0, hge⟩ := ha
      rw [havg _ hrow] at hval
      rw [hval] at h0 hge
      exact ⟨hrow, h0, hge⟩
    · rintro ⟨hrow, h0, hge⟩
      refine ⟨Anomaly.mk row
        (mean (bucketAmounts (expensesOf userId w.db) (bucket row.transaction))), ?_, rfl⟩
      rw [anomalies_mem]
      exact ⟨hrow, (havg row hrow).symm, h0, hge⟩
  refine ⟨⟨fun hq1 hq2 => ⟨_, detect_anomalies_returns env userId w hq1 hq2⟩,
    fun w1 result h => detect_anomalies_result env userId w w1 result h⟩, hiff, ?_, ?_⟩
  · intro a ha
    rw [anomalies_mem] at ha
    rw [ha.2.1, havg _ ha.1]
  · intro row hrow
    refine ⟨?_, ?_, ?_⟩
    · intro hm ha
      rw [hiff]
      refine ⟨hrow, ?_, ?_⟩
      · rw [hm]
        norm_num
      · rw [hm, ha]
        norm_num
    · intro hm ha
      rw [hiff]
      rintro ⟨_, _, hge⟩
      rw [hm, ha] at hge
      norm_num at hge
    · intro hm
      rw [hiff]
      rintro ⟨_, h0, _⟩
      exact h0 hm

/-- Witness for claim C12: of the expenses 50, 50 and 200 of one category, whose
mean is 100, the expense of 200 is flagged. -/
theorem detect_anomalies_flags_witness :
    ∃ a ∈ anomalies (Sql.avgByCategoryId 1 Reference.anomalyDB)
        (Sql.selectExpenses 1 Reference.anomalyDB),
      a.transaction = { transaction := Reference.expense 3 200, category_name := some "Shopping" } := by
  have hmem : ({ transaction := Reference.expense 3 200, category_name := some "Shopping" } :
      Sql.TransactionRow) ∈ Sql.selectExpenses 1 Reference.anomalyDB := by
    show _ ∈ [_, _, _]
    simp
  have hmean : mean (bucketAmounts (expensesOf 1 Reference.anomalyDB) 1) = 100 := by
    have : bucketAmounts (expensesOf 1 Reference.anomalyDB) 1 = [50, 50, 200] := rfl
    rw [this]
    norm_num [mean]
  exact ((detect_anomalies_flags (Reference.env Reference.noChoiceService) 1
    { db := Reference.anomalyDB, queries := 0, modelCalls := [] }).2.2.2 _ hmem).1 hmean rfl

/-! ## The order of a tool round -/

theorem Eff.respects_of_throw {α : Type} {R : World → World → Prop} {m : Eff α}
    (hm : Eff.Respects R m) {w w1 : World} {e : Exn} (h : m w = .throw e w1) : R w w1 := by
  have := hm w
  rwa [h] at this

theorem dispatched_log (env : Env) (userId : Nat) (w w1 : World)
    (done : List (ToolCall × JSValue)) (h : Dispatched env userId w done w1) :
    w1.db.chat_messages.rows.map ChatMessage.payload =
      w.db.chat_messages.rows.map ChatMessage.payload ++
        done.map (fun d => (userId, "tool", env.js.stringify d.2, some d.1.function.name)) := by
  induction h with
  | nil w => simp
  | cons c r w wa wb rest hcall hq _ ih =>
    have hquiet := Eff.respects_of_ok (quiet_callTool env userId c) hcall
    rw [ih]
    simp [persisted, hquiet.2, ChatMessage.payload]

theorem dispatchToolCalls_trace (env : Env) (userId : Nat) (toolCalls : List ToolCall) :
    ∀ messages w, ∃ done wm, Dispatched env userId w done wm ∧
      done.map Prod.fst <+: toolCalls ∧
      match dispatchToolCalls env userId toolCalls messages w with
      | .ok messages1 w1 =>
        done.map Prod.fst = toolCalls ∧
        messages1 = messages ++ done.map (fun d => toolMessage env d.1 d.2) ∧ w1 = wm
      | .throw _ w1 => w1.db.chat_messages = wm.db.chat_messages := by
  induction toolCalls with
  | nil =>
    intro messages w
    exact ⟨[], w, Dispatched.nil w, List.prefix_refl _, rfl, by simp, rfl⟩
  | cons c rest ih =>
    intro messages w
    cases hcall : callTool env userId c w with
    | throw e w1 =>
      refine ⟨[], w, Dispatched.nil w, List.nil_prefix, ?_⟩
      rw [dispatchToolCalls_cons_throw env userId c rest messages w w1 e hcall]
      exact (Eff.respects_of_throw (quiet_callTool env userId c) hcall).2
    | ok r w1 =>
      cases hq : env.queryFault w1.queries with
      | some e =>
        refine ⟨[], w, Dispatched.nil w, List.nil_prefix, ?_⟩
        rw [dispatchToolCalls]
        simp only [Eff.bind_apply, hcall, query_fault env _ w1 e hq]
        exact (Eff.respects_of_ok (quiet_callTool env userId c) hcall).2
      | none =>
        rw [dispatchToolCalls_cons_ok env userId c rest messages w w1 r hcall hq]
        obtain ⟨done, wm, hd, hpre, hres⟩ := ih
          (messages ++ [{ role := "tool", name := some c.function.name,
                          content := env.js.stringify r, tool_call_id := some c.id }])
          (persisted env w1 userId "tool" (env.js.stringify r) (some c.function.name))
        refine ⟨(c, r) :: done, wm, Dispatched.cons c r w w1 wm done hcall hq hd, ?_, ?_⟩
        · simpa using hpre
        · cases hrun : dispatchToolCalls env userId rest
            (messages ++ [{ role := "tool", name := some c.function.name,
                            content := env.js.stringify r, tool_call_id := some c.id }])
            (persisted env w1 userId "tool" (env.js.stringify r) (some c.function.name)) with
          | ok m2 w2 =>
            rw [hrun] at hres
            obtain ⟨h1, h2, h3⟩ := hres
            refine ⟨by simp [h1], ?_, h3⟩
            rw [h2]
            simp [toolMessage]
          | throw e w2 =>
            rw [hrun] at hres
            exact hres

/-- Claim C13: in an iteration of the loop whose model response carries the
tool invocations `c :: cs`, `runAgent` first persists one assistant message (the
content of the response, or the empty string), then runs the loop over the
invocations, then goes on with the next iteration. The loop over the invocations
dispatches them in array order, each one in the world in which the result of
the one before has been persisted: the rows the round adds to the log are the
assistant row followed by one tool row per dispatched call, in the order of the
invocations, with content `JSON.stringify` of the result and `tool_name` the
name of the call. When the loop over the invocations returns, every invocation
has been dispatched; when it throws, no row was persisted after the rows of the
calls dispatched so far. -/
theorem tool_round_is_sequential (env : Env) (userId : Nat) (n : Nat)
    (messages : List Message) (w : World) (completion : Completion) (choice : Choice)
    (c : ToolCall) (cs : List ToolCall)
    (hc : completionOf env w.modelCalls.length messages = some completion)
    (hfirst : completion.firstChoice = some choice)
    (htools : choice.message.tool_calls = some (c :: cs))
    (hq : env.queryFault w.queries = none) :
    agentLoop env userId (n + 1) messages w =
      (dispatchToolCalls env userId (c :: cs)
          (messages ++ [{ role := "assistant", content := contentOrEmpty choice.message,
                          tool_calls := some (c :: cs) }]) >>=
        agentLoop env userId n)
        (persisted env { w with modelCalls := w.modelCalls ++ [messages] } userId "assistant"
          (contentOrEmpty choice.message) none) ∧
    ∃ done wm,
      Dispatched env userId
        (persisted env { w with modelCalls := w.modelCalls ++ [messages] } userId "assistant"
          (contentOrEmpty choice.message) none) done wm ∧
      done.map Prod.fst <+: c :: cs ∧
      wm.db.chat_messages.rows.map ChatMessage.payload =
        w.db.chat_messages.rows.map ChatMessage.payload ++
          (userId, "assistant", contentOrEmpty choice.message, none) ::
            done.map (fun d => (userId, "tool", env.js.stringify d.2, some d.1.function.name)) ∧
      match dispatchToolCalls env userId (c :: cs)
          (messages ++ [{ role := "assistant", content := contentOrEmpty choice.message,
                          tool_calls := some (c :: cs) }])
          (persisted env { w with modelCalls := w.modelCalls ++ [messages] } userId "assistant"
            (contentOrEmpty choice.message) none) with
      | .ok messages1 w1 =>
        done.map Prod.fst = c :: cs ∧
        messages1 = messages ++
          { role := "assistant", content := contentOrEmpty choice.message,
            tool_calls := some (c :: cs) } :: done.map (fun d => toolMessage env d.1 d.2) ∧
        w1 = wm
      | .throw _ w1 => w1.db.chat_messages = wm.db.chat_messages := by
  refine ⟨agentLoop_tool_round env userId n messages w completion choice c cs hc hfirst
    htools hq, ?_⟩
  obtain ⟨done, wm, hd, hpre, hres⟩ := dispatchToolCalls_trace env userId (c :: cs)
    (messages ++ [{ role := "assistant", content := contentOrEmpty choice.message,
                    tool_calls := some (c :: cs) }])
    (persisted env { w with modelCalls := w.modelCalls ++ [messages] } userId "assistant"
      (contentOrEmpty choice.message) none)
  refine ⟨done, wm, hd, hpre, ?_, ?_⟩
  · rw [dispatched_log env userId _ wm done hd]
    simp [persisted, ChatMessage.payload]
  · cases hrun : dispatchToolCalls env userId (c :: cs)
        (messages ++ [{ role := "assistant", content := contentOrEmpty choice.message,
                        tool_calls := some (c :: cs) }])
        (persisted env { w with modelCalls := w.modelCalls ++ [messages] } userId "assistant"
          (contentOrEmpty choice.message) none) with
    | ok m1 w1 =>
      rw [hrun] at hres
      obtain ⟨h1, h2, h3⟩ := hres
      exact ⟨h1, by rw [h2]; simp, h3⟩
    | throw e w1 =>
      rw [hrun] at hres
      exact hres

/-- Witness for claim C13: a response that asks for the weather and then for a
currency conversion. -/
theorem tool_round_is_sequential_witness :
    ∃ done wm,
      Dispatched (Reference.env Reference.twoCallsService) 1
        (persisted (Reference.env Reference.twoCallsService)
          { Reference.emptyWorld with modelCalls := [] ++ [[]] } 1 "assistant" "" none) done wm ∧
      done.map Prod.fst <+: [Reference.weatherCall, Reference.unsupportedCall] ∧
      wm.db.chat_messages.rows.map ChatMessage.payload =
        Reference.emptyWorld.db.chat_messages.rows.map ChatMessage.payload ++
          (1, "assistant", "", none) ::
            done.map (fun d => (1, "tool",
              (Reference.env Reference.twoCallsService).js.stringify d.2,
              some d.1.function.name)) ∧
      match dispatchToolCalls (Reference.env Reference.twoCallsService) 1
          [Reference.weatherCall, Reference.unsupportedCall]
          ([] ++ [{ role := "assistant", content := "",
                    tool_calls := some [Reference.weatherCall, Reference.unsupportedCall] }])
          (persisted (Reference.env Reference.twoCallsService)
            { Reference.emptyWorld with modelCalls := [] ++ [[]] } 1 "assistant" "" none) with
      | .ok messages1 w1 =>
        done.map Prod.fst = [Reference.weatherCall, Reference.unsupportedCall] ∧
        messages1 = [] ++
          { role := "assistant", content := "",
            tool_calls := some [Reference.weatherCall, Reference.unsupportedCall] } ::
            done.map (fun d => toolMessage (Reference.env Reference.twoCallsService) d.1 d.2) ∧
        w1 = wm
      | .throw _ w1 => w1.db.chat_messages = wm.db.chat_messages :=
  (tool_round_is_sequential (Reference.env Reference.twoCallsService) 1 3 []
    Reference.emptyWorld _ _ Reference.weatherCall [Reference.unsupportedCall]
    rfl rfl rfl rfl).2

/-! ## The category lookups of add_transaction and create_budget -/

theorem decimal_natural (n : Nat) : Reference.decimal false n 0 0 0 = (n : ℚ) := by
  simp [Reference.decimal]

theorem renderNumber_natural (n : Nat) : Reference.renderNumber (n : ℚ) = toString n := by
  unfold Reference.renderNumber
  have h1 : ((n : ℚ)).num = n := Rat.num_natCast n
  have h2 : ((n : ℚ)).den = 1 := Rat.den_natCast n
  have h3 : ¬ ((n : ℚ) < 0) := not_lt.mpr (Nat.cast_nonneg n)
  have h4 : Reference.fractionDigits 20 0 1 = [] := rfl
  simp only [h1, h2, h3, Int.natAbs_ofNat, Nat.div_one, Nat.mod_one, h4, if_false, if_true,
    String.append_empty, String.empty_append]

theorem numeric_natural (column : String) (n : Nat)
    (h : Reference.numericIn (toString n) = some (Reference.decimal false n 0 0 0)) :
    Sql.numeric Reference.postgres column (.num (Reference.decimal false n 0 0 0)) =
      .ok (Reference.decimal false n 0 0 0) := by
  unfold Sql.numeric Sql.param
  simp only [Reference.postgres, Reference.prepareValue, Reference.toStr]
  rw [decimal_natural, renderNumber_natural, h, decimal_natural]

theorem insertTransaction_wildcard (now : Nat) :
    Sql.insertTransaction Reference.postgres 1 (.num (Reference.decimal false 250 0 0 0))
        (.str "expense") (some 1) .null .null (.str "2025-01-15") now Reference.foodDB =
      .ok ({ id := 1, user_id := 1, amount := Reference.decimal false 250 0 0 0,
             type := "expense", category_id := some 1, merchant := none, description := none,
             date := "2025-01-15", receipt_url := none, created_at := now },
           { Reference.foodDB with transactions :=
              { rows := [{ id := 1, user_id := 1, amount := Reference.decimal false 250 0 0 0,
                           type := "expense", category_id := some 1, merchant := none,
                           description := none, date := "2025-01-15", receipt_url := none,
                           created_at := now }],
                nextId := 2 } }) := by
  unfold Sql.insertTransaction
  rw [numeric_natural "amount" 250 rfl]
  rfl

theorem query_ok {α : Type} (env : Env) (stmt : Nat → DB → Except Exn (α × DB)) (w : World)
    (a : α) (db1 : DB) (hq : env.queryFault w.queries = none)
    (hs : stmt (env.clock w.queries) w.db = .ok (a, db1)) :
    query env stmt w = .ok a { db := db1, queries := w.queries + 1, modelCalls := w.modelCalls } := by
  unfold query
  simp only [hq, hs]

theorem callTool_add_transaction (env : Env) (userId : Nat) (toolCall : ToolCall) (w : World)
    (args : JSValue) (hname : toolCall.function.name = "add_transaction")
    (hargs : env.js.parse (argumentsText toolCall) = .ok args) :
    callTool env userId toolCall w = add_transaction env userId args w := by
  rw [callTool]
  simp only [Eff.bind_apply, hargs, Eff.ofExcept_ok, hname]
  rfl

/-- A call of `add_transaction` with a category name for which the lookup finds
a category: the transaction is inserted with that category and no category is
created. -/
theorem add_transaction_reuses (env : Env) (userId : Nat) (args : JSValue) (w : World)
    (id : Nat) (row : Transaction) (db1 : DB)
    (hobj : args.nullish = false)
    (htruthy : ((args.get "category_name").withDefault .null).truthy = true)
    (hq1 : env.queryFault w.queries = none) (hq2 : env.queryFault (w.queries + 1) = none)
    (hsel : Sql.selectCategoryIlike env.pg userId
      (Sql.param env.pg ((args.get "category_name").withDefault .null))
      (Sql.param env.pg (args.get "type")) w.db.categories.rows = .ok (some id))
    (hins : Sql.insertTransaction env.pg userId (args.get "amount") (args.get "type") (some id)
      ((args.get "merchant").withDefault .null) ((args.get "description").withDefault .null)
      ((args.get "date").or (.str env.today)) (env.clock (w.queries + 1)) w.db = .ok (row, db1)) :
    add_transaction env userId args w =
      .ok (.obj [("transaction", .obj (row.toFields env.pg))])
        { db := db1, queries := w.queries + 2, modelCalls := w.modelCalls } := by
  unfold add_transaction
  simp only [Eff.bind_apply, requireObjectCoercible, hobj, Bool.false_eq_true, if_false,
    Eff.ofExcept_ok, htruthy, if_true]
  rw [query_ok env _ w (some id) w.db hq1 (by simp only [hsel, Except.map])]
  simp only [Eff.bind_apply, Eff.pure_apply]
  rw [query_ok env _ { db := w.db, queries := w.queries + 1, modelCalls := w.modelCalls } row db1
    hq2 hins]

/-- Claim C19, the code at a category name with a wildcard: the only category
is "Food & Dining", and the model asks to add an expense in the category
`Food%`. No category named `Food%` exists, but `ILIKE` reads `%` as a wildcard:
the call returns, creates no category and inserts the transaction with the
category "Food & Dining". -/
theorem add_transaction_wildcard_matches :
    callTool (Reference.env Reference.noChoiceService) 1 Reference.wildcardCall
        { db := Reference.foodDB, queries := 0, modelCalls := [] } =
      .ok (.obj [("transaction", .obj (Transaction.toFields Reference.postgres
            { id := 1, user_id := 1, amount := Reference.decimal false 250 0 0 0,
              type := "expense", category_id := some 1, merchant := none, description := none,
              date := "2025-01-15", receipt_url := none, created_at := 1 }))])
        { db := { Reference.foodDB with transactions :=
                  { rows := [{ id := 1, user_id := 1,
                               amount := Reference.decimal false 250 0 0 0,
                               type := "expense", category_id := some 1, merchant := none,
                               description := none, date := "2025-01-15", receipt_url := none,
                               created_at := 1 }],
                    nextId := 2 } },
          queries := 2, modelCalls := [] } ∧
    Reference.foodDB.categories.rows.map (fun c => (c.id, c.name)) = [(1, "Food & Dining")] := by
  constructor
  · rw [callTool_add_transaction (Reference.env Reference.noChoiceService) 1
      Reference.wildcardCall _
      (.obj [("amount", .num (Reference.decimal false 250 0 0 0)),
             ("type", .str "expense"), ("category_name", .str "Food%")]) rfl rfl]
    exact add_transaction_reuses (Reference.env Reference.noChoiceService) 1 _
      { db := Reference.foodDB, queries := 0, modelCalls := [] } 1 _ _ rfl rfl rfl rfl rfl
      (insertTransaction_wildcard 1)
  · rfl

theorem callTool_create_budget (env : Env) (userId : Nat) (toolCall : ToolCall) (w : World)
    (args : JSValue) (hname : toolCall.function.name = "create_budget")
    (hargs : env.js.parse (argumentsText toolCall) = .ok args) :
    callTool env userId toolCall w = create_budget env userId args w := by
  rw [callTool]
  simp only [Eff.bind_apply, hargs, Eff.ofExcept_ok, hname]
  rfl

/-- A call of `create_budget` for which the lookup by name finds a category:
the budget is written for that category and no category is created. -/
theorem create_budget_reuses (env : Env) (userId : Nat) (args : JSValue) (w : World)
    (id : Nat) (row : Budget) (db1 : DB)
    (hobj : args.nullish = false)
    (hq1 : env.queryFault w.queries = none) (hq2 : env.queryFault (w.queries + 1) = none)
    (hsel : Sql.selectCategoryByName userId (Sql.param env.pg (args.get "category_name"))
      w.db.categories.rows = some id)
    (hups : Sql.upsertBudget env.pg userId id (args.get "monthly_limit")
      ((args.get "month").or (.str env.month)) (env.clock (w.queries + 1)) w.db =
        .ok (row, db1)) :
    create_budget env userId args w =
      .ok (.obj [("budget", .obj (row.toFields env.pg))])
        { db := db1, queries := w.queries + 2, modelCalls := w.modelCalls } := by
  unfold create_budget
  simp only [Eff.bind_apply, requireObjectCoercible, hobj, Bool.false_eq_true, if_false,
    Eff.ofExcept_ok]
  rw [query_ok env _ w (some id) w.db hq1 (by simp only [hsel])]
  simp only [Eff.bind_apply, Eff.pure_apply]
  rw [query_ok env _ { db := w.db, queries := w.queries + 1, modelCalls := w.modelCalls } row db1
    hq2 hups]

theorem upsertBudget_salary (now : Nat) :
    Sql.upsertBudget Reference.postgres 1 1 (.num (Reference.decimal false 500 0 0 0))
        (.str "2025-01") now Reference.salaryDB =
      .ok ({ id := 1, user_id := 1, category_id := some 1,
             monthly_limit := Reference.decimal false 500 0 0 0, month := "2025-01",
             created_at := now },
           { Reference.salaryDB with budgets :=
              { rows := [{ id := 1, user_id := 1, category_id := some 1,
                           monthly_limit := Reference.decimal false 500 0 0 0,
                           month := "2025-01", created_at := now }],
                nextId := 2 } }) := by
  unfold Sql.upsertBudget
  rw [numeric_natural "monthly_limit" 500 rfl]
  rfl

/-- Claim C20, the code at a category name that only an income category has:
the only category is the income category "Salary", and the model asks for a
budget of 500 for `Salary`. The lookup of `create_budget` does not look at the
type: the call returns, creates no expense category and writes the budget for
the income category. -/
theorem create_budget_uses_income_category :
    callTool (Reference.env Reference.noChoiceService) 1 Reference.salaryBudgetCall
        { db := Reference.salaryDB, queries := 0, modelCalls := [] } =
      .ok (.obj [("budget", .obj (Budget.toFields Reference.postgres
            { id := 1, user_id := 1, category_id := some 1,
              monthly_limit := Reference.decimal false 500 0 0 0, month := "2025-01",
              created_at := 1 }))])
        { db := { Reference.salaryDB with budgets :=
                  { rows := [{ id := 1, user_id := 1, category_id := some 1,
                               monthly_limit := Reference.decimal false 500 0 0 0,
                               month := "2025-01", created_at := 1 }],
                    nextId := 2 } },
          queries := 2, modelCalls := [] } ∧
    Reference.salaryDB.categories.rows.map (fun c => (c.id, c.name, c.type)) =
      [(1, "Salary", "income")] := by
  constructor
  · rw [callTool_create_budget (Reference.env Reference.noChoiceService) 1
      Reference.salaryBudgetCall _
      (.obj [("category_name", .str "Salary"),
             ("monthly_limit", .num (Reference.decimal false 500 0 0 0))]) rfl rfl]
    exact create_budget_reuses (Reference.env Reference.noChoiceService) 1 _
      { db := Reference.salaryDB, queries := 0, modelCalls := [] } 1 _ _ rfl rfl rfl rfl
      (upsertBudget_salary 1)
  · rfl

/-! ## The rounding of monetary values -/

/-- The value that `get_budget_status` uses as `spent` for a bucket: the sum of
the amounts of the expense transactions of the user in the month and bucket (0
for an empty bucket). -/
theorem spent_getOrZero (userId : Nat) (month : String) (db : DB) (key : Nat) :
    (NumMap.ofRows (Sql.spentByCategoryId userId month db)).getOrZero key =
      (bucketAmounts ((expensesOf userId db).filter
        (fun t => decide (Sql.yearMonth t.date = month))) key).sum := by
  rw [numMap_getOrZero_ofRows]
  unfold Sql.spentByCategoryId
  rw [recorded_groupByCategoryId]
  have hf : db.transactions.rows.filter (fun t =>
      decide (t.user_id = userId) && decide (t.type = "expense") &&
        decide (Sql.yearMonth t.date = month)) =
      (expensesOf userId db).filter (fun t => decide (Sql.yearMonth t.date = month)) := by
    unfold expensesOf
    rw [List.filter_filter]
    congr 1
    funext t
    simp only [Bool.and_comm]
  rw [hf]
  by_cases h : ∃ t ∈ (expensesOf userId db).filter
      (fun t => decide (Sql.yearMonth t.date = month)), bucket t = key
  · rw [if_pos h]
    rfl
  · rw [if_neg h]
    have hempty : bucketAmounts ((expensesOf userId db).filter
        (fun t => decide (Sql.yearMonth t.date = month))) key = [] := by
      unfold bucketAmounts
      rw [List.map_eq_nil_iff, List.filter_eq_nil_iff]
      intro t ht hb
      exact h ⟨t, ht, by simpa using hb⟩
    rw [hempty]
    rfl

theorem get_inr_amount (a b c d e : JSValue) :
    (JSValue.obj [("original_amount", a), ("original_currency", b), ("inr_amount", c),
      ("exchange_rate", d), ("message", e)]).get "inr_amount" = c := by
  simp [JSValue.get]

/-- The property `inr_amount` of a conversion result, when it is a number, is a
whole number of hundredths. -/
theorem inr_amount_hundredths (js : Builtins) (args result : JSValue) (q : ℚ)
    (h : convert_currency_to_inr js args = .ok result)
    (hq : result.get "inr_amount" = .num q) : ∃ k : ℤ, q = k / 100 := by
  unfold convert_currency_to_inr at h
  split at h
  · cases h
  · split at h
    · dsimp only at h
      split at h
      · cases h
        simp [JSValue.get] at hq
      · split at h
        · cases h
          simp [JSValue.get] at hq
        · cases h
          rw [get_inr_amount] at hq
          cases hn : JS.toNumber js (args.get "amount") with
          | none =>
            rw [hn] at hq
            cases hq
          | some a =>
            rw [hn] at hq
            cases hq
            exact ⟨_, rfl⟩
    · cases h
    · cases h
    · cases h

/-- Claim C18, as the code has it: `inr_amount` of `convert_currency_to_inr`,
whenever it is a number, is an exact multiple of 0.01; `spent` of
`get_budget_status` is the sum of the stored amounts of the expenses of the
month in the category of the budget, and `category_average` of
`detect_anomalies` is the mean of the stored amounts of the expenses in the
category of the transaction, both as computed by the database, without
rounding. -/
theorem monetary_values_as_computed (env : Env) (userId : Nat) (w : World) :
    (∀ args result q, convert_currency_to_inr env.js args = .ok result →
      result.get "inr_amount" = .num q → ∃ k : ℤ, q = k / 100) ∧
    (∀ b : Sql.BudgetRow,
      (budgetItem (NumMap.ofRows (Sql.spentByCategoryId userId env.month w.db)) b).spent =
        (bucketAmounts ((expensesOf userId w.db).filter
          (fun t => decide (Sql.yearMonth t.date = env.month)))
          (b.budget.category_id.getD 0)).sum) ∧
    (∀ a ∈ anomalies (Sql.avgByCategoryId userId w.db) (Sql.selectExpenses userId w.db),
      a.category_average =
        mean (bucketAmounts (expensesOf userId w.db) (bucket a.transaction.transaction))) := by
  refine ⟨?_, ?_, ?_⟩
  · intro args result q h hq
    exact inr_amount_hundredths env.js args result q h hq
  · intro b
    exact spent_getOrZero userId env.month w.db _
  · intro a ha
    rw [anomalies_mem] at ha
    rw [ha.2.1, avg_getOrZero,
      if_pos ⟨a.transaction.transaction, selectExpenses_mem userId w.db _ ha.1, rfl⟩]

/-- Witness for claim C18: the conversion of 20 US dollars. -/
theorem monetary_values_as_computed_witness :
    ∃ k : ℤ, ((JS.round ((20 : ℚ) * 83.50 * 100) : ℚ) / 100) = k / 100 :=
  (monetary_values_as_computed (Reference.env Reference.noChoiceService) 1
    Reference.emptyWorld).1
    (.obj [("amount", .num 20), ("from_currency", .str "USD")]) _ _
    (convert_supported Reference.builtins _ 20 "USD" 83.50 rfl rfl
      (List.mem_cons_self _ _))
    (get_inr_amount _ _ _ _ _)

/-- Counterexample to claim C18 as stated: of the expenses 10, 10 and 50 of one
category the expense of 50 is returned by `detect_anomalies` with
`category_average` 70/3, which is not a multiple of 0.01. -/
theorem category_average_is_not_rounded :
    ∃ a ∈ anomalies (Sql.avgByCategoryId 1 Reference.thirdsDB)
        (Sql.selectExpenses 1 Reference.thirdsDB),
      a.category_average = 70 / 3 ∧ ¬ ∃ k : ℤ, a.category_average = k / 100 := by
  have hmean : mean (bucketAmounts (expensesOf 1 Reference.thirdsDB) 1) = 70 / 3 := by
    have : bucketAmounts (expensesOf 1 Reference.thirdsDB) 1 = [10, 10, 50] := rfl
    rw [this]
    norm_num [mean]
  have havg : (NumMap.ofRows (Sql.avgByCategoryId 1 Reference.thirdsDB)).getOrZero 1 = 70 / 3 := by
    rw [avg_getOrZero, if_pos ⟨Reference.expense 1 10, by decide, rfl⟩, hmean]
  refine ⟨Anomaly.mk { transaction := Reference.expense 3 50, category_name := some "Shopping" }
    (70 / 3), ?_, rfl, ?_⟩
  · rw [anomalies_mem]
    refine ⟨?_, havg.symm, by norm_num, ?_⟩
    · show _ ∈ [_, _, _]
      simp
    · show (50 : ℚ) ≥ 2 * (70 / 3)
      norm_num
  · rintro ⟨k, hk⟩
    have h3 : (3 : ℚ) * k = 7000 := by
      have : (70 : ℚ) / 3 = k / 100 := hk
      linarith
    have h4 : (3 : ℤ) * k = 7000 := by exact_mod_cast h3
    omega

/-! ## The tools that only read -/

theorem sameData_refl (w : World) : SameData w w := rfl

theorem sameData_trans (a b c : World) (h1 : SameData a b) (h2 : SameData b c) :
    SameData a c := by
  unfold SameData at *
  rw [h2, h1]

theorem sameData_read {α : Type} (env : Env) (f : DB → α) :
    Eff.Respects SameData (query env (fun _ db => (.ok (f db, db) : Except Exn (α × DB)))) := by
  intro w
  unfold query
  cases env.queryFault w.queries with
  | some e => rfl
  | none => rfl

theorem sameData_get_spending_by_category (env : Env) (userId : Nat) (args : JSValue) :
    Eff.Respects SameData (get_spending_by_category env userId args) := by
  unfold get_spending_by_category
  dsimp only
  refine Eff.respects_bind sameData_trans (Eff.respects_ofExcept sameData_refl _) (fun _ => ?_)
  refine Eff.respects_bind sameData_trans (sameData_read env _) (fun _ => ?_)
  exact Eff.respects_pure sameData_refl _

theorem sameData_get_budget_status (env : Env) (userId : Nat) :
    Eff.Respects SameData (get_budget_status env userId) := by
  unfold get_budget_status
  dsimp only
  refine Eff.respects_bind sameData_trans (sameData_read env _) (fun _ => ?_)
  refine Eff.respects_bind sameData_trans (sameData_read env _) (fun _ => ?_)
  exact Eff.respects_pure sameData_refl _

theorem sameData_detect_anomalies (env : Env) (userId : Nat) :
    Eff.Respects SameData (detect_anomalies env userId) := by
  unfold detect_anomalies
  refine Eff.respects_bind sameData_trans (sameData_read env _) (fun _ => ?_)
  refine Eff.respects_bind sameData_trans (sameData_read env _) (fun _ => ?_)
  exact Eff.respects_pure sameData_refl _

theorem sameData_suggest_savings (env : Env) (userId : Nat) (args : JSValue) :
    Eff.Respects SameData (suggest_savings env userId args) := by
  unfold suggest_savings
  dsimp only
  refine Eff.respects_bind sameData_trans (sameData_read env _) (fun _ => ?_)
  refine Eff.respects_bind sameData_trans (Eff.respects_ofExcept sameData_refl _) (fun _ => ?_)
  exact Eff.respects_pure sameData_refl _

theorem sameData_callTool (env : Env) (userId : Nat) (toolCall : ToolCall)
    (h : toolCall.function.name ∉ writingTools) :
    Eff.Respects SameData (callTool env userId toolCall) := by
  have h1 : toolCall.function.name ≠ "add_transaction" := fun e => h (by simp [writingTools, e])
  have h2 : toolCall.function.name ≠ "create_budget" := fun e => h (by simp [writingTools, e])
  have h3 : toolCall.function.name ≠ "create_goal" := fun e => h (by simp [writingTools, e])
  unfold callTool
  dsimp only
  refine Eff.respects_bind sameData_trans (Eff.respects_ofExcept sameData_refl _) (fun args => ?_)
  simp only [h1, h2, h3, if_false]
  repeat' first
    | exact Eff.respects_pure sameData_refl _
    | exact Eff.respects_ofExcept sameData_refl _
    | exact sameData_get_spending_by_category _ _ _
    | exact sameData_get_budget_status _ _
    | exact sameData_detect_anomalies _ _
    | exact sameData_suggest_savings _ _ _
    | split

/-- Claim C22: dispatching a tool call whose name is not `add_transaction`,
`create_budget` or `create_goal` (so `convert_currency_to_inr`,
`get_spending_by_category`, `get_budget_status`, `detect_anomalies`,
`suggest_savings` and every name without a handler), for every user, arguments
text and state, leaves the database as it is, whether the dispatch returns or
throws: the tables `categories`, `transactions`, `budgets` and `goals` are
unchanged. -/
theorem read_only_tools_keep_data (env : Env) (userId : Nat) (toolCall : ToolCall) (w : World)
    (h : toolCall.function.name ∉ writingTools) :
    (callTool env userId toolCall w).world.db = w.db ∧
    (callTool env userId toolCall w).world.db.categories = w.db.categories ∧
    (callTool env userId toolCall w).world.db.transactions = w.db.transactions ∧
    (callTool env userId toolCall w).world.db.budgets = w.db.budgets ∧
    (callTool env userId toolCall w).world.db.goals = w.db.goals := by
  have hsame : (callTool env userId toolCall w).world.db = w.db :=
    sameData_callTool env userId toolCall h w
  rw [hsame]
  exact ⟨rfl, rfl, rfl, rfl, rfl⟩

/-- Witness for claim C22: the conversion of 20 US dollars. -/
theorem read_only_tools_keep_data_witness :
    (callTool (Reference.env Reference.noChoiceService) 1 Reference.dollarCall
        Reference.emptyWorld).world.db = Reference.emptyWorld.db ∧
    (callTool (Reference.env Reference.noChoiceService) 1 Reference.dollarCall
        Reference.emptyWorld).world.db.categories = Reference.emptyWorld.db.categories ∧
    (callTool (Reference.env Reference.noChoiceService) 1 Reference.dollarCall
        Reference.emptyWorld).world.db.transactions = Reference.emptyWorld.db.transactions ∧
    (callTool (Reference.env Reference.noChoiceService) 1 Reference.dollarCall
        Reference.emptyWorld).world.db.budgets = Reference.emptyWorld.db.budgets ∧
    (callTool (Reference.env Reference.noChoiceService) 1 Reference.dollarCall
        Reference.emptyWorld).world.db.goals = Reference.emptyWorld.db.goals :=
  read_only_tools_keep_data (Reference.env Reference.noChoiceService) 1 Reference.dollarCall
    Reference.emptyWorld (by decide)

/-! ## The outcomes of a model call -/

/-- Claim C25, as the code has it: for a request that the endpoint answers with
a response, `fetchChatCompletion` throws when the status is not in 200..299,
with an error whose message carries the status code and the body text; for a
status in 200..299 it returns the JSON of the body, whatever its `choices`, and
it throws when reading the body as JSON throws. So it fails if and only if the
status is not 2xx or the body is not JSON. -/
theorem fetchChatCompletion_outcomes (env : Env) (messages : List Message) (w : World)
    (resp : HttpResponse) (hfetch : env.fetch w.modelCalls.length messages = .ok resp) :
    (resp.ok = true ↔ 200 ≤ resp.status ∧ resp.status ≤ 299) ∧
    (resp.ok = false →
      fetchChatCompletion env messages w =
        .throw (.error ("OpenRouter error: " ++ toString resp.status ++ " " ++ resp.text))
          { w with modelCalls := w.modelCalls ++ [messages] }) ∧
    (resp.ok = true → ∀ completion, resp.json = .ok completion →
      fetchChatCompletion env messages w =
        .ok completion { w with modelCalls := w.modelCalls ++ [messages] }) ∧
    (resp.ok = true → ∀ e, resp.json = .error e →
      fetchChatCompletion env messages w =
        .throw e { w with modelCalls := w.modelCalls ++ [messages] }) ∧
    ((fetchChatCompletion env messages w).returns = false ↔
      resp.ok = false ∨ ∃ e, resp.json = .error e) := by
  refine ⟨?_, ?_, ?_, ?_, ?_⟩
  · simp [HttpResponse.ok]
  · intro hok
    unfold fetchChatCompletion
    simp only [hfetch, hok]
    rfl
  · intro hok completion hjson
    unfold fetchChatCompletion
    simp only [hfetch, hok, hjson]
    rfl
  · intro hok e hjson
    unfold fetchChatCompletion
    simp only [hfetch, hok, hjson]
    rfl
  · unfold fetchChatCompletion
    simp only [hfetch]
    cases hok : resp.ok with
    | false => simp [Result.returns]
    | true =>
      cases hjson : resp.json with
      | ok c => simp [Result.returns]
      | error e => simp [Result.returns]

/-- Witness for claim C25: a response with status 200 whose JSON has an empty
list of choices is returned. -/
theorem fetchChatCompletion_outcomes_witness :
    fetchChatCompletion (Reference.env Reference.noChoiceService) [] Reference.emptyWorld =
      .ok { choices := some [] }
        { Reference.emptyWorld with modelCalls := Reference.emptyWorld.modelCalls ++ [[]] } :=
  (fetchChatCompletion_outcomes (Reference.env Reference.noChoiceService) []
    Reference.emptyWorld { status := 200, text := "", json := .ok { choices := some [] } }
    rfl).2.2.1 rfl _ rfl

/-- Counterexample to claim C25 as stated: the endpoint answers with status 200
and a body that is not JSON; `fetchChatCompletion` throws although the status
is 2xx. -/
theorem fetchChatCompletion_throws_on_status_200 :
    (∃ resp, (Reference.env Reference.htmlService).fetch 0 [] = .ok resp ∧
      resp.status = 200 ∧ resp.ok = true) ∧
    fetchChatCompletion (Reference.env Reference.htmlService) [] Reference.emptyWorld =
      .throw (.syntaxError "Unexpected token <")
        { Reference.emptyWorld with modelCalls := [[]] } :=
  ⟨⟨_, rfl, rfl, rfl⟩, rfl⟩

/-! ## The text returned by a turn -/

theorem fetchChatCompletion_ok_inv (env : Env) (messages : List Message) (w w1 : World)
    (completion : Completion) (h : fetchChatCompletion env messages w = .ok completion w1) :
    completionOf env w.modelCalls.length messages = some completion ∧
      w1 = { w with modelCalls := w.modelCalls ++ [messages] } := by
  unfold fetchChatCompletion at h
  unfold completionOf
  cases hf : env.fetch w.modelCalls.length messages with
  | error e => simp [hf] at h
  | ok resp =>
    simp only [hf] at h ⊢
    cases hok : resp.ok with
    | false => simp [hok] at h
    | true =>
      simp only [hok, if_true] at h ⊢
      cases hj : resp.json with
      | error e => simp [hj] at h
      | ok c =>
        simp only [hj] at h
        cases h
        exact ⟨rfl, rfl⟩

theorem fallbackMessage_ne_empty : fallbackMessage ≠ "" := by decide

/-- The final answer of the loop, when there is one, is the content (or the
empty string for a missing content) of the first choice of a completion that
the model service returned for a request of the loop. -/
theorem agentLoop_final_from_model (env : Env) (userId : Nat) (remaining : Nat) :
    ∀ messages w r w1, agentLoop env userId remaining messages w = .ok r w1 →
      ∀ c, r.1 = some c →
        ∃ n sent completion choice, completionOf env n sent = some completion ∧
          completion.firstChoice = some choice ∧ contentOrEmpty choice.message = c := by
  induction remaining with
  | zero =>
    intro messages w r w1 h c hc
    cases h
    cases hc
  | succ n ih =>
    intro messages w r w1 h c hc
    rw [agentLoop] at h
    obtain ⟨completion, wa, hfetch, h⟩ := Eff.bind_eq_ok h
    have hcomp := (fetchChatCompletion_ok_inv env messages w wa completion hfetch).1
    cases hfirst : completion.firstChoice with
    | none =>
      simp only [hfirst] at h
      cases h
      cases hc
    | some choice =>
      simp only [hfirst] at h
      have plain : ∀ (h : (query env (Sql.insertChatMessage userId "assistant"
          (contentOrEmpty choice.message) none) >>= fun _ =>
            (pure (some (contentOrEmpty choice.message),
              messages ++ [{ role := "assistant", content := contentOrEmpty choice.message }]) :
              Eff (Option String × List Message))) wa = .ok r w1),
          ∃ n sent completion choice, completionOf env n sent = some completion ∧
            completion.firstChoice = some choice ∧ contentOrEmpty choice.message = c := by
        intro h
        obtain ⟨a, wb, hq, h⟩ := Eff.bind_eq_ok h
        cases h
        simp only [Option.some.injEq] at hc
        exact ⟨_, _, completion, choice, hcomp, hfirst, hc⟩
      cases htc : choice.message.tool_calls with
      | none =>
        simp only [htc] at h
        exact plain h
      | some tcs =>
        cases tcs with
        | nil =>
          simp only [htc] at h
          exact plain h
        | cons t rest =>
          simp only [htc] at h
          obtain ⟨a, wb, hq, h⟩ := Eff.bind_eq_ok h
          obtain ⟨m1, wc, hd, h⟩ := Eff.bind_eq_ok h
          exact ih m1 wc r w1 h c hc

/-- Claim C27: whenever `runAgent` returns, the message of its result is not the
empty string: it is the fixed fallback text, or it is the non-empty content of
the first choice of a completion that the model service returned. -/
theorem runAgent_message_is_not_empty (env : Env) (userId : Nat) (message : String)
    (w w1 : World) (reply : Reply) (h : runAgent env userId message w = .ok reply w1) :
    reply.message ≠ "" ∧
    (reply.message = fallbackMessage ∨
      ∃ n sent completion choice, completionOf env n sent = some completion ∧
        completion.firstChoice = some choice ∧
        choice.message.content = some reply.message ∧ reply.message ≠ "") := by
  rw [runAgent] at h
  obtain ⟨historyRes, wa, _, h⟩ := Eff.bind_eq_ok h
  obtain ⟨_, wb, _, h⟩ := Eff.bind_eq_ok h
  obtain ⟨r, wc, hloop, h⟩ := Eff.bind_eq_ok h
  obtain ⟨final, msgs⟩ := r
  cases h
  cases hfinal : final with
  | none =>
    exact ⟨by simpa [finalText] using fallbackMessage_ne_empty, Or.inl rfl⟩
  | some c =>
    by_cases hc : c = ""
    · subst hc
      exact ⟨by simpa [finalText] using fallbackMessage_ne_empty, Or.inl rfl⟩
    · have htext : finalText (some c) = c := by simp [finalText, hc]
      obtain ⟨n, sent, completion, choice, hcomp, hfirst, hcontent⟩ :=
        agentLoop_final_from_model env userId 4 _ wb (final, msgs) _ hloop c
          (by simp [hfinal])
      refine ⟨by simpa [htext] using hc, Or.inr ⟨n, sent, completion, choice, hcomp, hfirst, ?_, ?_⟩⟩
      · simp only [htext]
        unfold contentOrEmpty at hcontent
        cases hcc : choice.message.content with
        | none =>
          rw [hcc] at hcontent
          exact absurd hcontent.symm hc
        | some text =>
          rw [hcc] at hcontent
          simp only at hcontent
          rw [hcontent]
      · simpa [htext] using hc

/-- Witness for claim C27: the model answers the first request with a plain
text. -/
theorem runAgent_message_is_not_empty_witness :
    ({ message := "Hello!" } : Reply).message ≠ "" ∧
    (({ message := "Hello!" } : Reply).message = fallbackMessage ∨
      ∃ n sent completion choice,
        completionOf (Reference.env (Reference.plainService "Hello!")) n sent =
          some completion ∧
        completion.firstChoice = some choice ∧
        choice.message.content = some ({ message := "Hello!" } : Reply).message ∧
        ({ message := "Hello!" } : Reply).message ≠ "") :=
  runAgent_message_is_not_empty (Reference.env (Reference.plainService "Hello!")) 1 "Hi"
    Reference.emptyWorld _ { message := "Hello!" } rfl

/-! ## The catalog of tools and the branches of `callTool` -/

theorem Eff.yields_pure {α : Type} {P : α → Prop} (a : α) (h : P a) :
    Eff.Yields P (Pure.pure a : Eff α) := by
  intro w b w1 hb
  cases hb
  exact h

theorem Eff.yields_bind {α β : Type} {P : β → Prop} {m : Eff α} {f : α → Eff β}
    (hf : ∀ a, Eff.Yields P (f a)) : Eff.Yields P (m >>= f) := by
  intro w b w1 hb
  obtain ⟨a, wa, _, h⟩ := Eff.bind_eq_ok hb
  exact hf a wa b w1 h

theorem currency_text_ne_unknown_text (x y : String) :
    "Currency " ++ x ≠ "Unknown tool " ++ y := by
  intro h
  have hd := congrArg String.data h
  simp only [String.data_append] at hd
  have h0 := congrArg List.head? hd
  simp at h0

theorem convert_not_unknown (js : Builtins) (args r : JSValue) (name : String)
    (h : convert_currency_to_inr js args = .ok r) : r ≠ unknownTool name := by
  unfold convert_currency_to_inr at h
  split at h
  · cases h
  · split at h
    · dsimp only at h
      split at h
      · cases h
        intro heq
        simp only [unknownTool, JSValue.obj.injEq, List.cons.injEq, Prod.mk.injEq,
          JSValue.str.injEq, true_and, and_true] at heq
        rw [String.append_assoc, String.append_assoc] at heq
        exact currency_text_ne_unknown_text _ _ heq
      · split at h
        · cases h
          intro heq
          simp only [unknownTool, JSValue.obj.injEq, List.cons.injEq, Prod.mk.injEq,
            JSValue.str.injEq, true_and, and_true] at heq
          rw [String.append_assoc, String.append_assoc] at heq
          exact currency_text_ne_unknown_text _ _ heq
        · cases h
          intro heq
          simp [unknownTool] at heq
    · cases h
    · cases h
    · cases h

theorem yields_callTool_known (env : Env) (userId : Nat) (toolCall : ToolCall)
    (h : toolCall.function.name ∈ handledTools) :
    Eff.Yields (fun r => r ≠ unknownTool toolCall.function.name)
      (callTool env userId toolCall) := by
  unfold callTool
  dsimp only
  refine Eff.yields_bind (fun args => ?_)
  split
  · intro w r w1 hr
    cases hc : convert_currency_to_inr env.js args with
    | error e => simp [hc] at hr
    | ok v =>
      simp only [hc, Eff.ofExcept_ok] at hr
      cases hr
      exact convert_not_unknown env.js args _ _ hc
  · unfold add_transaction get_spending_by_category create_budget get_budget_status
      detect_anomalies suggest_savings create_goal
    dsimp only
    repeat' first
      | (refine Eff.yields_pure _ ?_; simp [unknownTool]; done)
      | refine Eff.yields_bind (fun _ => ?_)
      | split
    rename_i h1 h2 h3 h4 h5 h6 h7 h8
    exfalso
    simp only [handledTools, List.mem_cons, List.mem_singleton, List.not_mem_nil,
      or_false] at h
    rcases h with h | h | h | h | h | h | h | h
    · exact h1 h
    · exact h2 h
    · exact h3 h
    · exact h4 h
    · exact h5 h
    · exact h6 h
    · exact h7 h
    · exact h8 h

/-- Claim C26: the catalog `tools` advertises 8 distinct names, and they are the
names that `callTool` has a branch for. For a call whose name is in the catalog,
`callTool` never returns `{ error: "Unknown tool <name>" }`, whatever the
arguments and the state; for a call whose name is not in the catalog and whose
arguments text is well-formed JSON, `callTool` returns exactly that value and
leaves the world as it is. -/
theorem catalog_tools_have_handlers (env : Env) (userId : Nat) (toolCall : ToolCall)
    (w : World) :
    (tools.map (fun t => t.name)).length = 8 ∧
    (tools.map (fun t => t.name)).Nodup ∧
    (∀ name, name ∈ tools.map (fun t => t.name) ↔ name ∈ handledTools) ∧
    (toolCall.function.name ∈ tools.map (fun t => t.name) →
      ∀ r w1, callTool env userId toolCall w = .ok r w1 →
        r ≠ unknownTool toolCall.function.name) ∧
    (toolCall.function.name ∉ tools.map (fun t => t.name) →
      ∀ args, env.js.parse (argumentsText toolCall) = .ok args →
        callTool env userId toolCall w = .ok (unknownTool toolCall.function.name) w) := by
  have hnames : ∀ name, name ∈ tools.map (fun t => t.name) ↔ name ∈ handledTools := by
    intro name
    simp only [tools, handledTools, List.map_cons, List.map_nil, List.mem_cons,
      List.mem_singleton, List.not_mem_nil, or_false]
    tauto
  refine ⟨rfl, by decide, hnames, ?_, ?_⟩
  · intro hmem r w1 hr
    exact yields_callTool_known env userId toolCall ((hnames _).mp hmem) w r w1 hr
  · intro hmem args hargs
    exact callTool_unknown env userId toolCall w args hargs
      (fun hh => hmem ((hnames _).mpr hh))

/-- Witness for claim C26: a call of `get_budget_status`, which is in the
catalog, and a call of `get_weather`, which is not. -/
theorem catalog_tools_have_handlers_witness :
    (∃ r w1, callTool (Reference.env Reference.noChoiceService) 1
        { id := "call_1", function := { name := "get_budget_status", arguments := some "{}" } }
        { db := Reference.budgetDB, queries := 0, modelCalls := [] } = .ok r w1 ∧
      r ≠ unknownTool "get_budget_status") ∧
    callTool (Reference.env Reference.noChoiceService) 1 Reference.weatherCall
        Reference.emptyWorld = .ok (unknownTool "get_weather") Reference.emptyWorld :=
  ⟨⟨_, _, rfl,
    (catalog_tools_have_handlers (Reference.env Reference.noChoiceService) 1
      { id := "call_1", function := { name := "get_budget_status", arguments := some "{}" } }
      { db := Reference.budgetDB, queries := 0, modelCalls := [] }).2.2.2.1 (by decide) _ _ rfl⟩,
   (catalog_tools_have_handlers (Reference.env Reference.noChoiceService) 1
      Reference.weatherCall Reference.emptyWorld).2.2.2.2 (by decide) _ rfl⟩

/-! ## The tools and the routes that compute the same analytics -/

theorem budgetItems_eq_route (budgets : List Sql.BudgetRow)
    (spentRows : List Sql.AggregateRow) :
    budgetItems budgets spentRows = Routes.budgetStatusItems budgets spentRows := by
  unfold budgetItems Routes.budgetStatusItems
  apply List.map_congr_left
  intro b _
  rfl

/-- Claim C28: for every list of budget rows and every list of spent rows, the
items that the tool `get_budget_status` computes (the budget row with `spent`,
`utilization` and `status`) are the items that the route
`GET /budgets/status/current` computes from the same rows; and in every state
the tool and the handler of the route issue the same queries and produce the
same value or the same exception. -/
theorem budget_status_tool_equals_route (env : Env) (userId : Nat) :
    (∀ (budgets : List Sql.BudgetRow) (spentRows : List Sql.AggregateRow),
      budgetItems budgets spentRows = Routes.budgetStatusItems budgets spentRows) ∧
    (∀ w, get_budget_status env userId w = Routes.budgetStatusCurrent env userId w) := by
  refine ⟨budgetItems_eq_route, ?_⟩
  intro w
  unfold get_budget_status Routes.budgetStatusCurrent
  simp only [budgetItems_eq_route]

theorem route_anomalies_foldl (avgMap : NumMap) (rows : List Sql.TransactionRow) :
    ∀ acc : List Anomaly,
      rows.foldl (fun anomalies t =>
        if avgMap.getOrZero (t.transaction.category_id.getD 0) = 0 then anomalies
        else if t.transaction.amount ≥
            2 * avgMap.getOrZero (t.transaction.category_id.getD 0) then
          anomalies ++ [Anomaly.mk t (avgMap.getOrZero (t.transaction.category_id.getD 0))]
        else anomalies) acc =
      acc ++ rows.filterMap (fun t =>
        if avgMap.getOrZero (t.transaction.category_id.getD 0) = 0 then none
        else if t.transaction.amount ≥
            2 * avgMap.getOrZero (t.transaction.category_id.getD 0) then
          some (Anomaly.mk t (avgMap.getOrZero (t.transaction.category_id.getD 0)))
        else none) := by
  induction rows with
  | nil => intro acc; simp
  | cons t rest ih =>
    intro acc
    rw [List.foldl_cons, ih, List.filterMap_cons]
    by_cases h0 : avgMap.getOrZero (t.transaction.category_id.getD 0) = 0
    · simp [h0]
    · by_cases hge : t.transaction.amount ≥
          2 * avgMap.getOrZero (t.transaction.category_id.getD 0)
      · simp [h0, hge]
      · simp [h0, hge]

theorem anomalies_eq_route (avgRows : List Sql.AggregateRow)
    (rows : List Sql.TransactionRow) :
    anomalies avgRows rows = Routes.anomalyItems avgRows rows := by
  unfold anomalies Routes.anomalyItems
  dsimp only
  have h := route_anomalies_foldl
    (avgRows.foldl (fun m row => m.set row.category_id row.value) []) rows []
  rw [List.nil_append] at h
  exact h.symm

/-- Claim C29: for every list of per-category averages and every list of
expense rows, the list of anomalies that the tool `detect_anomalies` computes
is the list that the route `GET /analytics/anomalies` computes from the same
rows, item for item and in the same order; and in every state the tool and the
handler of the route issue the same queries and produce the same value or the
same exception. -/
theorem anomalies_tool_equals_route (env : Env) (userId : Nat) :
    (∀ (avgRows : List Sql.AggregateRow) (rows : List Sql.TransactionRow),
      anomalies avgRows rows = Routes.anomalyItems avgRows rows) ∧
    (∀ w, detect_anomalies env userId w = Routes.analyticsAnomalies env userId w) := by
  refine ⟨anomalies_eq_route, ?_⟩
  intro w
  unfold detect_anomalies Routes.analyticsAnomalies
  simp only [anomalies_eq_route]

/-! ## Anomalies never cover a whole category -/

/-- In a non-empty bucket some transaction has an amount of at most the mean of
the bucket. -/
theorem exists_amount_le_mean (ts : List Transaction) (key : Nat)
    (h : ∃ t ∈ ts, bucket t = key) :
    ∃ t ∈ ts, bucket t = key ∧ t.amount ≤ mean (bucketAmounts ts key) := by
  obtain ⟨t0, ht0, hb0⟩ := h
  have hne : ts.filter (fun t => decide (bucket t = key)) ≠ [] := by
    intro hnil
    have : t0 ∈ ts.filter (fun t => decide (bucket t = key)) :=
      List.mem_filter.mpr ⟨ht0, by simpa using hb0⟩
    rw [hnil] at this
    cases this
  have hlen : ((ts.filter (fun t => decide (bucket t = key))).length : ℚ) ≠ 0 := by
    have : (ts.filter (fun t => decide (bucket t = key))).length ≠ 0 := by
      intro h0
      exact hne (List.length_eq_zero.mp h0)
    exact_mod_cast this
  have hsum : ((ts.filter (fun t => decide (bucket t = key))).map (fun t => t.amount)).sum ≤
      ((ts.filter (fun t => decide (bucket t = key))).map
        (fun _ => mean (bucketAmounts ts key))).sum := by
    rw [List.map_const', List.sum_replicate, nsmul_eq_mul]
    unfold mean bucketAmounts
    rw [List.length_map, mul_div_cancel₀ _ hlen]
  obtain ⟨t, ht, hle⟩ := List.exists_le_of_sum_le hne _ _ hsum
  rw [List.mem_filter] at ht
  exact ⟨t, ht.1, by simpa using ht.2, hle⟩

/-- The mean of a non-empty list of positive amounts of at most `bound` is
positive and at most `bound`. -/
theorem mean_bounds (amounts : List ℚ) (bound : ℚ) (hne : amounts ≠ [])
    (hpos : ∀ a ∈ amounts, 0 < a) (hle : ∀ a ∈ amounts, a ≤ bound) :
    0 < mean amounts ∧ mean amounts ≤ bound := by
  have hlen : (0 : ℚ) < amounts.length := by
    have : 0 < amounts.length := List.length_pos.mpr hne
    exact_mod_cast this
  unfold mean
  refine ⟨div_pos (List.sum_pos amounts hpos hne) hlen, ?_⟩
  rw [div_le_iff₀ hlen]
  have h := List.sum_le_card_nsmul amounts bound hle
  rw [nsmul_eq_mul] at h
  linarith

/-- Claim C30: when every expense amount of the user is positive and at most
`Number.MAX_VALUE` (the category averages being the exact means, as the
averages query computes them), `detect_anomalies` returns, when its queries do
not fail, a list of anomalies that never holds every transaction of a
category: every non-empty category has an expense transaction that is in no
returned item, and no returned item belongs to a category with a single
expense transaction. The upper bound is the range in which `Number(t.amount)`
and `Number(row.avg_amount)` are finite: the declaration of the `amount` column
is not part of the sources, so the range of a stored amount is a premise. Within
it the mean of every non-empty category is positive and at most
`Number.MAX_VALUE`, so no average is `Infinity` or skipped as zero. -/
theorem detect_anomalies_spares_one (env : Env) (userId : Nat) (w : World)
    (hpos : ∀ t ∈ expensesOf userId w.db, 0 < t.amount)
    (hrange : ∀ t ∈ expensesOf userId w.db, t.amount ≤ JS.maxValue) :
    (env.queryFault w.queries = none → env.queryFault (w.queries + 1) = none →
      ∃ w1, detect_anomalies env userId w =
        .ok (.obj [("items", .arr ((anomalies (Sql.avgByCategoryId userId w.db)
          (Sql.selectExpenses userId w.db)).map (Anomaly.toJS env.pg)))]) w1) ∧
    (∀ key, (∃ t ∈ expensesOf userId w.db, bucket t = key) →
      ∃ t ∈ expensesOf userId w.db, bucket t = key ∧
        ∀ a ∈ anomalies (Sql.avgByCategoryId userId w.db) (Sql.selectExpenses userId w.db),
          a.transaction.transaction ≠ t) ∧
    (∀ key t, (expensesOf userId w.db).filter (fun x => decide (bucket x = key)) = [t] →
      ∀ a ∈ anomalies (Sql.avgByCategoryId userId w.db) (Sql.selectExpenses userId w.db),
        bucket a.transaction.transaction ≠ key) ∧
    (∀ key, (∃ t ∈ expensesOf userId w.db, bucket t = key) →
      0 < mean (bucketAmounts (expensesOf userId w.db) key) ∧
      mean (bucketAmounts (expensesOf userId w.db) key) ≤ JS.maxValue) := by
  have hflag : ∀ a ∈ anomalies (Sql.avgByCategoryId userId w.db)
      (Sql.selectExpenses userId w.db),
      a.transaction.transaction ∈ expensesOf userId w.db ∧
      a.transaction.transaction.amount ≥
        2 * mean (bucketAmounts (expensesOf userId w.db) (bucket a.transaction.transaction)) := by
    intro a ha
    rw [anomalies_mem] at ha
    obtain ⟨hrow, havg, _, hge⟩ := ha
    have hmem := selectExpenses_mem userId w.db _ hrow
    rw [havg, avg_getOrZero, if_pos ⟨_, hmem, rfl⟩] at hge
    exact ⟨hmem, hge⟩
  refine ⟨fun hq1 hq2 => ⟨_, detect_anomalies_returns env userId w hq1 hq2⟩, ?_, ?_, ?_⟩
  · intro key hkey
    obtain ⟨t, ht, hb, hle⟩ := exists_amount_le_mean (expensesOf userId w.db) key hkey
    refine ⟨t, ht, hb, ?_⟩
    intro a ha heq
    obtain ⟨_, hge⟩ := hflag a ha
    rw [heq, hb] at hge
    have := hpos t ht
    linarith
  · intro key t hsingle a ha hbucket
    obtain ⟨hmem, hge⟩ := hflag a ha
    have hin : a.transaction.transaction ∈
        (expensesOf userId w.db).filter (fun x => decide (bucket x = key)) :=
      List.mem_filter.mpr ⟨hmem, by simpa using hbucket⟩
    rw [hsingle, List.mem_singleton] at hin
    have hmean : mean (bucketAmounts (expensesOf userId w.db) key) = t.amount := by
      unfold mean bucketAmounts
      rw [hsingle]
      simp
    rw [hbucket, hmean, hin] at hge
    have : t ∈ expensesOf userId w.db := by
      have : t ∈ (expensesOf userId w.db).filter (fun x => decide (bucket x = key)) := by
        rw [hsingle]
        exact List.mem_singleton.mpr rfl
      exact (List.mem_filter.mp this).1
    have := hpos t this
    linarith
  · intro key hkey
    obtain ⟨t0, ht0, hb0⟩ := hkey
    have hin : ∀ a ∈ bucketAmounts (expensesOf userId w.db) key,
        ∃ t ∈ expensesOf userId w.db, t.amount = a := by
      intro a ha
      unfold bucketAmounts at ha
      obtain ⟨t, ht, rfl⟩ := List.mem_map.mp ha
      exact ⟨t, (List.mem_filter.mp ht).1, rfl⟩
    refine mean_bounds _ _ ?_ ?_ ?_
    · intro hnil
      have hmem : t0.amount ∈ bucketAmounts (expensesOf userId w.db) key :=
        List.mem_map.mpr ⟨t0, List.mem_filter.mpr ⟨ht0, by simpa using hb0⟩, rfl⟩
      rw [hnil] at hmem
      cases hmem
    · intro a ha
      obtain ⟨t, ht, rfl⟩ := hin a ha
      exact hpos t ht
    · intro a ha
      obtain ⟨t, ht, rfl⟩ := hin a ha
      exact hrange t ht

/-- Witness for claim C30: of the expenses 50, 50 and 200 of one category, one
is in no returned item. -/
theorem detect_anomalies_spares_one_witness :
    ∃ t ∈ expensesOf 1 Reference.anomalyDB, bucket t = 1 ∧
      ∀ a ∈ anomalies (Sql.avgByCategoryId 1 Reference.anomalyDB)
          (Sql.selectExpenses 1 Reference.anomalyDB),
        a.transaction.transaction ≠ t := by
  have hmem : ∀ t ∈ expensesOf 1 Reference.anomalyDB,
      t = Reference.expense 1 50 ∨ t = Reference.expense 2 50 ∨ t = Reference.expense 3 200 := by
    intro t ht
    have hlist : t ∈ [Reference.expense 1 50, Reference.expense 2 50, Reference.expense 3 200] :=
      ht
    simpa only [List.mem_cons, List.mem_singleton, List.not_mem_nil, or_false] using hlist
  have hpos : ∀ t ∈ expensesOf 1 Reference.anomalyDB, 0 < t.amount := by
    intro t ht
    rcases hmem t ht with h | h | h <;> rw [h] <;> norm_num [Reference.expense]
  have hrange : ∀ t ∈ expensesOf 1 Reference.anomalyDB, t.amount ≤ JS.maxValue := by
    intro t ht
    rcases hmem t ht with h | h | h <;> rw [h] <;> norm_num [Reference.expense, JS.maxValue]
  exact (detect_anomalies_spares_one (Reference.env Reference.noChoiceService) 1
    { db := Reference.anomalyDB, queries := 0, modelCalls := [] } hpos hrange).2.1 1
    ⟨Reference.expense 1 50, by decide, rfl⟩

/-! ## The log of a turn and the messages of the turn -/

theorem dispatchToolCalls_ok_log (env : Env) (userId : Nat) (toolCalls : List ToolCall)
    (messages messages1 : List Message) (w w1 : World)
    (h : dispatchToolCalls env userId toolCalls messages w = .ok messages1 w1) :
    ∃ done : List (ToolCall × JSValue),
      done.map Prod.fst = toolCalls ∧
      messages1 = messages ++ done.map (fun d => toolMessage env d.1 d.2) ∧
      w1.db.chat_messages.rows.map ChatMessage.payload =
        w.db.chat_messages.rows.map ChatMessage.payload ++
          (done.map (fun d => toolMessage env d.1 d.2)).map (Message.payload userId) ∧
      w1.modelCalls = w.modelCalls := by
  obtain ⟨done, wm, hd, _, hres⟩ := dispatchToolCalls_trace env userId toolCalls messages w
  rw [h] at hres
  obtain ⟨h1, h2, h3⟩ := hres
  subst h3
  refine ⟨done, h1, h2, ?_, ?_⟩
  · rw [dispatched_log env userId w w1 done hd]
    simp [Message.payload, toolMessage, Function.comp_def]
  · obtain ⟨extra, hx, hlen⟩ :=
      Eff.respects_of_ok (calls_dispatchToolCalls env userId toolCalls messages) h
    have : extra = [] := List.length_eq_zero.mp (Nat.le_zero.mp hlen)
    rw [hx, this, List.append_nil]

/-- The loop of a turn, when it returns: the `messages` array has grown by the
messages of the turn, the log has grown by the same messages in the same order,
each of them an assistant or a tool message, and every list sent to the model
service is an initial part of the final array that contains the array at the
entry of the loop. -/
theorem agentLoop_log (env : Env) (userId : Nat) (remaining : Nat) :
    ∀ messages w r w1, agentLoop env userId remaining messages w = .ok r w1 →
      ∃ extra calls,
        r.2 = messages ++ extra ∧
        w1.db.chat_messages.rows.map ChatMessage.payload =
          w.db.chat_messages.rows.map ChatMessage.payload ++
            extra.map (Message.payload userId) ∧
        (∀ m ∈ extra, m.role = "assistant" ∨ m.role = "tool") ∧
        w1.modelCalls = w.modelCalls ++ calls ∧
        ∀ s ∈ calls, messages <+: s ∧ s <+: r.2 := by
  induction remaining with
  | zero =>
    intro messages w r w1 h
    cases h
    exact ⟨[], [], by simp, by simp, by simp, by simp, by simp⟩
  | succ n ih =>
    intro messages w r w1 h
    rw [agentLoop] at h
    obtain ⟨completion, wa, hfetch, h⟩ := Eff.bind_eq_ok h
    obtain ⟨_, hwa⟩ := fetchChatCompletion_ok_inv env messages w wa completion hfetch
    subst hwa
    cases hfirst : completion.firstChoice with
    | none =>
      simp only [hfirst] at h
      cases h
      refine ⟨[], [messages], by simp, by simp, by simp, rfl, ?_⟩
      intro s hs
      rw [List.mem_singleton] at hs
      subst hs
      exact ⟨List.prefix_refl _, List.prefix_refl _⟩
    | some choice =>
      simp only [hfirst] at h
      have plain : ∀ (h : (query env (Sql.insertChatMessage userId "assistant"
          (contentOrEmpty choice.message) none) >>= fun _ =>
            (pure (some (contentOrEmpty choice.message),
              messages ++ [{ role := "assistant", content := contentOrEmpty choice.message }]) :
              Eff (Option String × List Message)))
            { w with modelCalls := w.modelCalls ++ [messages] } = .ok r w1),
          ∃ extra calls,
            r.2 = messages ++ extra ∧
            w1.db.chat_messages.rows.map ChatMessage.payload =
              w.db.chat_messages.rows.map ChatMessage.payload ++
                extra.map (Message.payload userId) ∧
            (∀ m ∈ extra, m.role = "assistant" ∨ m.role = "tool") ∧
            w1.modelCalls = w.modelCalls ++ calls ∧
            ∀ s ∈ calls, messages <+: s ∧ s <+: r.2 := by
        intro h
        obtain ⟨a, wb, hq, h⟩ := Eff.bind_eq_ok h
        cases h
        rcases query_insertChatMessage_cases env
          { w with modelCalls := w.modelCalls ++ [messages] } userId "assistant"
          (contentOrEmpty choice.message) none with ⟨e, hthrow⟩ | hok
        · rw [hthrow] at hq
          cases hq
        · rw [hok] at hq
          cases hq
          refine ⟨[{ role := "assistant", content := contentOrEmpty choice.message }],
            [messages], rfl, ?_, ?_, rfl, ?_⟩
          · simp [persisted, ChatMessage.payload, Message.payload]
          · intro m hm
            rw [List.mem_singleton] at hm
            subst hm
            exact Or.inl rfl
          · intro s hs
            rw [List.mem_singleton] at hs
            subst hs
            exact ⟨List.prefix_refl _, List.prefix_append _ _⟩
      cases htc : choice.message.tool_calls with
      | none =>
        simp only [htc] at h
        exact plain h
      | some tcs =>
        cases tcs with
        | nil =>
          simp only [htc] at h
          exact plain h
        | cons t rest =>
          simp only [htc] at h
          obtain ⟨a, wb, hq, h2⟩ := Eff.bind_eq_ok h
          obtain ⟨m1, wc, hd, hloop⟩ := Eff.bind_eq_ok h2
          clear h h2
          rcases query_insertChatMessage_cases env
            { w with modelCalls := w.modelCalls ++ [messages] } userId "assistant"
            (contentOrEmpty choice.message) none with ⟨e, hthrow⟩ | hok
          · rw [hthrow] at hq
            cases hq
          · rw [hok] at hq
            cases hq
            obtain ⟨done, hdone, hm1, hlog, hcalls⟩ :=
              dispatchToolCalls_ok_log env userId _ _ m1 _ wc hd
            obtain ⟨extra, calls, hr, hrows, hroles, hmc, hsent⟩ := ih m1 wc r w1 hloop
            subst hm1
            refine ⟨Message.mk "assistant" (contentOrEmpty choice.message) (some (t :: rest))
                none none :: done.map (fun d => toolMessage env d.1 d.2) ++ extra,
              messages :: calls, ?_, ?_, ?_, ?_, ?_⟩
            · rw [hr]
              simp [List.append_assoc]
            · rw [hrows, hlog]
              simp [persisted, ChatMessage.payload, Message.payload, List.append_assoc]
            · intro m hm
              simp only [List.cons_append, List.mem_cons, List.mem_append, List.mem_map] at hm
              rcases hm with hm | ⟨d, _, hm⟩ | hm
              · subst hm
                exact Or.inl rfl
              · subst hm
                exact Or.inr rfl
              · exact hroles m hm
            · rw [hmc, hcalls]
              simp [persisted, List.append_assoc]
            · intro s hs
              rw [List.mem_cons] at hs
              rcases hs with hs | hs
              · subst hs
                refine ⟨List.prefix_refl _, ?_⟩
                rw [hr, List.append_assoc, List.append_assoc]
                exact List.prefix_append _ _
              · obtain ⟨h1, h2⟩ := hsent s hs
                refine ⟨?_, h2⟩
                refine List.IsPrefix.trans ?_ h1
                rw [List.append_assoc]
                exact List.prefix_append _ _

/-- Claim C21: in every turn of `runAgent` that returns, the `messages` array at
the exit of the loop is the system message and the rebuilt history followed by
the messages of the turn (the new user message, then each assistant message
that requests tools, each tool result and the final assistant answer, in the
order of the exchange), and the rows that the turn has added to
`chat_messages` carry, in the same order, the `(role, content)` pairs of the
messages of the turn. No added row has the role `system`. Every list sent to
the model service during the turn is an initial part of that array. -/
theorem log_of_turn_is_exchange (env : Env) (userId : Nat) (message : String)
    (w w1 : World) (reply : Reply) (h : runAgent env userId message w = .ok reply w1) :
    ∃ (turn : List Message) (newRows : List ChatMessage) (final : Option String),
      agentLoop env userId 4 (turnMessages env userId message w)
          (turnStart env userId message w) =
        .ok (final, ({ role := "system", content := systemPrompt env } ::
          historyMessages (Sql.selectHistory userId w.db)) ++ turn) w1 ∧
      reply.message = finalText final ∧
      turn.head? = some { role := "user", content := message } ∧
      w1.db.chat_messages.rows = w.db.chat_messages.rows ++ newRows ∧
      newRows.map (fun row => (row.role, row.content)) =
        turn.map (fun m => (m.role, m.content)) ∧
      (∀ row ∈ newRows, row.role ≠ "system" ∧ row.user_id = userId) ∧
      ∃ calls, w1.modelCalls = w.modelCalls ++ calls ∧
        ∀ s ∈ calls, turnMessages env userId message w <+: s ∧
          s <+: ({ role := "system", content := systemPrompt env } ::
            historyMessages (Sql.selectHistory userId w.db)) ++ turn := by
  rw [runAgent] at h
  obtain ⟨historyRes, wa, hq1, h1⟩ := Eff.bind_eq_ok h
  obtain ⟨hhist, hwa⟩ := query_read_ok env _ w wa historyRes hq1
  subst hhist hwa
  obtain ⟨inserted, wb, hq2, h2⟩ := Eff.bind_eq_ok h1
  obtain ⟨r, wc, hloop, h3⟩ := Eff.bind_eq_ok h2
  clear h h1 h2
  obtain ⟨final, msgs⟩ := r
  cases h3
  rcases query_insertChatMessage_cases env { w with queries := w.queries + 1 } userId "user"
    message none with ⟨e, hthrow⟩ | hok
  · rw [hthrow] at hq2
    cases hq2
  · rw [hok] at hq2
    cases hq2
    obtain ⟨extra, calls, hr, hrows, hroles, hmc, hsent⟩ :=
      agentLoop_log env userId 4 _ _ (final, msgs) w1 hloop
    obtain ⟨x, hx⟩ := Eff.respects_of_ok (chatGrows_agentLoop env userId 4 _) hloop
    simp only at hr
    subst hr
    have hstart : (persisted env { w with queries := w.queries + 1 } userId "user" message
        none).db.chat_messages.rows =
          w.db.chat_messages.rows ++ [userRow env userId message w] := rfl
    have hpay : x.map ChatMessage.payload = extra.map (Message.payload userId) := by
      rw [hx, List.map_append] at hrows
      exact List.append_cancel_left hrows
    refine ⟨{ role := "user", content := message } :: extra,
      userRow env userId message w :: x, final, ?_, rfl, rfl, ?_, ?_, ?_, calls, hmc, ?_⟩
    · rw [show turnMessages env userId message w =
          ({ role := "system", content := systemPrompt env } ::
            historyMessages (Sql.selectHistory userId w.db)) ++
              [{ role := "user", content := message }] from rfl, turnStart] at *
      rw [hloop]
      simp [List.append_assoc]
    · rw [hx, hstart]
      simp [List.append_assoc]
    · have := congrArg (List.map (fun p : Nat × String × String × Option String =>
        (p.2.1, p.2.2.1))) hpay
      simp only [List.map_map] at this
      simp only [List.map_cons, userRow]
      congr 1
    · intro row hrow
      rw [List.mem_cons] at hrow
      rcases hrow with hrow | hrow
      · subst hrow
        exact ⟨by show "user" ≠ "system"; decide, rfl⟩
      · have hmem : row.payload ∈ x.map ChatMessage.payload := List.mem_map_of_mem _ hrow
        rw [hpay, List.mem_map] at hmem
        obtain ⟨m, hm, heq⟩ := hmem
        simp only [Message.payload, ChatMessage.payload, Prod.mk.injEq] at heq
        obtain ⟨huser, hrole, _, _⟩ := heq
        refine ⟨?_, huser.symm⟩
        rw [← hrole]
        rcases hroles m hm with h1 | h1 <;> rw [h1] <;> decide
    · intro s hs
      obtain ⟨h1, h2⟩ := hsent s hs
      refine ⟨h1, ?_⟩
      simpa [turnMessages, List.append_assoc] using h2

/-- Witness for claim C21: the model answers the first request with a plain
text. -/
theorem log_of_turn_is_exchange_witness :
    ∃ (turn : List Message) (newRows : List ChatMessage) (final : Option String),
      agentLoop (Reference.env (Reference.plainService "Hello!")) 1 4
          (turnMessages (Reference.env (Reference.plainService "Hello!")) 1 "Hi"
            Reference.emptyWorld)
          (turnStart (Reference.env (Reference.plainService "Hello!")) 1 "Hi"
            Reference.emptyWorld) =
        .ok (final, ({ role := "system",
                       content := systemPrompt (Reference.env (Reference.plainService "Hello!")) } ::
          historyMessages (Sql.selectHistory 1 Reference.emptyWorld.db)) ++ turn)
          (runAgent (Reference.env (Reference.plainService "Hello!")) 1 "Hi"
            Reference.emptyWorld).world ∧
      ({ message := "Hello!" } : Reply).message = finalText final ∧
      turn.head? = some { role := "user", content := "Hi" } ∧
      (runAgent (Reference.env (Reference.plainService "Hello!")) 1 "Hi"
          Reference.emptyWorld).world.db.chat_messages.rows =
        Reference.emptyWorld.db.chat_messages.rows ++ newRows ∧
      newRows.map (fun row => (row.role, row.content)) =
        turn.map (fun m => (m.role, m.content)) ∧
      (∀ row ∈ newRows, row.role ≠ "system" ∧ row.user_id = 1) ∧
      ∃ calls,
        (runAgent (Reference.env (Reference.plainService "Hello!")) 1 "Hi"
          Reference.emptyWorld).world.modelCalls = Reference.emptyWorld.modelCalls ++ calls ∧
        ∀ s ∈ calls,
          turnMessages (Reference.env (Reference.plainService "Hello!")) 1 "Hi"
            Reference.emptyWorld <+: s ∧
          s <+: ({ role := "system",
                   content := systemPrompt (Reference.env (Reference.plainService "Hello!")) } ::
            historyMessages (Sql.selectHistory 1 Reference.emptyWorld.db)) ++ turn :=
  log_of_turn_is_exchange (Reference.env (Reference.plainService "Hello!")) 1 "Hi"
    Reference.emptyWorld _ { message := "Hello!" } rfl

/-! ## The tool messages sent to the model service -/

theorem toolChained_of_no_tool (msgs : List Message) (h : ∀ m ∈ msgs, m.role ≠ "tool") :
    ToolChained msgs := by
  intro before m after heq hrole
  exact absurd hrole (h m (by rw [heq]; simp))

theorem toolChained_round (base : List Message) (a : Message) (tools : List Message)
    (hbase : ToolChained base) (ha : a.role = "assistant")
    (htools : ∀ t ∈ tools, t.role = "tool" ∧
      ∃ c ∈ a.tool_calls.getD [], t.tool_call_id = some c.id) :
    ToolChained (base ++ a :: tools) := by
  intro before m after heq hrole
  rw [List.append_eq_append_iff] at heq
  rcases heq with ⟨a1, hbefore, hrest⟩ | ⟨c1, hbase1, hrest⟩
  · cases a1 with
    | nil =>
      simp only [List.nil_append, List.cons.injEq] at hrest
      rw [← hrest.1, ha] at hrole
      exact absurd hrole (by decide)
    | cons x a2 =>
      simp only [List.cons_append, List.cons.injEq] at hrest
      obtain ⟨hx, htl⟩ := hrest
      subst hx
      refine ⟨base, a, a2, hbefore, ha, ?_, ?_⟩
      · intro y hy
        exact (htools y (by rw [htl]; simp [hy])).1
      · exact (htools m (by rw [htl]; simp)).2
  · cases c1 with
    | nil =>
      simp only [List.nil_append, List.cons.injEq] at hrest
      rw [hrest.1, ha] at hrole
      exact absurd hrole (by decide)
    | cons x c2 =>
      simp only [List.cons_append, List.cons.injEq] at hrest
      obtain ⟨hx, _⟩ := hrest
      subst hx
      exact hbase before m c2 hbase1 hrole

theorem calls_zero_eq (w w1 : World) (h : Calls 0 w w1) : w1.modelCalls = w.modelCalls := by
  obtain ⟨extra, hx, hlen⟩ := h
  have : extra = [] := List.length_eq_zero.mp (Nat.le_zero.mp hlen)
  rw [hx, this, List.append_nil]

/-- Every list that the loop of a turn sends to the model service extends the
`messages` array at the entry of the loop and is tool-chained, if that array
is. -/
theorem agentLoop_sent (env : Env) (userId : Nat) (remaining : Nat) :
    ∀ messages w, ToolChained messages →
      ∃ calls, (agentLoop env userId remaining messages w).world.modelCalls =
          w.modelCalls ++ calls ∧
        ∀ s ∈ calls, messages <+: s ∧ ToolChained s := by
  induction remaining with
  | zero =>
    intro messages w _
    exact ⟨[], by simp [agentLoop, Result.world], by simp⟩
  | succ n ih =>
    intro messages w hch
    have hone : ∀ s ∈ [messages], messages <+: s ∧ ToolChained s := by
      intro s hs
      rw [List.mem_singleton] at hs
      subst hs
      exact ⟨List.prefix_refl _, hch⟩
    have hfetch := fetchChatCompletion_calls env messages w
    rw [agentLoop]
    simp only [Eff.bind_apply]
    cases hf : fetchChatCompletion env messages w with
    | throw e wa =>
      rw [hf] at hfetch
      exact ⟨[messages], hfetch, hone⟩
    | ok completion wa =>
      rw [hf] at hfetch
      simp only [Result.world] at hfetch
      dsimp only
      have hplain : ∀ (m : Eff (Option String × List Message)), Eff.Respects (Calls 0) m →
          ∃ calls, (m wa).world.modelCalls = w.modelCalls ++ calls ∧
            ∀ s ∈ calls, messages <+: s ∧ ToolChained s := by
        intro m hm
        exact ⟨[messages], by rw [calls_zero_eq _ _ (hm wa), hfetch], hone⟩
      cases hfirst : completion.firstChoice with
      | none => exact hplain _ (Eff.respects_pure calls_refl _)
      | some choice =>
        simp only []
        cases htc : choice.message.tool_calls with
        | none =>
          exact hplain _ (calls_zero_bind (calls_query _ _)
            (fun _ => Eff.respects_pure calls_refl _))
        | some tcs =>
          cases tcs with
          | nil =>
            exact hplain _ (calls_zero_bind (calls_query _ _)
              (fun _ => Eff.respects_pure calls_refl _))
          | cons t rest =>
            simp only [Eff.bind_apply]
            cases hq : query env (Sql.insertChatMessage userId "assistant"
                (contentOrEmpty choice.message) none) wa with
            | throw e wb =>
              have := calls_zero_eq _ _ (Eff.respects_of_throw (calls_query env _) hq)
              exact ⟨[messages], by simp only [Result.world]; rw [this, hfetch], hone⟩
            | ok inserted wb =>
              have hwb := calls_zero_eq _ _ (Eff.respects_of_ok (calls_query env _) hq)
              simp only []
              cases hd : dispatchToolCalls env userId (t :: rest)
                  (messages ++ [{ role := "assistant", content := contentOrEmpty choice.message,
                                  tool_calls := some (t :: rest) }]) wb with
              | throw e wc =>
                have := calls_zero_eq _ _
                  (Eff.respects_of_throw (calls_dispatchToolCalls env userId _ _) hd)
                exact ⟨[messages], by simp only [Result.world]; rw [this, hwb, hfetch], hone⟩
              | ok m1 wc =>
                obtain ⟨done, hdone, hm1, _, hcalls⟩ :=
                  dispatchToolCalls_ok_log env userId _ _ m1 wb wc hd
                have hm1a : m1 = messages ++
                    Message.mk "assistant" (contentOrEmpty choice.message) (some (t :: rest))
                      none none :: done.map (fun d => toolMessage env d.1 d.2) := by
                  rw [hm1]
                  simp [List.append_assoc]
                have hch1 : ToolChained m1 := by
                  rw [hm1a]
                  refine toolChained_round messages _ _ hch rfl ?_
                  intro x hx
                  rw [List.mem_map] at hx
                  obtain ⟨d, hd1, rfl⟩ := hx
                  refine ⟨rfl, d.1, ?_, rfl⟩
                  show d.1 ∈ t :: rest
                  rw [← hdone]
                  exact List.mem_map_of_mem _ hd1
                obtain ⟨calls, hmc, hsent⟩ := ih m1 wc hch1
                refine ⟨messages :: calls, ?_, ?_⟩
                · simp only []
                  rw [hmc, hcalls, hwb, hfetch]
                  simp
                · intro s hs
                  rw [List.mem_cons] at hs
                  rcases hs with hs | hs
                  · subst hs
                    exact ⟨List.prefix_refl _, hch⟩
                  · obtain ⟨h1, h2⟩ := hsent s hs
                    refine ⟨List.IsPrefix.trans ?_ h1, h2⟩
                    rw [hm1a]
                    exact List.prefix_append _ _

theorem historyMessages_no_tool (rows : List ChatMessage) :
    ∀ m ∈ historyMessages rows, m.role ≠ "tool" := by
  intro m hm
  rw [historyMessages_eq, List.mem_map] at hm
  obtain ⟨r, hr, rfl⟩ := hm
  simpa using (List.mem_filter.mp hr).2

theorem toolChained_turnMessages (env : Env) (userId : Nat) (message : String) (w : World) :
    ToolChained (turnMessages env userId message w) := by
  apply toolChained_of_no_tool
  intro m hm
  simp only [turnMessages, List.cons_append, List.mem_cons, List.mem_append,
    List.mem_singleton, List.not_mem_nil, or_false] at hm
  rcases hm with hm | hm | hm
  · rw [hm]
    show "system" ≠ "tool"
    decide
  · exact historyMessages_no_tool _ m hm
  · rw [hm]
    show "user" ≠ "tool"
    decide

/-- Claim C23: every list of messages that a run of `runAgent` sends to the model
service starts with the system message, the rebuilt history and the new user
message, and the rebuilt history holds no tool message; in the list, every tool
message has a `tool_call_id` equal to the id of one of the `tool_calls` of the
nearest assistant message before it, and only tool messages lie between the
two. This holds for every run, whether it returns or throws. -/
theorem sent_tool_messages_answer_requests (env : Env) (userId : Nat) (message : String)
    (w : World) :
    (∀ m ∈ historyMessages (Sql.selectHistory userId w.db), m.role ≠ "tool") ∧
    ∃ calls, (runAgent env userId message w).world.modelCalls = w.modelCalls ++ calls ∧
      ∀ s ∈ calls,
        ({ role := "system", content := systemPrompt env } ::
          historyMessages (Sql.selectHistory userId w.db) ++
            [{ role := "user", content := message }]) <+: s ∧
        ∀ before m after, s = before ++ m :: after → m.role = "tool" →
          ∃ pre a between, before = pre ++ a :: between ∧ a.role = "assistant" ∧
            (∀ x ∈ between, x.role = "tool") ∧
            ∃ c ∈ a.tool_calls.getD [], m.tool_call_id = some c.id := by
  refine ⟨historyMessages_no_tool _, ?_⟩
  cases hq1 : env.queryFault w.queries with
  | some e =>
    refine ⟨[], ?_, by simp⟩
    rw [runAgent]
    simp only [Eff.bind_apply, query_fault env _ w e hq1]
    simp [Result.world]
  | none =>
    cases hq2 : env.queryFault (w.queries + 1) with
    | some e =>
      refine ⟨[], ?_, by simp⟩
      rw [runAgent]
      simp only [Eff.bind_apply, query_read env w _ hq1,
        query_fault env _ { w with queries := w.queries + 1 } e hq2]
      simp [Result.world]
    | none =>
      rw [runAgent_eq_loop env userId message w hq1 hq2, replyOf_world]
      obtain ⟨calls, hmc, hsent⟩ := agentLoop_sent env userId 4
        (turnMessages env userId message w) (turnStart env userId message w)
        (toolChained_turnMessages env userId message w)
      refine ⟨calls, ?_, ?_⟩
      · rw [hmc]
        rfl
      · intro s hs
        exact ⟨(hsent s hs).1, (hsent s hs).2⟩

/-! ## The coffee example, end to end -/

theorem parse_coffeeConversionCall :
    Reference.parse (argumentsText Reference.coffeeConversionCall) =
      .ok Reference.coffeeConversionArgs := rfl

theorem parse_coffeeTransactionCall :
    Reference.parse (argumentsText Reference.coffeeTransactionCall) =
      .ok Reference.coffeeTransactionArgs := rfl

theorem callTool_coffeeConversion (fetch : Nat → List Message → Except Exn HttpResponse)
    (userId : Nat) (w : World) :
    ∃ r, callTool (Reference.env fetch) userId Reference.coffeeConversionCall w = .ok r w ∧
      r.get "inr_amount" = .num 1670 ∧ r.get "exchange_rate" = .num 83.5 := by
  have hval : Reference.decimal false 20 0 0 0 = 20 := by norm_num [Reference.decimal]
  have hround : (JS.round ((20 : ℚ) * 83.50 * 100) : ℚ) / 100 = 1670 := by
    unfold JS.round
    norm_num
  have h1 := callTool_convert (Reference.env fetch) userId Reference.coffeeConversionCall w
    Reference.coffeeConversionArgs rfl parse_coffeeConversionCall
  rw [convert_supported (Reference.env fetch).js Reference.coffeeConversionArgs
    (Reference.decimal false 20 0 0 0) "USD" 83.50 rfl rfl
    (by show ("USD", (83.50 : ℚ)) ∈ _; exact List.mem_cons_self _ _)] at h1
  refine ⟨_, h1, ?_, ?_⟩
  · rw [get_inr_amount, hval, hround]
  · simp [JSValue.get]
    norm_num

theorem likeTokens_food :
    Reference.likeTokens (Reference.toLowerCase "Food & Dining").data =
      some ("food & dining".data.map Reference.LikeToken.literal) := rfl

theorem selectCategoryIlike_food (userId : Nat) (rows : List Category) :
    ∃ r, Sql.selectCategoryIlike Reference.postgres userId (some "Food & Dining")
      (some "expense") rows = .ok r := by
  induction rows with
  | nil => exact ⟨none, rfl⟩
  | cons c rest ih =>
    obtain ⟨r, hr⟩ := ih
    unfold Sql.selectCategoryIlike
    have hilike : Reference.postgres.ilike c.name "Food & Dining" =
        some (Reference.likeMatch ("food & dining".data.map Reference.LikeToken.literal)
          (Reference.toLowerCase c.name).data) := by
      show Reference.ilike c.name "Food & Dining" = _
      unfold Reference.ilike
      rw [likeTokens_food]
      rfl
    simp only [hilike]
    split
    · split
      · rename_i heq
        cases heq
      · split
        · exact ⟨_, rfl⟩
        · exact ⟨r, hr⟩
      · exact ⟨r, hr⟩
    · exact ⟨r, hr⟩

theorem insertTransaction_coffee (userId : Nat) (categoryId : Option Nat) (now : Nat)
    (db : DB) :
    Sql.insertTransaction Reference.postgres userId (.num (Reference.decimal false 1670 0 0 0))
        (.str "expense") categoryId (.str "Coffee Shop") .null (.str "2025-01-15") now db =
      .ok ({ id := db.transactions.nextId, user_id := userId,
             amount := Reference.decimal false 1670 0 0 0, type := "expense",
             category_id := categoryId, merchant := some "Coffee Shop", description := none,
             date := "2025-01-15", receipt_url := none, created_at := now },
           { db with transactions :=
              { rows := db.transactions.rows ++
                  [{ id := db.transactions.nextId, user_id := userId,
                     amount := Reference.decimal false 1670 0 0 0, type := "expense",
                     category_id := categoryId, merchant := some "Coffee Shop",
                     description := none, date := "2025-01-15", receipt_url := none,
                     created_at := now }],
                nextId := db.transactions.nextId + 1 } }) := by
  unfold Sql.insertTransaction
  rw [numeric_natural "amount" 1670 rfl]
  rfl

/-- A call of `add_transaction` with a category name for which the lookup finds
no category: the category is created and the transaction is inserted with it. -/
theorem add_transaction_creates (env : Env) (userId : Nat) (args : JSValue) (w : World)
    (id : Nat) (dbc : DB) (row : Transaction) (db1 : DB)
    (hobj : args.nullish = false)
    (htruthy : ((args.get "category_name").withDefault .null).truthy = true)
    (hq1 : env.queryFault w.queries = none) (hq2 : env.queryFault (w.queries + 1) = none)
    (hq3 : env.queryFault (w.queries + 2) = none)
    (hsel : Sql.selectCategoryIlike env.pg userId
      (Sql.param env.pg ((args.get "category_name").withDefault .null))
      (Sql.param env.pg (args.get "type")) w.db.categories.rows = .ok none)
    (hcat : Sql.insertCategory userId
      (Sql.param env.pg ((args.get "category_name").withDefault .null))
      (Sql.param env.pg (args.get "type")) w.db = .ok (id, dbc))
    (hins : Sql.insertTransaction env.pg userId (args.get "amount") (args.get "type") (some id)
      ((args.get "merchant").withDefault .null) ((args.get "description").withDefault .null)
      ((args.get "date").or (.str env.today)) (env.clock (w.queries + 2)) dbc = .ok (row, db1)) :
    add_transaction env userId args w =
      .ok (.obj [("transaction", .obj (row.toFields env.pg))])
        { db := db1, queries := w.queries + 3, modelCalls := w.modelCalls } := by
  unfold add_transaction
  simp only [Eff.bind_apply, requireObjectCoercible, hobj, Bool.false_eq_true, if_false,
    Eff.ofExcept_ok, htruthy, if_true]
  rw [query_ok env _ w none w.db hq1 (by simp only [hsel, Except.map])]
  simp only [Eff.bind_apply, Eff.pure_apply]
  rw [query_ok env _ { db := w.db, queries := w.queries + 1, modelCalls := w.modelCalls } id dbc
    hq2 hcat]
  simp only [Eff.bind_apply, Eff.pure_apply]
  rw [query_ok env _ { db := dbc, queries := w.queries + 1 + 1, modelCalls := w.modelCalls }
    row db1 hq3 hins]

/-- The dispatch of the transaction request of the coffee example, from any
state: it returns and appends one transaction of 1670 at "Coffee Shop" (and a
category "Food & Dining" when the lookup finds none). -/
theorem callTool_coffeeTransaction (fetch : Nat → List Message → Except Exn HttpResponse)
    (userId : Nat) (w : World) :
    ∃ r w1 row, callTool (Reference.env fetch) userId Reference.coffeeTransactionCall w =
        .ok r w1 ∧
      w1.modelCalls = w.modelCalls ∧ w1.db.chat_messages = w.db.chat_messages ∧
      w1.db.transactions.rows = w.db.transactions.rows ++ [row] ∧
      row.user_id = userId ∧ row.amount = 1670 ∧ row.type = "expense" ∧
      row.merchant = some "Coffee Shop" ∧ row.date = "2025-01-15" := by
  have hval : Reference.decimal false 1670 0 0 0 = 1670 := by norm_num [Reference.decimal]
  rw [callTool_add_transaction (Reference.env fetch) userId Reference.coffeeTransactionCall w
    Reference.coffeeTransactionArgs rfl parse_coffeeTransactionCall]
  obtain ⟨found, hfound⟩ := selectCategoryIlike_food userId w.db.categories.rows
  cases found with
  | some id =>
    refine ⟨_, _, _, add_transaction_reuses (Reference.env fetch) userId
      Reference.coffeeTransactionArgs w id _ _ rfl rfl rfl rfl hfound
      (insertTransaction_coffee userId (some id) _ w.db), rfl, rfl, rfl, rfl, hval, rfl, rfl,
      rfl⟩
  | none =>
    refine ⟨_, _, _, add_transaction_creates (Reference.env fetch) userId
      Reference.coffeeTransactionArgs w w.db.categories.nextId _ _ _ rfl rfl rfl rfl rfl hfound
      rfl (insertTransaction_coffee userId (some w.db.categories.nextId) _ _), rfl, rfl, rfl,
      rfl, hval, rfl, rfl, rfl⟩

theorem coffeeService_first (start : Nat) (answer : String) (messages : List Message) :
    completionOf (Reference.env (Reference.coffeeService start answer)) start messages =
      some (Reference.completion none (some [Reference.coffeeConversionCall])) := by
  simp [completionOf, Reference.env, Reference.coffeeService, Reference.respond,
    HttpResponse.ok, Except.toOption]

theorem coffeeService_second (start : Nat) (answer : String) (messages : List Message) :
    completionOf (Reference.env (Reference.coffeeService start answer)) (start + 1) messages =
      some (Reference.completion none (some [Reference.coffeeTransactionCall])) := by
  simp [completionOf, Reference.env, Reference.coffeeService, Reference.respond,
    HttpResponse.ok, Except.toOption]

theorem coffeeService_third (start : Nat) (answer : String) (messages : List Message) :
    completionOf (Reference.env (Reference.coffeeService start answer)) (start + 2) messages =
      some (Reference.completion (some answer) none) := by
  simp [completionOf, Reference.env, Reference.coffeeService, Reference.respond,
    HttpResponse.ok, Except.toOption]

/-- An iteration of the loop in which the model asks for one tool, when the
insert of the assistant row and of the tool row do not fail and the dispatch is
known to return from every state with a result that satisfies `P`. -/
theorem agentLoop_round_of (env : Env) (userId : Nat) (n : Nat) (messages : List Message)
    (w : World) (toolCall : ToolCall) (P : JSValue → World → World → Prop)
    (hc : completionOf env w.modelCalls.length messages =
      some (Reference.completion none (some [toolCall])))
    (hDb : env.databaseUp)
    (hcall : ∀ W, ∃ r W1, callTool env userId toolCall W = .ok r W1 ∧ P r W W1) :
    ∃ r W1,
      P r (persisted env { w with modelCalls := w.modelCalls ++ [messages] } userId
        "assistant" "" none) W1 ∧
      agentLoop env userId (n + 1) messages w =
        agentLoop env userId n
          (messages ++ [{ role := "assistant", content := "", tool_calls := some [toolCall] },
            toolMessage env toolCall r])
          (persisted env W1 userId "tool" (env.js.stringify r)
            (some toolCall.function.name)) := by
  obtain ⟨r, W1, hr, hP⟩ := hcall
    (persisted env { w with modelCalls := w.modelCalls ++ [messages] } userId "assistant" ""
      none)
  refine ⟨r, W1, hP, ?_⟩
  rw [agentLoop_tool_round env userId n messages w _ _ toolCall [] hc rfl rfl (hDb _)]
  simp only [Eff.bind_apply]
  have hd := dispatchToolCalls_cons_ok env userId toolCall [] (messages ++
      [{ role := "assistant", content := "", tool_calls := some [toolCall] }]) _ W1 r hr
    (hDb _)
  have hc1 : contentOrEmpty (ModelMessage.mk none (some [toolCall])) = "" := rfl
  simp only [hc1] at hd ⊢
  rw [hd]
  simp only [dispatchToolCalls, Eff.pure_apply, toolMessage, List.append_assoc,
    List.singleton_append]

/-- A turn in which the model service asks for the conversion, then for the
transaction, then answers with a text, in an environment in which no query
fails and the two dispatches return as stated: three model calls, one inserted
transaction and six persisted messages; the text returned is `finalText` of the
answer. -/
theorem coffee_run_of (env : Env) (userId : Nat) (message : String) (w : World)
    (answer : String) (hDb : env.databaseUp)
    (hf1 : ∀ msgs, completionOf env w.modelCalls.length msgs =
      some (Reference.completion none (some [Reference.coffeeConversionCall])))
    (hf2 : ∀ msgs, completionOf env (w.modelCalls.length + 1) msgs =
      some (Reference.completion none (some [Reference.coffeeTransactionCall])))
    (hf3 : ∀ msgs, completionOf env (w.modelCalls.length + 2) msgs =
      some (Reference.completion (some answer) none))
    (h1 : ∀ W, ∃ r, callTool env userId Reference.coffeeConversionCall W = .ok r W ∧
      r.get "inr_amount" = .num 1670 ∧ r.get "exchange_rate" = .num 83.5)
    (h2 : ∀ W, ∃ r W1 row, callTool env userId Reference.coffeeTransactionCall W = .ok r W1 ∧
      W1.modelCalls = W.modelCalls ∧ W1.db.chat_messages = W.db.chat_messages ∧
      W1.db.transactions.rows = W.db.transactions.rows ++ [row] ∧
      row.user_id = userId ∧ row.amount = 1670 ∧ row.type = "expense" ∧
      row.merchant = some "Coffee Shop" ∧ row.date = "2025-01-15") :
    ∃ r1 r2 w1 row,
      runAgent env userId message w = .ok { message := finalText (some answer) } w1 ∧
      r1.get "inr_amount" = .num 1670 ∧ r1.get "exchange_rate" = .num 83.5 ∧
      w1.modelCalls = w.modelCalls ++
        [turnMessages env userId message w,
         turnMessages env userId message w ++
           [{ role := "assistant", content := "",
              tool_calls := some [Reference.coffeeConversionCall] },
            toolMessage env Reference.coffeeConversionCall r1],
         turnMessages env userId message w ++
           [{ role := "assistant", content := "",
              tool_calls := some [Reference.coffeeConversionCall] },
            toolMessage env Reference.coffeeConversionCall r1,
            { role := "assistant", content := "",
              tool_calls := some [Reference.coffeeTransactionCall] },
            toolMessage env Reference.coffeeTransactionCall r2]] ∧
      w1.db.transactions.rows = w.db.transactions.rows ++ [row] ∧
      row.user_id = userId ∧ row.amount = 1670 ∧ row.type = "expense" ∧
      row.merchant = some "Coffee Shop" ∧ row.date = "2025-01-15" ∧
      w1.db.chat_messages.rows.map ChatMessage.payload =
        w.db.chat_messages.rows.map ChatMessage.payload ++
          [(userId, "user", message, none),
           (userId, "assistant", "", none),
           (userId, "tool", env.js.stringify r1, some "convert_currency_to_inr"),
           (userId, "assistant", "", none),
           (userId, "tool", env.js.stringify r2, some "add_transaction"),
           (userId, "assistant", answer, none)] := by
  obtain ⟨r1, W1, ⟨hW1, hinr, hrate⟩, e1⟩ := agentLoop_round_of env userId 3
    (turnMessages env userId message w) (turnStart env userId message w)
    Reference.coffeeConversionCall
    (fun r W W1 => W1 = W ∧ r.get "inr_amount" = .num 1670 ∧ r.get "exchange_rate" = .num 83.5)
    (hf1 _) hDb
    (fun W => by
      obtain ⟨r, hr, hp⟩ := h1 W
      exact ⟨r, W, hr, rfl, hp⟩)
  have hlen1 : (persisted env W1 userId "tool" (env.js.stringify r1)
      (some Reference.coffeeConversionCall.function.name)).modelCalls.length =
        w.modelCalls.length + 1 := by
    rw [hW1]
    simp [persisted, turnStart]
  obtain ⟨r2, W3, ⟨row, hmc, hchat, htx, hrow⟩, e2⟩ := agentLoop_round_of env userId 2
    (turnMessages env userId message w ++
      [{ role := "assistant", content := "",
         tool_calls := some [Reference.coffeeConversionCall] },
       toolMessage env Reference.coffeeConversionCall r1])
    (persisted env W1 userId "tool" (env.js.stringify r1)
      (some Reference.coffeeConversionCall.function.name))
    Reference.coffeeTransactionCall
    (fun _ W W1 => ∃ row : Transaction,
      W1.modelCalls = W.modelCalls ∧ W1.db.chat_messages = W.db.chat_messages ∧
      W1.db.transactions.rows = W.db.transactions.rows ++ [row] ∧
      row.user_id = userId ∧ row.amount = 1670 ∧ row.type = "expense" ∧
      row.merchant = some "Coffee Shop" ∧ row.date = "2025-01-15")
    (by rw [hlen1]; exact hf2 _) hDb
    (fun W => by
      obtain ⟨r, Wb, row, hr, hp⟩ := h2 W
      exact ⟨r, Wb, hr, row, hp⟩)
  have hlen2 : (persisted env W3 userId "tool" (env.js.stringify r2)
      (some Reference.coffeeTransactionCall.function.name)).modelCalls.length =
        w.modelCalls.length + 2 := by
    show W3.modelCalls.length = _
    rw [hmc, hW1]
    simp [persisted, turnStart]
  have e3 := agentLoop_plain env userId 1
    (turnMessages env userId message w ++
      [{ role := "assistant", content := "",
         tool_calls := some [Reference.coffeeConversionCall] },
       toolMessage env Reference.coffeeConversionCall r1] ++
      [{ role := "assistant", content := "",
         tool_calls := some [Reference.coffeeTransactionCall] },
       toolMessage env Reference.coffeeTransactionCall r2])
    (persisted env W3 userId "tool" (env.js.stringify r2)
      (some Reference.coffeeTransactionCall.function.name))
    (Reference.completion (some answer) none) _
    (by rw [hlen2]; exact hf3 _) rfl rfl (hDb _)
  have hrun := (runAgent_eq_loop env userId message w (hDb _) (hDb _)).trans
    (congrArg replyOf (e1.trans (e2.trans e3)))
  refine ⟨r1, r2, _, row, hrun, hinr, hrate, ?_, ?_, hrow.1, hrow.2.1, hrow.2.2.1,
    hrow.2.2.2.1, hrow.2.2.2.2, ?_⟩
  · subst hW1
    simp [persisted, hmc, turnStart, toolMessage]
  · subst hW1
    simp [persisted, htx, turnStart]
  · subst hW1
    simp [persisted, hchat, turnStart, ChatMessage.payload, Reference.coffeeConversionCall,
      Reference.coffeeTransactionCall, contentOrEmpty, Reference.completion]

/-- The coffee example in the reference environment, from any state and for any
answer text. -/
theorem coffee_run (userId : Nat) (w : World) (answer : String) :
    ∃ r1 r2 w1 row,
      runAgent (Reference.env (Reference.coffeeService w.modelCalls.length answer)) userId
          "I spent 20 dollars on coffee" w =
        .ok { message := finalText (some answer) } w1 ∧
      r1.get "inr_amount" = .num 1670 ∧ r1.get "exchange_rate" = .num 83.5 ∧
      w1.modelCalls = w.modelCalls ++
        [turnMessages (Reference.env (Reference.coffeeService w.modelCalls.length answer))
            userId "I spent 20 dollars on coffee" w,
         turnMessages (Reference.env (Reference.coffeeService w.modelCalls.length answer))
            userId "I spent 20 dollars on coffee" w ++
           [{ role := "assistant", content := "",
              tool_calls := some [Reference.coffeeConversionCall] },
            { role := "tool", name := some "convert_currency_to_inr",
              content := Reference.stringify r1, tool_call_id := some "call_a" }],
         turnMessages (Reference.env (Reference.coffeeService w.modelCalls.length answer))
            userId "I spent 20 dollars on coffee" w ++
           [{ role := "assistant", content := "",
              tool_calls := some [Reference.coffeeConversionCall] },
            { role := "tool", name := some "convert_currency_to_inr",
              content := Reference.stringify r1, tool_call_id := some "call_a" },
            { role := "assistant", content := "",
              tool_calls := some [Reference.coffeeTransactionCall] },
            { role := "tool", name := some "add_transaction",
              content := Reference.stringify r2, tool_call_id := some "call_b" }]] ∧
      w1.db.transactions.rows = w.db.transactions.rows ++ [row] ∧
      row.user_id = userId ∧ row.amount = 1670 ∧ row.type = "expense" ∧
      row.merchant = some "Coffee Shop" ∧ row.date = "2025-01-15" ∧
      w1.db.chat_messages.rows.map ChatMessage.payload =
        w.db.chat_messages.rows.map ChatMessage.payload ++
          [(userId, "user", "I spent 20 dollars on coffee", none),
           (userId, "assistant", "", none),
           (userId, "tool", Reference.stringify r1, some "convert_currency_to_inr"),
           (userId, "assistant", "", none),
           (userId, "tool", Reference.stringify r2, some "add_transaction"),
           (userId, "assistant", answer, none)] :=
  coffee_run_of (Reference.env (Reference.coffeeService w.modelCalls.length answer)) userId
    "I spent 20 dollars on coffee" w answer (fun _ => rfl)
    (coffeeService_first _ _) (coffeeService_second _ _) (coffeeService_third _ _)
    (callTool_coffeeConversion _ userId) (callTool_coffeeTransaction _ userId)

/-- Claim C24, as the code has it: when the model answers the user message
"I spent 20 dollars on coffee" first with a request for
`convert_currency_to_inr(20, "USD")`, then with a request for
`add_transaction(amount 1670, type "expense", merchant "Coffee Shop",
category_name "Food & Dining")`, then with a non-empty plain text `T`, `runAgent`
(in the reference environment, for every user and from every state) returns
`{ message: T }` after exactly three model calls; the first tool result, fed
back in the second and third call, has `inr_amount` 1670 and `exchange_rate`
83.5; one transaction of 1670 at "Coffee Shop" is inserted; and the rows
persisted for the turn are exactly: user, assistant, tool
(`convert_currency_to_inr`), assistant, tool (`add_transaction`),
assistant (`T`). -/
theorem coffee_turn_end_to_end (userId : Nat) (w : World) (T : String) (hT : T ≠ "") :
    ∃ r1 r2 w1 row,
      runAgent (Reference.env (Reference.coffeeService w.modelCalls.length T)) userId
          "I spent 20 dollars on coffee" w = .ok { message := T } w1 ∧
      r1.get "inr_amount" = .num 1670 ∧ r1.get "exchange_rate" = .num 83.5 ∧
      w1.modelCalls = w.modelCalls ++
        [turnMessages (Reference.env (Reference.coffeeService w.modelCalls.length T))
            userId "I spent 20 dollars on coffee" w,
         turnMessages (Reference.env (Reference.coffeeService w.modelCalls.length T))
            userId "I spent 20 dollars on coffee" w ++
           [{ role := "assistant", content := "",
              tool_calls := some [Reference.coffeeConversionCall] },
            { role := "tool", name := some "convert_currency_to_inr",
              content := Reference.stringify r1, tool_call_id := some "call_a" }],
         turnMessages (Reference.env (Reference.coffeeService w.modelCalls.length T))
            userId "I spent 20 dollars on coffee" w ++
           [{ role := "assistant", content := "",
              tool_calls := some [Reference.coffeeConversionCall] },
            { role := "tool", name := some "convert_currency_to_inr",
              content := Reference.stringify r1, tool_call_id := some "call_a" },
            { role := "assistant", content := "",
              tool_calls := some [Reference.coffeeTransactionCall] },
            { role := "tool", name := some "add_transaction",
              content := Reference.stringify r2, tool_call_id := some "call_b" }]] ∧
      w1.db.transactions.rows = w.db.transactions.rows ++ [row] ∧
      row.user_id = userId ∧ row.amount = 1670 ∧ row.type = "expense" ∧
      row.merchant = some "Coffee Shop" ∧ row.date = "2025-01-15" ∧
      w1.db.chat_messages.rows.map ChatMessage.payload =
        w.db.chat_messages.rows.map ChatMessage.payload ++
          [(userId, "user", "I spent 20 dollars on coffee", none),
           (userId, "assistant", "", none),
           (userId, "tool", Reference.stringify r1, some "convert_currency_to_inr"),
           (userId, "assistant", "", none),
           (userId, "tool", Reference.stringify r2, some "add_transaction"),
           (userId, "assistant", T, none)] := by
  have htext : finalText (some T) = T := by simp [finalText, hT]
  have h := coffee_run userId w T
  rw [htext] at h
  exact h

/-- Witness for claim C24: user 1, an empty database and the answer "Logged."
-/
theorem coffee_turn_end_to_end_witness :
    ∃ w1,
      runAgent (Reference.env (Reference.coffeeService 0 "Logged.")) 1
          "I spent 20 dollars on coffee" Reference.emptyWorld = .ok { message := "Logged." } w1 ∧
      w1.modelCalls.length = 3 ∧
      w1.db.transactions.rows.map (fun t => (t.amount, t.merchant)) =
        [(1670, some "Coffee Shop")] ∧
      w1.db.chat_messages.rows.map (fun m => (m.role, m.tool_name)) =
        [("user", none), ("assistant", none), ("tool", some "convert_currency_to_inr"),
         ("assistant", none), ("tool", some "add_transaction"), ("assistant", none)] := by
  obtain ⟨r1, r2, w1, row, hrun, _, _, hmc, htx, _, hamount, _, hmerchant, _, hlog⟩ :=
    coffee_turn_end_to_end 1 Reference.emptyWorld "Logged." (by decide)
  refine ⟨w1, hrun, ?_, ?_, ?_⟩
  · rw [hmc]
    rfl
  · rw [htx]
    simp [Reference.emptyWorld, Reference.emptyDB, hamount, hmerchant]
  · have h := congrArg (List.map (fun p : Nat × String × String × Option String =>
      (p.2.1, p.2.2.2))) hlog
    simpa [List.map_map, ChatMessage.payload, Function.comp_def, Reference.emptyWorld,
      Reference.emptyDB] using h

/-- Counterexample to claim C24 as stated: the third response is the empty
text; every step of the example happens, but `runAgent` returns the fallback
text, not `{ message: "" }`. -/
theorem coffee_turn_with_empty_answer :
    (∃ w1, runAgent (Reference.env (Reference.coffeeService 0 "")) 1
        "I spent 20 dollars on coffee" Reference.emptyWorld =
      .ok { message := fallbackMessage } w1) ∧
    ({ message := fallbackMessage } : Reply) ≠ { message := "" } := by
  obtain ⟨_, _, w1, _, hrun, _⟩ := coffee_run 1 Reference.emptyWorld ""
  exact ⟨⟨w1, hrun⟩, by decide⟩

/-- Witness for claim C23: in the coffee example the second request carries the
result of the conversion as a tool message; it follows the assistant message
that asked for the conversion, with nothing between the two, and its
`tool_call_id` is the id of that request. -/
theorem sent_tool_messages_answer_requests_witness :
    ∃ s before m after,
      s ∈ (runAgent (Reference.env (Reference.coffeeService 0 "Logged.")) 1
        "I spent 20 dollars on coffee" Reference.emptyWorld).world.modelCalls ∧
      s = before ++ m :: after ∧ m.role = "tool" ∧
      ∃ pre a between, before = pre ++ a :: between ∧ a.role = "assistant" ∧
        (∀ x ∈ between, x.role = "tool") ∧
        ∃ c ∈ a.tool_calls.getD [], m.tool_call_id = some c.id := by
  obtain ⟨r1, r2, w1, row, hrun, _, _, hmc, _⟩ := coffee_run 1 Reference.emptyWorld "Logged."
  obtain ⟨calls, hcalls, hall⟩ := (sent_tool_messages_answer_requests
    (Reference.env (Reference.coffeeService 0 "Logged.")) 1 "I spent 20 dollars on coffee"
    Reference.emptyWorld).2
  have hworld : (runAgent (Reference.env (Reference.coffeeService 0 "Logged.")) 1
      "I spent 20 dollars on coffee" Reference.emptyWorld).world = w1 := by
    have h := congrArg Result.world hrun
    exact h
  rw [hworld] at hcalls ⊢
  have hmem : turnMessages
        (Reference.env (Reference.coffeeService Reference.emptyWorld.modelCalls.length "Logged."))
        1 "I spent 20 dollars on coffee" Reference.emptyWorld ++
      [{ role := "assistant", content := "",
         tool_calls := some [Reference.coffeeConversionCall] },
       { role := "tool", name := some "convert_currency_to_inr",
         content := Reference.stringify r1, tool_call_id := some "call_a" }] ∈ calls := by
    have hc := List.append_cancel_left (hmc.symm.trans hcalls)
    rw [← hc]
    exact List.mem_cons_of_mem _ (List.mem_cons_self _ _)
  have hw1 := hcalls ▸ List.mem_append_right Reference.emptyWorld.modelCalls hmem
  have key := (hall _ hmem).2
    (turnMessages
        (Reference.env (Reference.coffeeService Reference.emptyWorld.modelCalls.length "Logged."))
        1 "I spent 20 dollars on coffee" Reference.emptyWorld ++
      [{ role := "assistant", content := "",
         tool_calls := some [Reference.coffeeConversionCall] }])
    { role := "tool", name := some "convert_currency_to_inr",
      content := Reference.stringify r1, tool_call_id := some "call_a" } [] (by simp) rfl
  exact ⟨_, _, _, [], hw1, by simp, rfl, key⟩

end FinanceTracker
